import Mathlib

/-! # Washing-machine control panel: model and properties

A model of `src/main.cpp` (an mbed program) and proofs of properties of its load guard `load`,
temperature watchdog `temp`, stage runner `blinkLED`, cycle supervisor `cycles`, melody loop
`playMelody` and the loop of `main`.

Modelling conventions.

* Arithmetic. `float` and `double` expressions are evaluated as IEEE 754 binary32 / binary64 with
  round-to-nearest-even: a value is the rational number it denotes, and every operation rounds
  its exact result with `fround`. Overflow to infinity is outside the model; every value computed
  here from a 32-bit `int` or a sensor reading in `[0, 1]` is far below the overflow threshold.
* Inputs. Each input pin is a stream of readings; a read takes the next entry. Analog pins
  deliver the value of `AnalogIn::read()`.
* Time. The clock counts milliseconds and advances only in sleeps, by the requested amount.
  `Timer::read()` is the time since the timer was started or reset, in seconds.
* Loops that wait for the outside world take a fuel argument; running out is `Fault.outOfFuel`.
* `printf` output is left out.
-/

namespace WashingMachine

/-! ## Floating-point arithmetic -/

/-- Round a rational to the nearest integer, ties to the even one. -/
def roundHalfEven (x : ℚ) : ℤ :=
  if x - ⌊x⌋ < 1 / 2 then ⌊x⌋
  else if 1 / 2 < x - ⌊x⌋ then ⌊x⌋ + 1
  else if ⌊x⌋ % 2 = 0 then ⌊x⌋ else ⌊x⌋ + 1

/-- A binary floating-point format: the precision in bits and the exponent of the smallest
positive (subnormal) value. -/
structure FloatFormat where
  prec : ℕ
  emin : ℤ

/-- IEEE 754 single precision, the `float` of the target. -/
def binary32 : FloatFormat := ⟨24, -149⟩

/-- IEEE 754 double precision, the `double` of the target. -/
def binary64 : FloatFormat := ⟨53, -1074⟩

/-- Exponent of the unit in the last place of the format at the magnitude of `q`. -/
def ulpExp (fmt : FloatFormat) (q : ℚ) : ℤ :=
  max (Int.log 2 |q| - ((fmt.prec : ℤ) - 1)) fmt.emin

/-- Round `q` to the nearest value of the format, ties to even. -/
def fround (fmt : FloatFormat) (q : ℚ) : ℚ :=
  roundHalfEven (q / (2 : ℚ) ^ ulpExp fmt q) * (2 : ℚ) ^ ulpExp fmt q

/-- Rounding to `float`. -/
def f32 (q : ℚ) : ℚ := fround binary32 q

/-- Rounding to `double`. -/
def f64 (q : ℚ) : ℚ := fround binary64 q

/-- Conversion of an `int` to `double`. -/
def intToDouble (n : ℤ) : ℚ := f64 n

/-- `static_cast<int>` of a floating-point value: truncation toward zero. -/
def truncToInt (q : ℚ) : ℤ := if 0 ≤ q then ⌊q⌋ else ⌈q⌉

/-- `#define ERROR_THRESHOLD 0.2`: the `double` literal. -/
def ERROR_THRESHOLD : ℚ := f64 (2 / 10)

/-! ## Hardware model -/

/-- Ways a run of the model can fail to produce a result. -/
inductive Fault where
  | outOfFuel
  | outOfBounds
  | uninitialised
  deriving DecidableEq, Repr

/-- The values the input pins deliver: the `k`-th read of a pin returns the `k`-th entry of its
stream. -/
structure Inputs where
  switchButton : ℕ → Bool
  button_door : ℕ → Bool
  cycleButton : ℕ → Bool
  FSR : ℕ → ℚ
  TMP : ℕ → ℚ
  potentiometer : ℕ → ℚ

/-- The three stage indicators that `blinkLED` can be handed by reference. -/
inductive Led where
  | led1
  | led2
  | led3
  deriving DecidableEq, Repr

/-- The pulse-width outputs: the three colours of the status LED and the buzzer. -/
inductive Pwm where
  | red_LED
  | green_LED
  | blue_LED
  | buzzer
  deriving DecidableEq, Repr

/-- A write to an output pin. For a pulse-width output the value is the argument passed to
`write` (or assigned), and `period` is the argument of `buzzer.period`. -/
inductive Write where
  | lock (v : Bool)
  | led (l : Led) (v : Bool)
  | segments (v : ℕ)
  | pwm (p : Pwm) (v : ℚ)
  | period (v : ℚ)
  deriving DecidableEq, Repr

/-- Mutable state: the clock in milliseconds, how many times each input has been read, the output
pins, the global `cycleComplete`, and the output writes so far (oldest first). -/
structure Machine where
  clock : ℕ
  switchReads : ℕ
  doorReads : ℕ
  cycleReads : ℕ
  fsrReads : ℕ
  tmpReads : ℕ
  potReads : ℕ
  lock_led : Bool
  led1 : Bool
  led2 : Bool
  led3 : Bool
  segments : ℕ
  cycleComplete : Bool
  writes : List Write
  deriving DecidableEq, Repr

namespace Machine

/-- Power-on state: all outputs low, `cycleComplete = false`. -/
def init : Machine :=
  { clock := 0, switchReads := 0, doorReads := 0, cycleReads := 0, fsrReads := 0, tmpReads := 0,
    potReads := 0, lock_led := false, led1 := false, led2 := false, led3 := false,
    segments := 0, cycleComplete := false, writes := [] }

/-- `ThisThread::sleep_for` / `thread_sleep_for`: the clock advances by the requested time. -/
def sleep (ms : ℕ) (s : Machine) : Machine := { s with clock := s.clock + ms }

/-- `segments = v`. -/
def setSegments (v : ℕ) (s : Machine) : Machine :=
  { s with segments := v, writes := s.writes ++ [Write.segments v] }

/-- `lock_led = v`. -/
def setLock (v : Bool) (s : Machine) : Machine :=
  { s with lock_led := v, writes := s.writes ++ [Write.lock v] }

/-- Read a stage indicator through its reference. -/
def getLed (l : Led) (s : Machine) : Bool :=
  match l with
  | .led1 => s.led1
  | .led2 => s.led2
  | .led3 => s.led3

/-- Write a stage indicator through its reference. -/
def setLed (l : Led) (v : Bool) (s : Machine) : Machine :=
  match l with
  | .led1 => { s with led1 := v, writes := s.writes ++ [Write.led .led1 v] }
  | .led2 => { s with led2 := v, writes := s.writes ++ [Write.led .led2 v] }
  | .led3 => { s with led3 := v, writes := s.writes ++ [Write.led .led3 v] }

end Machine

/-! ## `displayError` and `load` -/

/-- `displayError`: spells "overload" on the display, half a second per letter, then clears. -/
def displayError (s : Machine) : Machine :=
  let s := (s.setSegments 0x3F).sleep 500
  let s := (s.setSegments 0x3E).sleep 500
  let s := (s.setSegments 0x79).sleep 500
  let s := (s.setSegments 0x50).sleep 500
  let s := (s.setSegments 0x38).sleep 500
  let s := (s.setSegments 0x3F).sleep 500
  let s := (s.setSegments 0x77).sleep 500
  let s := (s.setSegments 0x5E).sleep 500
  s.setSegments 0x00

/-- `static_cast<int>(FSR.read() * 120)` for a sensor reading. -/
def forceValue (reading : ℚ) : ℤ := truncToInt (f32 (reading * f32 120))

/-- The poll loop of `load`: `none` is the early `return false` on a released switch, `some h` is
leaving the loop (door closed) with `highestForce = h`. -/
def loadLoop (env : Inputs) : ℕ → ℤ → Machine → Except Fault (Option ℤ × Machine)
  | 0, _, _ => .error .outOfFuel
  | fuel + 1, highestForce, s =>
    let door := env.button_door s.doorReads
    let s := { s with doorReads := s.doorReads + 1 }
    if door then .ok (some highestForce, s)
    else
      let sw := env.switchButton s.switchReads
      let s := { s with switchReads := s.switchReads + 1 }
      if !sw then .ok (none, s)
      else
        let force := forceValue (env.FSR s.fsrReads)
        let s := { s with fsrReads := s.fsrReads + 1 }
        let highestForce := if force > highestForce then force else highestForce
        loadLoop env fuel highestForce (s.sleep 100)

/-- `load`: the result `true` is Safe; `false` is Overloaded or Aborted. -/
def load (env : Inputs) (fuel : ℕ) (s : Machine) : Except Fault (Bool × Machine) :=
  let s := s.sleep 1000
  match loadLoop env fuel 0 s with
  | .error e => .error e
  | .ok (none, s) => .ok (false, s)
  | .ok (some highestForce, s) =>
    if highestForce > 108 then
      let s := displayError s
      let s := s.setSegments 0x00
      .ok (false, s)
    else
      let s := s.setLock true
      let s := s.setSegments 0x00
      .ok (true, s)

/-! ## `temp` -/

/-- `static_cast<int>(TMP.read() * 330)` for a sensor reading. -/
def tempSample (reading : ℚ) : ℤ := truncToInt (f32 (reading * f32 330))

/-- The test of `temp`:
`tempInt > comparisonTemp * (1 + ERROR_THRESHOLD) || tempInt < comparisonTemp * (1 - ERROR_THRESHOLD)`,
evaluated in `double`. -/
def tempOutOfRange (comparisonTemp tempInt : ℤ) : Bool :=
  decide (intToDouble tempInt > f64 (intToDouble comparisonTemp * f64 (1 + ERROR_THRESHOLD))
    ∨ intToDouble tempInt < f64 (intToDouble comparisonTemp * f64 (1 - ERROR_THRESHOLD)))

/-- `temp`: one temperature sample against the band around `comparisonTemp`; an anomaly is
followed by a five-second sleep. The source's `while (true)` returns in its first pass on both
branches, so there is no iteration. -/
def temp (env : Inputs) (comparisonTemp : ℤ) (s : Machine) : Bool × Machine :=
  let tempInt := tempSample (env.TMP s.tmpReads)
  let s := { s with tmpReads := s.tmpReads + 1 }
  if tempOutOfRange comparisonTemp tempInt then (true, s.sleep 5000)
  else (false, s)

/-! ## `displayDigit` and `blinkLED` -/

/-- The segment table of `displayDigit`: five initialisers in an array of six. -/
def patterns : List ℕ := [0x06, 0x5B, 0x4F, 0x66, 0x6D, 0x00]

/-- `displayDigit`: `segments = patterns[digit - 1]`; an index outside the array is a fault. -/
def displayDigit (digit : ℤ) (s : Machine) : Except Fault Machine :=
  if 0 ≤ digit - 1 ∧ digit - 1 < 6 then
    .ok (s.setSegments (patterns.getD (digit - 1).toNat 0))
  else .error .outOfBounds

/-- What one pass of the `while(1)` body of `blinkLED` does: return from the function, or go
round again with the timer's start time. -/
inductive Tick where
  | returned (result : Bool) (s : Machine)
  | again (timerStart : ℕ) (s : Machine)
  deriving DecidableEq, Repr

/-- `timer.read()`: seconds since the timer was started or last reset. -/
def timerRead (timerStart : ℕ) (s : Machine) : ℚ := ((s.clock : ℚ) - (timerStart : ℚ)) / 1000

/-- `led = !led;` followed by the 500 ms sleep that ends a Running pass. -/
def toggleAndWait (led : Led) (s : Machine) : Machine :=
  (s.setLed led (!s.getLed led)).sleep 500

/-- `led = 1;` followed by the final one-second sleep. -/
def holdOn (led : Led) (s : Machine) : Machine :=
  (s.setLed led true).sleep 1000

/-- One pass of the loop body of `blinkLED`. `timer.reset(); continue;` is going round again with
the timer started at the current clock value. -/
def blinkTick (env : Inputs) (led : Led) (duration : ℚ) (stage : Char) (tmp : ℤ)
    (timerStart : ℕ) (s : Machine) : Except Fault Tick :=
  let sw := env.switchButton s.switchReads
  let s := { s with switchReads := s.switchReads + 1 }
  if !sw then .ok (.returned false s)
  else
    let s := s.sleep 1000
    if timerRead timerStart s < duration then
      if stage = 'w' then
        match displayDigit 1 s with
        | .error e => .error e
        | .ok s =>
          match temp env tmp s with
          | (true, s) => .ok (.again s.clock s)
          | (false, s) => .ok (.again timerStart (toggleAndWait led s))
      else if stage = 's' then
        match displayDigit 3 s with
        | .error e => .error e
        | .ok s => .ok (.again timerStart (toggleAndWait led s))
      else if stage = 'r' then
        match displayDigit 2 s with
        | .error e => .error e
        | .ok s => .ok (.again timerStart (toggleAndWait led s))
      else .ok (.again timerStart (toggleAndWait led s))
    else
      if stage = 'w' then
        match displayDigit 1 s with
        | .error e => .error e
        | .ok s => .ok (.returned true (holdOn led s))
      else if stage = 's' then
        match displayDigit 3 s with
        | .error e => .error e
        | .ok s => .ok (.returned true (holdOn led s))
      else if stage = 'r' then
        match displayDigit 2 s with
        | .error e => .error e
        | .ok s => .ok (.returned true (holdOn led s))
      else .ok (.returned true (holdOn led s))

/-- The `while(1)` loop of `blinkLED`. -/
def blinkLoop (env : Inputs) (led : Led) (duration : ℚ) (stage : Char) (tmp : ℤ) :
    ℕ → ℕ → Machine → Except Fault (Bool × Machine)
  | 0, _, _ => .error .outOfFuel
  | fuel + 1, timerStart, s =>
    match blinkTick env led duration stage tmp timerStart s with
    | .error e => .error e
    | .ok (.returned r s) => .ok (r, s)
    | .ok (.again t s) => blinkLoop env led duration stage tmp fuel t s

/-- `blinkLED`: start a timer and run the loop; `true` is Completed, `false` is Aborted. -/
def blinkLED (env : Inputs) (fuel : ℕ) (led : Led) (duration : ℚ) (stage : Char) (tmp : ℤ)
    (s : Machine) : Except Fault (Bool × Machine) :=
  blinkLoop env led duration stage tmp fuel s.clock s

/-! ## `cycles` -/

/-- The dial band computed in `cycles`: `static_cast<int>((voltage / 3.3f) * 5) + 1` with
`voltage = potentiometer.read() * 3.3f`, all in `float`. -/
def dialOption (reading : ℚ) : ℤ :=
  let voltage := f32 (reading * f32 (33 / 10))
  truncToInt (f32 (f32 (voltage / f32 (33 / 10)) * f32 5)) + 1

/-- The three `blinkLED` calls of one `case` of the switch in `cycles`, with the values of
`led1_result`, `led2_result`, `led3_result`. -/
def runStages (env : Inputs) (fuel : ℕ) (wash rinse spin : ℚ) (s : Machine) :
    Except Fault (Bool × Bool × Bool × Machine) :=
  match blinkLED env fuel .led1 wash 'w' 30 s with
  | .error e => .error e
  | .ok (led1_result, s) =>
    match blinkLED env fuel .led2 rinse 'r' 30 s with
    | .error e => .error e
    | .ok (led2_result, s) =>
      match blinkLED env fuel .led3 spin 's' 30 s with
      | .error e => .error e
      | .ok (led3_result, s) => .ok (led1_result, led2_result, led3_result, s)

/-- The `switch(option)` of `cycles`. With no matching case the three result variables are read
uninitialised by the assignment that follows. -/
def runOption (env : Inputs) (fuel : ℕ) (option : ℤ) (s : Machine) :
    Except Fault (Bool × Bool × Bool × Machine) :=
  if option = 1 then runStages env fuel 4 3 7 s
  else if option = 2 then runStages env fuel 13 10 5 s
  else if option = 3 then runStages env fuel (23 / 2) 8 4 s
  else if option = 4 then runStages env fuel 12 8 (15 / 2) s
  else if option = 5 then runStages env fuel (25 / 2) 13 10 s
  else .error .uninitialised

/-- What one pass of the `while (!cycleComplete)` loop of `cycles` does: leave `cycles`, or go
round again. -/
inductive Pass where
  | returned (s : Machine)
  | again (s : Machine)
  deriving DecidableEq, Repr

/-- One pass of the loop of `cycles`: the loop test and the loop body. -/
def cyclesPass (env : Inputs) (fuel : ℕ) (s : Machine) : Except Fault Pass :=
  if s.cycleComplete then .ok (.returned s)
  else
    let sw := env.switchButton s.switchReads
    let s := { s with switchReads := s.switchReads + 1 }
    if !sw then .ok (.returned s)
    else
      let option := dialOption (env.potentiometer s.potReads)
      let s := { s with potReads := s.potReads + 1 }
      match displayDigit option s with
      | .error e => .error e
      | .ok s =>
        let pressed := env.cycleButton s.cycleReads
        let s := { s with cycleReads := s.cycleReads + 1 }
        if pressed then
          match runOption env fuel option s with
          | .error e => .error e
          | .ok (led1_result, led2_result, led3_result, s) =>
            .ok (.again { s with cycleComplete := led1_result && led2_result && led3_result })
        else .ok (.again s)

/-- The `while (!cycleComplete)` loop of `cycles`. -/
def cyclesLoop (env : Inputs) : ℕ → Machine → Except Fault Machine
  | 0, _ => .error .outOfFuel
  | fuel + 1, s =>
    match cyclesPass env fuel s with
    | .error e => .error e
    | .ok (.returned s) => .ok s
    | .ok (.again s) => cyclesLoop env fuel s

/-- `cycles`; its result is left in `cycleComplete`. -/
def cycles (env : Inputs) (fuel : ℕ) (s : Machine) : Except Fault Machine :=
  cyclesLoop env fuel s

/-! ## `playMelody` and one pass of `main` -/

/-- `NOTE_C2`. -/
def NOTE_C2 : ℤ := 65

/-- `NOTE_E2`. -/
def NOTE_E2 : ℤ := 82

/-- `NOTE_G2`. -/
def NOTE_G2 : ℤ := 98

/-- `NOTE_A2`. -/
def NOTE_A2 : ℤ := 110

/-- `NOTE_C3`. -/
def NOTE_C3 : ℤ := 131

/-- `NOTE_E3`. -/
def NOTE_E3 : ℤ := 165

/-- `NOTE_G3`. -/
def NOTE_G3 : ℤ := 196

/-- `NOTE_A3`. -/
def NOTE_A3 : ℤ := 220

/-- `SIXTEENTH_NOTE_DURATION`, in milliseconds. -/
def SIXTEENTH_NOTE_DURATION : ℕ := 125

/-- The notes of the melody. -/
def drill_melody : List ℤ :=
  [NOTE_C2, NOTE_E2, NOTE_G2, NOTE_A2, NOTE_C3, NOTE_E3, NOTE_G3, NOTE_A3]

/-- The durations of the notes of the melody. -/
def drill_note_durations : List ℕ :=
  [SIXTEENTH_NOTE_DURATION, SIXTEENTH_NOTE_DURATION, SIXTEENTH_NOTE_DURATION,
    SIXTEENTH_NOTE_DURATION, SIXTEENTH_NOTE_DURATION, SIXTEENTH_NOTE_DURATION,
    SIXTEENTH_NOTE_DURATION, SIXTEENTH_NOTE_DURATION]

/-- `p.write(v)` or `p = v` for a pulse-width output. -/
def pwmWrite (p : Pwm) (v : ℚ) (s : Machine) : Machine :=
  { s with writes := s.writes ++ [Write.pwm p v] }

/-- `buzzer.period(v)`. -/
def setPeriod (v : ℚ) (s : Machine) : Machine :=
  { s with writes := s.writes ++ [Write.period v] }

/-- The four writes that turn the buzzer and the status LED off. -/
def silence (s : Machine) : Machine :=
  let s := pwmWrite .buzzer 0 s
  let s := pwmWrite .red_LED 0 s
  let s := pwmWrite .green_LED 0 s
  pwmWrite .blue_LED 0 s

/-- `change_LED_color`: `steps` fading steps of 50 ms, computed in `float`. The source's `int
steps` is only ever 10. -/
def change_LED_color (red green blue : ℚ) (steps : ℕ) (s : Machine) : Machine :=
  let red_step := f32 (red / f32 steps)
  let green_step := f32 (green / f32 steps)
  let blue_step := f32 (blue / f32 steps)
  (List.range steps).foldl (fun s i =>
    let s := pwmWrite .red_LED (f32 (red - f32 (f32 i * red_step))) s
    let s := pwmWrite .green_LED (f32 (green - f32 (f32 i * green_step))) s
    let s := pwmWrite .blue_LED (f32 (blue - f32 (f32 i * blue_step))) s
    s.sleep 50) s

/-- `play_note_with_LEDs`, for a non-zero frequency. The colour intensities are `double`
expressions converted to the `float` parameter of `write`. -/
def play_note_with_LEDs (frequency : ℤ) (duration : ℕ) (s : Machine) : Machine :=
  let s := setPeriod (f32 (1 / f32 frequency)) s
  let s := pwmWrite .buzzer (f32 (1 / 2)) s
  let intensity := f32 (f32 (frequency - NOTE_C2) / f32 (NOTE_A3 - NOTE_C2))
  let s := pwmWrite .red_LED (f32 (f64 (intensity * f64 (9 / 10)))) s
  let s := pwmWrite .green_LED (f32 (f64 (f64 (7 / 10) - f64 (intensity * f64 (5 / 10))))) s
  let s := pwmWrite .blue_LED (f32 (f64 (intensity * f64 (8 / 10)))) s
  let s := change_LED_color (f32 (f64 (1 - intensity))) intensity 0 10 s
  let s := s.sleep duration
  silence s

/-- The `for` loop of `playMelody` over the remaining notes: `true` is the `return` taken when
the door button reads pressed (after clearing `cycleComplete`), `false` is the end of the loop. -/
def melodyNotes (env : Inputs) : List (ℤ × ℕ) → Machine → Bool × Machine
  | [], s => (false, s)
  | (frequency, duration) :: rest, s =>
    let door := env.button_door s.doorReads
    let s := { s with doorReads := s.doorReads + 1 }
    if door then (true, { s with cycleComplete := false })
    else melodyNotes env rest (play_note_with_LEDs frequency duration s)

/-- `playMelody`: the loop `while(switchButton && !button_door)`; the door button is not read
when the switch reads off. -/
def playMelody (env : Inputs) : ℕ → Machine → Except Fault Machine
  | 0, _ => .error .outOfFuel
  | fuel + 1, s =>
    let sw := env.switchButton s.switchReads
    let s := { s with switchReads := s.switchReads + 1 }
    if !sw then .ok s
    else
      let door := env.button_door s.doorReads
      let s := { s with doorReads := s.doorReads + 1 }
      if door then .ok s
      else
        match melodyNotes env (drill_melody.zip drill_note_durations) s with
        | (true, s) => .ok s
        | (false, s) => playMelody env fuel (silence s)

/-- The writes that end both branches of a pass of `main`: lock, stage indicators and display
off. -/
def clearIndicators (s : Machine) : Machine :=
  let s := s.setLock false
  let s := s.setLed .led1 false
  let s := s.setLed .led2 false
  let s := s.setLed .led3 false
  s.setSegments 0x00

/-- One pass of the `while (true)` loop of `main`, with the global `machineOn` passed in and
returned. -/
def mainPass (env : Inputs) (fuel : ℕ) (machineOn : Bool) (s : Machine) :
    Except Fault (Bool × Machine) :=
  let sw := env.switchButton s.switchReads
  let s := { s with switchReads := s.switchReads + 1 }
  if sw then
    let machineOn := if !machineOn then true else machineOn
    let s := pwmWrite .red_LED 0 s
    let s := pwmWrite .green_LED 1 s
    let s := pwmWrite .blue_LED 0 s
    match load env fuel s with
    | .error e => .error e
    | .ok (true, s) =>
      match cycles env fuel s with
      | .error e => .error e
      | .ok s =>
        if s.cycleComplete then
          match playMelody env fuel s with
          | .error e => .error e
          | .ok s => .ok (machineOn, clearIndicators s)
        else .ok (machineOn, clearIndicators s)
    | .ok (false, s) => .ok (machineOn, clearIndicators s)
  else
    let machineOn := if machineOn then false else machineOn
    let s := { s with cycleComplete := false }
    let s := pwmWrite .red_LED 0 s
    let s := pwmWrite .green_LED 0 s
    let s := pwmWrite .blue_LED 0 s
    let s := clearIndicators s
    .ok (machineOn, s.sleep 100)

/-- The first `passes` passes of the loop of `main`. -/
def mainLoop (env : Inputs) (fuel : ℕ) : ℕ → Bool → Machine → Except Fault (Bool × Machine)
  | 0, machineOn, s => .ok (machineOn, s)
  | passes + 1, machineOn, s =>
    match mainPass env fuel machineOn s with
    | .error e => .error e
    | .ok (machineOn, s) => mainLoop env fuel passes machineOn s

/-! ## Specification-side notions -/

/-- The values of the `n` force samples taken from sensor read `start` on. -/
def forceSamples (env : Inputs) (start n : ℕ) : List ℤ :=
  (List.range' start n).map (fun k => forceValue (env.FSR k))

/-- Peak force of a load attempt: the largest of 0 and the samples taken. -/
def peakForce (env : Inputs) (start n : ℕ) : ℤ :=
  (forceSamples env start n).foldl max 0

/-- The catalog of cycle profiles: the (wash, rinse, spin) durations in seconds that the cases
1 to 5 of the switch in `cycles` pass to `blinkLED`. -/
def profile (option : ℤ) : ℚ × ℚ × ℚ :=
  if option = 1 then (4, 3, 7)
  else if option = 2 then (13, 10, 5)
  else if option = 3 then (23 / 2, 8, 4)
  else if option = 4 then (12, 8, 15 / 2)
  else (25 / 2, 13, 10)

/-- The state in which the stages of a cycle start: the state `s` at the top of a pass of the
loop of `cycles`, after the switch poll, the dial read, the preview digit for `option` and the
button read of that pass. -/
def stagesStart (option : ℤ) (s : Machine) : Machine :=
  { ({ s with switchReads := s.switchReads + 1, potReads := s.potReads + 1 } : Machine).setSegments
      (patterns.getD (option - 1).toNat 0) with cycleReads := s.cycleReads + 1 }

/-- Equality of results is decidable, so that concrete runs can be checked by evaluation. -/
instance instDecidableEqExcept {ε α : Type} [DecidableEq ε] [DecidableEq α] :
    DecidableEq (Except ε α)
  | .ok a, .ok b => if h : a = b then isTrue (congrArg Except.ok h)
      else isFalse (fun h' => h (Except.ok.inj h'))
  | .error a, .error b => if h : a = b then isTrue (congrArg Except.error h)
      else isFalse (fun h' => h (Except.error.inj h'))
  | .ok _, .error _ => isFalse (fun h => Except.noConfusion h)
  | .error _, .ok _ => isFalse (fun h => Except.noConfusion h)

/-- The number of writes to the stage indicator `l` in a list of writes. -/
def ledWrites (l : Led) (ws : List Write) : ℕ :=
  ws.countP (fun w => match w with
    | .led l' _ => decide (l' = l)
    | _ => false)

/-- The state in which a pass of `main` that reads the switch on calls `load`: after the switch
read and the three writes that set the status LED to green. -/
def mainLoadStart (s : Machine) : Machine :=
  pwmWrite .blue_LED 0 (pwmWrite .green_LED 1 (pwmWrite .red_LED 0
    { s with switchReads := s.switchReads + 1 }))

/-- The timer start and the state with which pass `n` (counted from 0) of the loop of `blinkLED`
begins, when the loop is entered with the timer started at `timerStart` in state `s`; `none` when
an earlier pass has returned or faulted. -/
def passStart (env : Inputs) (led : Led) (duration : ℚ) (stage : Char) (tmp : ℤ) :
    ℕ → ℕ → Machine → Option (ℕ × Machine)
  | 0, timerStart, s => some (timerStart, s)
  | n + 1, timerStart, s =>
    match blinkTick env led duration stage tmp timerStart s with
    | .ok (.again t s') => passStart env led duration stage tmp n t s'
    | _ => none

/-- The values written to the stage indicator `l` in a list of writes, oldest first. -/
def ledValues (l : Led) (ws : List Write) : List Bool :=
  ws.filterMap (fun w => match w with
    | .led l' v => if l' = l then some v else none
    | _ => none)

/-- The values that `n` successive toggles write to an indicator that shows `b`:
`!b`, `b`, `!b`, ... -/
def toggleValues (b : Bool) : ℕ → List Bool
  | 0 => []
  | n + 1 => (!b) :: toggleValues (!b) n

/-- The state after `j` preview passes of the loop of `cycles` from state `s`: passes that read
the switch on and the button not pressed, each with one switch poll, one dial read, one preview
digit and one button read. -/
def afterPreviews (env : Inputs) : ℕ → Machine → Machine
  | 0, s => s
  | j + 1, s => afterPreviews env j (stagesStart (dialOption (env.potentiometer s.potReads)) s)

/-! ## Sample inputs and states -/

/-- Inputs of a load attempt: the door is open for two polls and then closed, the switch is on,
and the force sensor reads 29/32 of full scale (108 units). -/
def loadEnv : Inputs :=
  { switchButton := fun _ => true, button_door := fun k => decide (2 ≤ k),
    cycleButton := fun _ => false, FSR := fun _ => 29 / 32, TMP := fun _ => 0,
    potentiometer := fun _ => 0 }

/-- As `loadEnv`, with the force sensor at 233/256 of full scale (109 units). -/
def overloadEnv : Inputs :=
  { loadEnv with FSR := fun _ => 233 / 256 }

/-- Inputs whose temperature sensor reads 1/8 of full scale (41 degrees). -/
def warmEnv : Inputs :=
  { switchButton := fun _ => true, button_door := fun _ => true, cycleButton := fun _ => true,
    FSR := fun _ => 0, TMP := fun _ => 1 / 8, potentiometer := fun _ => 0 }

/-- Inputs with the safety switch released throughout. -/
def offEnv : Inputs :=
  { switchButton := fun _ => false, button_door := fun _ => false, cycleButton := fun _ => true,
    FSR := fun _ => 0, TMP := fun _ => 1 / 8, potentiometer := fun _ => 0 }

/-- Inputs with the switch on, the cycle button pressed, the dial at zero, and a temperature
sensor that reads 41 degrees for its first two samples and 30 degrees afterwards. -/
def twoAnomaliesEnv : Inputs :=
  { switchButton := fun _ => true, button_door := fun _ => true, cycleButton := fun _ => true,
    FSR := fun _ => 0, TMP := fun k => if k < 2 then 1 / 8 else 3 / 32,
    potentiometer := fun _ => 0 }

/-- Inputs whose safety switch reads on at every read except the second, with the cycle button
held pressed, the dial at zero and the temperature in the band. -/
def blipEnv : Inputs :=
  { switchButton := fun k => decide (k ≠ 1), button_door := fun _ => true,
    cycleButton := fun _ => true, FSR := fun _ => 0, TMP := fun _ => 3 / 32,
    potentiometer := fun _ => 0 }

/-- Inputs whose safety switch reads on at the first read and released ever after, with the cycle
button held pressed and the dial at zero. -/
def releaseEnv : Inputs :=
  { switchButton := fun k => decide (k = 0), button_door := fun _ => true,
    cycleButton := fun _ => true, FSR := fun _ => 0, TMP := fun _ => 3 / 32,
    potentiometer := fun _ => 0 }

/-- The state after the stages of profile 1 under `blipEnv`, started from
`stagesStart 1 Machine.init`: rinse and spin have blinked and hold their indicators on. -/
def blipStagesDone : Machine :=
  { Machine.init with
    clock := 13000, switchReads := 10, cycleReads := 1, potReads := 1, led2 := true,
    led3 := true, segments := 0x4F,
    writes := [.segments 0x06, .segments 0x5B, .led .led2 true, .segments 0x5B,
      .led .led2 false, .segments 0x5B, .led .led2 true, .segments 0x4F, .led .led3 true,
      .segments 0x4F, .led .led3 false, .segments 0x4F, .led .led3 true, .segments 0x4F,
      .led .led3 false, .segments 0x4F, .led .led3 true] }

/-- The state after the wash stage of profile 1 under `twoAnomaliesEnv`, started from
`stagesStart 1 Machine.init`: two anomaly passes, then two toggles and the final hold. -/
def washDone : Machine :=
  { Machine.init with
    clock := 17000, switchReads := 6, cycleReads := 1, tmpReads := 4, potReads := 1,
    led1 := true, segments := 0x06,
    writes := [.segments 0x06, .segments 0x06, .segments 0x06, .segments 0x06,
      .led .led1 true, .segments 0x06, .led .led1 false, .segments 0x06, .led .led1 true] }

/-- The state after the rinse stage that follows `washDone`. -/
def rinseDone : Machine :=
  { washDone with
    clock := 22000, switchReads := 9, led2 := true, segments := 0x5B,
    writes := washDone.writes ++ [.segments 0x5B, .led .led2 true, .segments 0x5B,
      .led .led2 false, .segments 0x5B, .led .led2 true] }

/-- The state after the spin stage that follows `rinseDone`. -/
def spinDone : Machine :=
  { rinseDone with
    clock := 30000, switchReads := 14, led3 := true, segments := 0x4F,
    writes := rinseDone.writes ++ [.segments 0x4F, .led .led3 true, .segments 0x4F,
      .led .led3 false, .segments 0x4F, .led .led3 true, .segments 0x4F, .led .led3 false,
      .segments 0x4F, .led .led3 true] }

/-- The state in which `cycles` returns under `blipEnv`: after the aborted first cycle a second
cycle has run to completion. -/
def blipCyclesDone : Machine :=
  { Machine.init with
    clock := 31000, switchReads := 22, cycleReads := 2, tmpReads := 2, potReads := 2,
    led1 := true, led2 := true, led3 := true, segments := 0x4F, cycleComplete := true,
    writes := blipStagesDone.writes ++ [.segments 0x06, .segments 0x06, .led .led1 true,
      .segments 0x06, .led .led1 false, .segments 0x06, .led .led1 true, .segments 0x5B,
      .led .led2 false, .segments 0x5B, .led .led2 true, .segments 0x5B, .led .led2 true,
      .segments 0x4F, .led .led3 false, .segments 0x4F, .led .led3 true, .segments 0x4F,
      .led .led3 false, .segments 0x4F, .led .led3 true, .segments 0x4F, .led .led3 true] }

/-- Inputs with the door open throughout and a safety switch that reads on at the first read and
released ever after. -/
def doorOpenEnv : Inputs :=
  { switchButton := fun k => decide (k = 0), button_door := fun _ => false,
    cycleButton := fun _ => false, FSR := fun _ => 29 / 32, TMP := fun _ => 3 / 32,
    potentiometer := fun _ => 0 }

/-- Inputs of a preview: the dial at half scale, the cycle button never pressed, and a safety
switch that reads on twice and released ever after. -/
def previewEnv : Inputs :=
  { switchButton := fun k => decide (k < 2), button_door := fun _ => true,
    cycleButton := fun _ => false, FSR := fun _ => 0, TMP := fun _ => 3 / 32,
    potentiometer := fun _ => 1 / 2 }

/-- The state after a 3 s rinse stage run from `Machine.init` with the switch on: two toggles and
the final hold. -/
def rinseAlone : Machine :=
  { Machine.init with
    clock := 5000, switchReads := 3, led2 := true, segments := 0x5B,
    writes := [.segments 0x5B, .led .led2 true, .segments 0x5B, .led .led2 false,
      .segments 0x5B, .led .led2 true] }

/-- Inputs of an undisturbed cycle: the switch on, the door closed, the cycle button pressed, the
dial at zero (band 1), the force sensor at 13/32 of full scale (48 units) and the temperature at
30 degrees. -/
def quietEnv : Inputs :=
  { switchButton := fun _ => true, button_door := fun _ => true, cycleButton := fun _ => true,
    FSR := fun _ => 13 / 32, TMP := fun _ => 3 / 32, potentiometer := fun _ => 0 }

/-- Inputs of an overloaded attempt: the switch on, the door open for one poll and then closed,
and the force sensor at 123/128 of full scale (115 units). -/
def heavyEnv : Inputs :=
  { switchButton := fun _ => true, button_door := fun k => decide (1 ≤ k),
    cycleButton := fun _ => true, FSR := fun _ => 123 / 128, TMP := fun _ => 3 / 32,
    potentiometer := fun _ => 0 }

/-- The state in which `load` returns under `heavyEnv` when called from the first pass of `main`:
the error text has been shown and the display cleared. -/
def overloadShown : Machine :=
  { Machine.init with
    clock := 5100, switchReads := 2, doorReads := 2, fsrReads := 1,
    writes := [.pwm .red_LED 0, .pwm .green_LED 1, .pwm .blue_LED 0, .segments 0x3F,
      .segments 0x3E, .segments 0x79, .segments 0x50, .segments 0x38, .segments 0x3F,
      .segments 0x77, .segments 0x5E, .segments 0x00, .segments 0x00] }

/-- The state after the first pass of `main` under `quietEnv` from the power-on state: the cycle
of profile 1 has completed, the melody loop has ended at its first test because the door button
reads pressed, and `cycleComplete` is still set. -/
def melodyLeftOver : Machine :=
  { Machine.init with
    clock := 19000, switchReads := 14, doorReads := 2, cycleReads := 1, tmpReads := 2,
    potReads := 1, cycleComplete := true,
    writes := [.pwm .red_LED 0, .pwm .green_LED 1, .pwm .blue_LED 0, .lock true, .segments 0x00,
      .segments 0x06, .segments 0x06, .led .led1 true, .segments 0x06, .led .led1 false,
      .segments 0x06, .led .led1 true, .segments 0x5B, .led .led2 true, .segments 0x5B,
      .led .led2 false, .segments 0x5B, .led .led2 true, .segments 0x4F, .led .led3 true,
      .segments 0x4F, .led .led3 false, .segments 0x4F, .led .led3 true, .segments 0x4F,
      .led .led3 false, .segments 0x4F, .led .led3 true, .lock false, .led .led1 false,
      .led .led2 false, .led .led3 false, .segments 0x00] }

/-- Inputs whose safety switch reads on at the first and the fifth read only and whose cycle
button reads pressed at its first read only, with the dial at zero. -/
def pauseEnv : Inputs :=
  { switchButton := fun k => decide (k = 0 ∨ k = 4), button_door := fun _ => true,
    cycleButton := fun k => decide (k = 0), FSR := fun _ => 0, TMP := fun _ => 3 / 32,
    potentiometer := fun _ => 0 }

/-- A state whose clock reads 100 s, all else as at power-on. -/
def lateStart : Machine :=
  { Machine.init with clock := 100000 }

/-- The state in which `cycles` returns under `pauseEnv`: the three stages of the first cycle have
returned at their first polls, one preview pass has followed, and the next poll has read the
switch released. -/
def pausedDone : Machine :=
  { Machine.init with
    switchReads := 6, cycleReads := 2, potReads := 2, segments := 0x06,
    writes := [.segments 0x06, .segments 0x06] }

/-- The state after a 7 s spin stage run from `lateStart` with the switch on: four toggles and the
final hold, eight seconds after entry. -/
def spinLate : Machine :=
  { lateStart with
    clock := 108000, switchReads := 5, led3 := true, segments := 0x4F,
    writes := [.segments 0x4F, .led .led3 true, .segments 0x4F, .led .led3 false,
      .segments 0x4F, .led .led3 true, .segments 0x4F, .led .led3 false, .segments 0x4F,
      .led .led3 true] }

/-! ## Rounding lemmas -/

theorem roundHalfEven_eq_of_abs_lt (x : ℚ) (k : ℤ) (h : |x - k| < 1 / 2) :
    roundHalfEven x = k := by
  rw [abs_lt] at h
  obtain ⟨h1, h2⟩ := h
  unfold roundHalfEven
  by_cases hx : (k : ℚ) ≤ x
  · have hf : ⌊x⌋ = k := by
      rw [Int.floor_eq_iff]; constructor <;> linarith
    rw [hf, if_pos (by linarith)]
  · have hf : ⌊x⌋ = k - 1 := by
      rw [Int.floor_eq_iff]; push_cast; constructor <;> linarith
    rw [hf]
    have h3 : ¬ (x - ((k - 1 : ℤ) : ℚ) < 1 / 2) := by push_cast; linarith
    have h4 : 1 / 2 < x - ((k - 1 : ℤ) : ℚ) := by push_cast; linarith
    rw [if_neg h3, if_pos h4]; ring

theorem roundHalfEven_intCast (k : ℤ) : roundHalfEven (k : ℚ) = k :=
  roundHalfEven_eq_of_abs_lt _ k (by simp)

theorem abs_roundHalfEven_sub_le (x : ℚ) : |(roundHalfEven x : ℚ) - x| ≤ 1 / 2 := by
  have h0 := Int.floor_le x
  have h1 := Int.lt_floor_add_one x
  unfold roundHalfEven
  split_ifs with a b c
  · rw [abs_le]; constructor <;> linarith
  · rw [abs_le]; push_cast; constructor <;> linarith
  · rw [abs_le]; constructor <;> linarith
  · rw [abs_le]; push_cast; constructor <;> linarith

theorem log2_abs_eq (q : ℚ) (e : ℤ) (h1 : (2 : ℚ) ^ e ≤ |q|) (h2 : |q| < (2 : ℚ) ^ (e + 1)) :
    Int.log 2 |q| = e := by
  have hpos : 0 < |q| := lt_of_lt_of_le (zpow_pos (by norm_num) e) h1
  have a : e ≤ Int.log 2 |q| := (Int.zpow_le_iff_le_log (by norm_num) hpos).1 (by exact_mod_cast h1)
  have b : Int.log 2 |q| < e + 1 := (Int.lt_zpow_iff_log_lt (by norm_num) hpos).1 (by exact_mod_cast h2)
  omega

theorem fround_eq_of_bounds (fmt : FloatFormat) (q : ℚ) (e k : ℤ)
    (h1 : (2 : ℚ) ^ e ≤ |q|) (h2 : |q| < (2 : ℚ) ^ (e + 1))
    (hk : |q / (2 : ℚ) ^ (max (e - ((fmt.prec : ℤ) - 1)) fmt.emin) - k| < 1 / 2) :
    fround fmt q = k * (2 : ℚ) ^ (max (e - ((fmt.prec : ℤ) - 1)) fmt.emin) := by
  unfold fround ulpExp
  rw [log2_abs_eq q e h1 h2, roundHalfEven_eq_of_abs_lt _ k hk]

theorem fround_zero (fmt : FloatFormat) : fround fmt 0 = 0 := by
  unfold fround
  rw [zero_div]
  have : roundHalfEven (0 : ℚ) = 0 := by exact_mod_cast roundHalfEven_intCast 0
  rw [this]; simp

/-- An integer close enough to `q` (closer than half a unit in the last place) on a grid that
contains the integers is what `q` rounds to. -/
theorem fround_eq_int (fmt : FloatFormat) (q : ℚ) (m : ℤ) (hexp : ulpExp fmt q ≤ 0)
    (hclose : |q - m| < (2 : ℚ) ^ ulpExp fmt q / 2) : fround fmt q = m := by
  unfold fround
  set u := ulpExp fmt q with hu
  have hupos : (0 : ℚ) < (2 : ℚ) ^ u := zpow_pos (by norm_num) u
  have hm : (m : ℚ) = ((m * 2 ^ (-u).toNat : ℤ) : ℚ) * (2 : ℚ) ^ u := by
    push_cast
    rw [mul_assoc, ← zpow_natCast, ← zpow_add₀ (by norm_num : (2 : ℚ) ≠ 0),
      Int.toNat_of_nonneg (by omega)]
    simp
  have hk : |q / (2 : ℚ) ^ u - ((m * 2 ^ (-u).toNat : ℤ) : ℚ)| < 1 / 2 := by
    have : q / (2 : ℚ) ^ u - ((m * 2 ^ (-u).toNat : ℤ) : ℚ) = (q - m) / (2 : ℚ) ^ u := by
      rw [sub_div]; congr 1
      rw [eq_div_iff hupos.ne']; exact hm.symm
    rw [this, abs_div, abs_of_pos hupos, div_lt_iff₀ hupos]
    linarith
  rw [roundHalfEven_eq_of_abs_lt _ _ hk]
  exact hm.symm

theorem abs_fround_sub_le (fmt : FloatFormat) (q : ℚ) :
    |fround fmt q - q| ≤ (2 : ℚ) ^ ulpExp fmt q / 2 := by
  unfold fround
  set u := ulpExp fmt q with hu
  have hupos : (0 : ℚ) < (2 : ℚ) ^ u := zpow_pos (by norm_num) u
  have h := abs_roundHalfEven_sub_le (q / (2 : ℚ) ^ u)
  have e : (roundHalfEven (q / (2 : ℚ) ^ u) : ℚ) * (2 : ℚ) ^ u - q
      = ((roundHalfEven (q / (2 : ℚ) ^ u) : ℚ) - q / (2 : ℚ) ^ u) * (2 : ℚ) ^ u := by
    field_simp
  rw [e, abs_mul, abs_of_pos hupos]
  calc _ ≤ 1 / 2 * (2 : ℚ) ^ u := mul_le_mul_of_nonneg_right h hupos.le
    _ = _ := by ring

theorem roundHalfEven_tie (f : ℤ) :
    roundHalfEven ((f : ℚ) + 1 / 2) = if f % 2 = 0 then f else f + 1 := by
  have hf : ⌊(f : ℚ) + 1 / 2⌋ = f := by
    rw [Int.floor_eq_iff]; constructor <;> linarith
  unfold roundHalfEven
  rw [hf, if_neg (by linarith), if_neg (by linarith)]

theorem int_log2_abs_le (q : ℚ) (b : ℤ) (hb : 0 ≤ b) (hq : |q| < (2 : ℚ) ^ (b + 1)) :
    Int.log 2 |q| ≤ b := by
  rcases eq_or_ne q 0 with h | h
  · subst h; simpa using hb
  · have hpos : 0 < |q| := abs_pos.2 h
    have := (Int.lt_zpow_iff_log_lt (R := ℚ) (b := 2) (by norm_num) hpos).1 (by exact_mod_cast hq)
    omega

theorem ulpExp_le (fmt : FloatFormat) (q : ℚ) (b : ℤ) (hb : 0 ≤ b)
    (hq : |q| < (2 : ℚ) ^ (b + 1)) (hmin : fmt.emin ≤ b - ((fmt.prec : ℤ) - 1)) :
    ulpExp fmt q ≤ b - ((fmt.prec : ℤ) - 1) := by
  unfold ulpExp
  have := int_log2_abs_le q b hb hq
  exact max_le (by omega) hmin

theorem fround_eq_int_of_rel (fmt : FloatFormat) (q : ℚ) (m : ℤ) (hexp : ulpExp fmt q ≤ 0)
    (h : |q - m| * (2 : ℚ) ^ ((fmt.prec : ℤ) + 1) ≤ |q|) : fround fmt q = m := by
  apply fround_eq_int fmt q m hexp
  have hlt : |q| < (2 : ℚ) ^ (Int.log 2 |q| + 1) := by
    exact_mod_cast Int.lt_zpow_succ_log_self (R := ℚ) (b := 2) (by norm_num) |q|
  have hu : (2 : ℚ) ^ (Int.log 2 |q| - ((fmt.prec : ℤ) - 1)) ≤ (2 : ℚ) ^ ulpExp fmt q :=
    zpow_le_zpow_right₀ (by norm_num) (le_max_left _ _)
  have hsplit : (2 : ℚ) ^ (Int.log 2 |q| + 1)
      = (2 : ℚ) ^ (Int.log 2 |q| - ((fmt.prec : ℤ) - 1)) / 2 * (2 : ℚ) ^ ((fmt.prec : ℤ) + 1) := by
    rw [div_mul_eq_mul_div, ← zpow_add₀ (by norm_num : (2 : ℚ) ≠ 0), eq_div_iff (by norm_num)]
    rw [← zpow_add_one₀ (by norm_num : (2 : ℚ) ≠ 0)]
    congr 1; ring
  have hp : (0 : ℚ) < (2 : ℚ) ^ ((fmt.prec : ℤ) + 1) := zpow_pos (by norm_num) _
  have : |q - m| * (2 : ℚ) ^ ((fmt.prec : ℤ) + 1)
      < (2 : ℚ) ^ (Int.log 2 |q| - ((fmt.prec : ℤ) - 1)) / 2 * (2 : ℚ) ^ ((fmt.prec : ℤ) + 1) := by
    rw [← hsplit]; exact lt_of_le_of_lt h hlt
  have := lt_of_mul_lt_mul_right this hp.le
  linarith

theorem ERROR_THRESHOLD_eq : ERROR_THRESHOLD = 3602879701896397 / 18014398509481984 := by
  unfold ERROR_THRESHOLD f64
  rw [fround_eq_of_bounds binary64 (2 / 10) (-3) 7205759403792794]
  · norm_num [binary64]
  · rw [abs_of_pos (by norm_num)]; norm_num
  · rw [abs_of_pos (by norm_num)]; norm_num
  · norm_num [binary64, abs_lt]

theorem one_add_threshold : f64 (1 + ERROR_THRESHOLD) = 5404319552844595 / 4503599627370496 := by
  rw [ERROR_THRESHOLD_eq]
  unfold f64
  rw [fround_eq_of_bounds binary64 _ 0 5404319552844595]
  · norm_num [binary64]
  · rw [abs_of_pos (by norm_num)]; norm_num
  · rw [abs_of_pos (by norm_num)]; norm_num
  · norm_num [binary64, abs_lt]

theorem one_sub_threshold : f64 (1 - ERROR_THRESHOLD) = 7205759403792794 / 9007199254740992 := by
  rw [ERROR_THRESHOLD_eq]
  unfold f64 fround ulpExp
  have hl : Int.log 2 |(1 - 3602879701896397 / 18014398509481984 : ℚ)| = -1 := by
    apply log2_abs_eq <;> rw [abs_of_pos (by norm_num)] <;> norm_num
  rw [hl]
  have hq : (1 - 3602879701896397 / 18014398509481984 : ℚ)
      / (2 : ℚ) ^ (max (-1 - (((binary64.prec : ℕ) : ℤ) - 1)) binary64.emin)
      = ((7205759403792793 : ℤ) : ℚ) + 1 / 2 := by
    norm_num [binary64]
  rw [hq, roundHalfEven_tie]
  norm_num [binary64]

theorem intToDouble_eq (n : ℤ) (h : |n| < 2 ^ 53) : intToDouble n = n := by
  unfold intToDouble f64
  apply fround_eq_int_of_rel
  · have := ulpExp_le binary64 (n : ℚ) 52 (by norm_num)
      (by rw [← Int.cast_abs]; norm_num; exact_mod_cast h) (by norm_num [binary64])
    simp [binary64] at this ⊢
    linarith
  · simp

/-- Rounding `n * c` in binary64, for a 32-bit `n` and a constant `c` within `2^-52 / 5` of
`a / 5`: the result is within `1/5` of `n * a / 5`, and is exactly that when it is an integer. -/
theorem f64_mul_fifths (c : ℚ) (a n : ℤ) (hn : |n| ≤ 2 ^ 31) (hc0 : 4 ≤ 5 * c) (hc1 : c ≤ 2)
    (hd : |5 * c - a| ≤ 1 / 2 ^ 52) :
    |f64 (n * c) - n * a / 5| < 1 / 5 ∧ ∀ j : ℤ, n = 5 * j → f64 (n * c) = a * j := by
  have hnq : |(n : ℚ)| ≤ 2 ^ 31 := by rw [← Int.cast_abs]; exact_mod_cast hn
  have hcabs : |c| = c := abs_of_nonneg (by linarith)
  have hq : |(n : ℚ) * c| < (2 : ℚ) ^ ((32 : ℤ) + 1) := by
    rw [abs_mul, hcabs]
    have : |(n : ℚ)| * c ≤ 2 ^ 31 * 2 :=
      mul_le_mul hnq hc1 (by linarith) (by norm_num)
    norm_num at this ⊢; linarith
  have hu : ulpExp binary64 ((n : ℚ) * c) ≤ -20 := by
    have := ulpExp_le binary64 ((n : ℚ) * c) 32 (by norm_num) hq (by norm_num [binary64])
    simp [binary64] at this ⊢; linarith
  constructor
  · have h1 := abs_fround_sub_le binary64 ((n : ℚ) * c)
    have h2 : (2 : ℚ) ^ ulpExp binary64 ((n : ℚ) * c) ≤ (2 : ℚ) ^ (-20 : ℤ) :=
      zpow_le_zpow_right₀ (by norm_num) hu
    have h3 : |(n : ℚ) * c - n * a / 5| ≤ 2 ^ 31 * (1 / 2 ^ 52) / 5 := by
      have e : (n : ℚ) * c - n * a / 5 = n * (5 * c - a) / 5 := by ring
      rw [e, abs_div, abs_mul, abs_of_pos (by norm_num : (0 : ℚ) < 5)]
      apply div_le_div_of_nonneg_right _ (by norm_num)
      exact mul_le_mul hnq hd (abs_nonneg _) (by norm_num)
    have h4 : f64 (n * c) - n * a / 5
        = (fround binary64 (n * c) - n * c) + ((n : ℚ) * c - n * a / 5) := by
      unfold f64; ring
    rw [h4]
    refine lt_of_le_of_lt (abs_add _ _) ?_
    norm_num at h2 h3
    linarith
  · intro j hj
    have hjq : (n : ℚ) = 5 * j := by exact_mod_cast hj
    unfold f64
    have := fround_eq_int_of_rel binary64 ((n : ℚ) * c) (a * j) (by linarith) ?_
    · rw [this]; push_cast; ring
    · have e1 : (n : ℚ) * c - ((a * j : ℤ) : ℚ) = j * (5 * c - a) := by
        push_cast; rw [hjq]; ring
      have e2 : |(n : ℚ) * c| = |(j : ℚ)| * (5 * c) := by
        rw [hjq, abs_mul, abs_mul, hcabs, abs_of_pos (by norm_num : (0 : ℚ) < 5)]; ring
      rw [e1, e2, abs_mul]
      have hj0 : 0 ≤ |(j : ℚ)| := abs_nonneg _
      have : |(j : ℚ)| * |5 * c - ↑a| ≤ |(j : ℚ)| * (1 / 2 ^ 52) :=
        mul_le_mul_of_nonneg_left hd hj0
      have h4 : |(j : ℚ)| * 4 ≤ |(j : ℚ)| * (5 * c) := mul_le_mul_of_nonneg_left hc0 hj0
      norm_num [binary64] at this ⊢
      have h5 : |(j : ℚ)| * |5 * c - ↑a| * 18014398509481984
          ≤ |(j : ℚ)| * (1 / 4503599627370496) * 18014398509481984 :=
        mul_le_mul_of_nonneg_right (by simpa using this) (by norm_num)
      linarith

theorem upper_limit_lt_iff (n t : ℤ) (hn : |n| ≤ 2 ^ 31) :
    f64 (n * f64 (1 + ERROR_THRESHOLD)) < t ↔ 6 * n < 5 * t := by
  rw [one_add_threshold]
  obtain ⟨ha, hb⟩ := f64_mul_fifths (5404319552844595 / 4503599627370496) 6 n hn
    (by norm_num) (by norm_num) (by norm_num [abs_le])
  rw [abs_lt] at ha
  obtain ⟨ha1, ha2⟩ := ha
  by_cases hdiv : (5 : ℤ) ∣ n
  · obtain ⟨j, hj⟩ := hdiv
    rw [hb j hj]
    constructor
    · intro h
      have : (6 : ℤ) * j < t := by exact_mod_cast h
      omega
    · intro h
      have : (6 : ℤ) * j < t := by omega
      exact_mod_cast this
  · constructor
    · intro h
      have h1 : ((6 * n - 1 : ℤ) : ℚ) < ((5 * t : ℤ) : ℚ) := by push_cast; linarith
      have h2 : 6 * n - 1 < 5 * t := by exact_mod_cast h1
      omega
    · intro h
      have h1 : 6 * n + 1 ≤ 5 * t := by omega
      have h2 : ((6 * n + 1 : ℤ) : ℚ) ≤ ((5 * t : ℤ) : ℚ) := by exact_mod_cast h1
      push_cast at h2; linarith

theorem lt_lower_limit_iff (n t : ℤ) (hn : |n| ≤ 2 ^ 31) :
    (t : ℚ) < f64 (n * f64 (1 - ERROR_THRESHOLD)) ↔ 5 * t < 4 * n := by
  rw [one_sub_threshold]
  obtain ⟨ha, hb⟩ := f64_mul_fifths (7205759403792794 / 9007199254740992) 4 n hn
    (by norm_num) (by norm_num) (by norm_num [abs_le])
  rw [abs_lt] at ha
  obtain ⟨ha1, ha2⟩ := ha
  by_cases hdiv : (5 : ℤ) ∣ n
  · obtain ⟨j, hj⟩ := hdiv
    rw [hb j hj]
    constructor
    · intro h
      have : t < (4 : ℤ) * j := by exact_mod_cast h
      omega
    · intro h
      have : t < (4 : ℤ) * j := by omega
      exact_mod_cast this
  · constructor
    · intro h
      have h1 : ((5 * t : ℤ) : ℚ) < ((4 * n + 1 : ℤ) : ℚ) := by push_cast; linarith
      have h2 : 5 * t < 4 * n + 1 := by exact_mod_cast h1
      omega
    · intro h
      have h1 : 5 * t + 1 ≤ 4 * n := by omega
      have h2 : ((5 * t + 1 : ℤ) : ℚ) ≤ ((4 * n : ℤ) : ℚ) := by exact_mod_cast h1
      push_cast at h2; linarith

theorem tempOutOfRange_iff (n t : ℤ) (hn : |n| ≤ 2 ^ 31) (ht : |t| ≤ 2 ^ 31) :
    tempOutOfRange n t = true ↔ (6 * n < 5 * t ∨ 5 * t < 4 * n) := by
  unfold tempOutOfRange
  rw [decide_eq_true_iff, gt_iff_lt, intToDouble_eq n (by omega), intToDouble_eq t (by omega),
    upper_limit_lt_iff n t hn, lt_lower_limit_iff n t hn]

/-! ## Evaluating conversions -/

/-- An integer below `2^24` in magnitude is a `float`. -/
theorem f32_intCast (m : ℤ) (h : |m| < 2 ^ 24) : f32 (m : ℚ) = m := by
  unfold f32
  apply fround_eq_int_of_rel
  · have := ulpExp_le binary32 (m : ℚ) 23 (by norm_num)
      (by rw [← Int.cast_abs]; norm_num; exact_mod_cast h) (by norm_num [binary32])
    simp [binary32] at this ⊢
    linarith
  · simp

theorem f32_120 : f32 120 = 120 := by
  have := f32_intCast 120 (by norm_num)
  simpa using this

theorem f32_330 : f32 330 = 330 := by
  have := f32_intCast 330 (by norm_num)
  simpa using this

theorem f32_5 : f32 5 = 5 := by
  have := f32_intCast 5 (by norm_num)
  simpa using this

theorem truncToInt_intCast (m : ℤ) : truncToInt (m : ℚ) = m := by
  unfold truncToInt
  split_ifs <;> simp

/-- A reading of 29/32 of full scale is 108 force units (108.75 truncated). -/
theorem forceValue_108 : forceValue (29 / 32) = 108 := by
  unfold forceValue
  rw [f32_120]
  have h : f32 (29 / 32 * 120) = 435 / 4 := by
    unfold f32
    rw [fround_eq_of_bounds binary32 _ 6 14254080]
    · norm_num [binary32]
    · rw [abs_of_pos (by norm_num)]; norm_num
    · rw [abs_of_pos (by norm_num)]; norm_num
    · norm_num [binary32, abs_lt]
  rw [h]
  unfold truncToInt
  rw [if_pos (by norm_num), Int.floor_eq_iff]
  norm_num

/-- A reading of 233/256 of full scale is 109 force units (109.21875 truncated). -/
theorem forceValue_109 : forceValue (233 / 256) = 109 := by
  unfold forceValue
  rw [f32_120]
  have h : f32 (233 / 256 * 120) = 3495 / 32 := by
    unfold f32
    rw [fround_eq_of_bounds binary32 _ 6 14315520]
    · norm_num [binary32]
    · rw [abs_of_pos (by norm_num)]; norm_num
    · rw [abs_of_pos (by norm_num)]; norm_num
    · norm_num [binary32, abs_lt]
  rw [h]
  unfold truncToInt
  rw [if_pos (by norm_num), Int.floor_eq_iff]
  norm_num
/-! ## The load guard -/

theorem forceSamples_succ (env : Inputs) (start n : ℕ) :
    forceSamples env start (n + 1)
      = forceValue (env.FSR start) :: forceSamples env (start + 1) n := by
  simp [forceSamples, List.range'_succ]

/-- The poll loop of `load` when the door closes at its `n`-th poll with the switch held on: it
leaves the loop with the running maximum of the `n` samples taken. -/
theorem loadLoop_door_closes (env : Inputs) (n : ℕ) : ∀ (fuel : ℕ) (h : ℤ) (s : Machine),
    (∀ k, k < n → env.button_door (s.doorReads + k) = false) →
    env.button_door (s.doorReads + n) = true →
    (∀ k, k < n → env.switchButton (s.switchReads + k) = true) →
    n < fuel →
    loadLoop env fuel h s = .ok (some ((forceSamples env s.fsrReads n).foldl max h),
      { s with doorReads := s.doorReads + n + 1, switchReads := s.switchReads + n,
               fsrReads := s.fsrReads + n, clock := s.clock + 100 * n }) := by
  induction n with
  | zero =>
    intro fuel h s _ hclosed _ hfuel
    obtain ⟨f, rfl⟩ : ∃ f, fuel = f + 1 := ⟨fuel - 1, by omega⟩
    simp only [Nat.add_zero] at hclosed
    simp [loadLoop, hclosed, forceSamples]
  | succ n ih =>
    intro fuel h s hopen hclosed hsw hfuel
    obtain ⟨f, rfl⟩ : ∃ f, fuel = f + 1 := ⟨fuel - 1, by omega⟩
    have hd0 : env.button_door s.doorReads = false := by simpa using hopen 0 (by omega)
    have hs0 : env.switchButton s.switchReads = true := by simpa using hsw 0 (by omega)
    have hmax : (if forceValue (env.FSR s.fsrReads) > h then forceValue (env.FSR s.fsrReads)
        else h) = max h (forceValue (env.FSR s.fsrReads)) := by
      rw [max_def]; split_ifs <;> omega
    rw [loadLoop]
    simp only [hd0, hs0, hmax, Bool.not_true, Bool.false_eq_true, if_false]
    rw [ih f _ _ ?_ ?_ ?_ (by omega)]
    · simp only [Machine.sleep, forceSamples_succ, List.foldl_cons]
      congr 2
      simp only [Machine.mk.injEq]
      and_intros <;> first | trivial | omega
    · intro k hk
      have := hopen (k + 1) (by omega)
      simpa [Machine.sleep, Nat.add_assoc, Nat.add_comm 1 k] using this
    · have := hclosed
      simpa [Machine.sleep, Nat.add_assoc, Nat.add_comm 1 n] using this
    · intro k hk
      have := hsw (k + 1) (by omega)
      simpa [Machine.sleep, Nat.add_assoc, Nat.add_comm 1 k] using this

/-- C1: in every load attempt in which the door closes (at the poll after `n` open-door polls)
with the safety switch held on, `load` returns, and its result is Safe (`true`) exactly when the
peak force captured while the door was open is at most 108 and Overloaded (`false`) exactly when
it exceeds 108; a peak of 108 is Safe and a peak of 109 is Overloaded. -/
theorem load_safe_iff_peak_le_108 (env : Inputs) (s : Machine) (n fuel : ℕ)
    (hopen : ∀ k, k < n → env.button_door (s.doorReads + k) = false)
    (hclosed : env.button_door (s.doorReads + n) = true)
    (hsw : ∀ k, k < n → env.switchButton (s.switchReads + k) = true)
    (hfuel : n < fuel) :
    ∃ r s', load env fuel s = .ok (r, s')
      ∧ (r = true ↔ peakForce env s.fsrReads n ≤ 108)
      ∧ (r = false ↔ 108 < peakForce env s.fsrReads n)
      ∧ (peakForce env s.fsrReads n = 108 → r = true)
      ∧ (peakForce env s.fsrReads n = 109 → r = false) := by
  have hloop := loadLoop_door_closes env n fuel 0 (s.sleep 1000)
    (by simpa [Machine.sleep] using hopen) (by simpa [Machine.sleep] using hclosed)
    (by simpa [Machine.sleep] using hsw) hfuel
  have hpk : (forceSamples env (s.sleep 1000).fsrReads n).foldl max 0
      = peakForce env s.fsrReads n := rfl
  rw [hpk] at hloop
  by_cases hp : peakForce env s.fsrReads n > 108
  · have hl : ∃ s', load env fuel s = .ok (false, s') := by
      unfold load
      simp only [hloop, if_pos hp]
      exact ⟨_, rfl⟩
    obtain ⟨s', hs'⟩ := hl
    refine ⟨false, s', hs', ?_, ?_, ?_, ?_⟩
    · simp; omega
    · simp; omega
    · intro h; omega
    · intro _; rfl
  · have hl : ∃ s', load env fuel s = .ok (true, s') := by
      unfold load
      simp only [hloop, if_neg hp]
      exact ⟨_, rfl⟩
    obtain ⟨s', hs'⟩ := hl
    refine ⟨true, s', hs', ?_, ?_, ?_, ?_⟩
    · simp; omega
    · simp; omega
    · intro _; rfl
    · intro h; omega

/-- C1 at two concrete load attempts, door closed at the third poll: two samples of 108 units
give the peak 108 and the result Safe; two samples of 109 units give the peak 109 and the result
Overloaded. -/
theorem load_safe_iff_peak_le_108_witness :
    ((∀ k, k < 2 → loadEnv.button_door (Machine.init.doorReads + k) = false)
      ∧ loadEnv.button_door (Machine.init.doorReads + 2) = true
      ∧ (∀ k, k < 2 → loadEnv.switchButton (Machine.init.switchReads + k) = true)
      ∧ 2 < 3)
    ∧ peakForce loadEnv Machine.init.fsrReads 2 = 108
    ∧ (∃ s', load loadEnv 3 Machine.init = .ok (true, s'))
    ∧ peakForce overloadEnv Machine.init.fsrReads 2 = 109
    ∧ (∃ s', load overloadEnv 3 Machine.init = .ok (false, s')) := by
  have hp : peakForce loadEnv Machine.init.fsrReads 2 = 108 := by
    simp [peakForce, forceSamples, loadEnv, forceValue_108, Machine.init, List.range']
  have hq : peakForce overloadEnv Machine.init.fsrReads 2 = 109 := by
    simp [peakForce, forceSamples, overloadEnv, forceValue_109, Machine.init, List.range']
  obtain ⟨r, s', h, _, _, h108, _⟩ :=
    load_safe_iff_peak_le_108 loadEnv Machine.init 2 3 (by decide) (by decide) (by decide)
      (by decide)
  obtain ⟨r2, s2, h2, _, _, _, h109⟩ :=
    load_safe_iff_peak_le_108 overloadEnv Machine.init 2 3 (by decide) (by decide) (by decide)
      (by decide)
  refine ⟨⟨by decide, by decide, by decide, by decide⟩, hp, ⟨s', ?_⟩, hq, ⟨s2, ?_⟩⟩
  · rw [h, h108 hp]
  · rw [h2, h109 hq]

/-! ## The temperature watchdog -/

/-- A reading of 1/8 of full scale is 41 degrees (41.25 truncated). -/
theorem tempSample_41 : tempSample (1 / 8) = 41 := by
  unfold tempSample
  rw [f32_330]
  have h : f32 (1 / 8 * 330) = 165 / 4 := by
    unfold f32
    rw [fround_eq_of_bounds binary32 _ 5 10813440]
    · norm_num [binary32]
    · rw [abs_of_pos (by norm_num)]; norm_num
    · rw [abs_of_pos (by norm_num)]; norm_num
    · norm_num [binary32, abs_lt]
  rw [h]
  unfold truncToInt
  rw [if_pos (by norm_num), Int.floor_eq_iff]
  norm_num

/-- The result of `temp` is the band test on the sample it takes. -/
theorem temp_fst (env : Inputs) (comparisonTemp : ℤ) (s : Machine) :
    (temp env comparisonTemp s).1
      = tempOutOfRange comparisonTemp (tempSample (env.TMP s.tmpReads)) := by
  simp only [temp]
  split_ifs with h <;> simp [h]

/-- C2: for every 32-bit setpoint and every 32-bit temperature sample, `temp` reports an anomaly
if and only if the sample is above 1.2 times the setpoint or below 0.8 times the setpoint in exact
arithmetic; samples in the closed interval between the two report no anomaly; for the setpoint 30
the samples 24 and 36 are no anomaly and 23 and 37 are anomalies. -/
theorem temp_anomaly_iff_outside_band (env : Inputs) (s : Machine) (comparisonTemp : ℤ)
    (hset : -2 ^ 31 ≤ comparisonTemp ∧ comparisonTemp < 2 ^ 31)
    (hsample : -2 ^ 31 ≤ tempSample (env.TMP s.tmpReads)
      ∧ tempSample (env.TMP s.tmpReads) < 2 ^ 31) :
    ((temp env comparisonTemp s).1 = true ↔
        ((tempSample (env.TMP s.tmpReads) : ℚ) > comparisonTemp * (12 / 10)
          ∨ (tempSample (env.TMP s.tmpReads) : ℚ) < comparisonTemp * (8 / 10)))
    ∧ ((comparisonTemp : ℚ) * (8 / 10) ≤ tempSample (env.TMP s.tmpReads)
          ∧ (tempSample (env.TMP s.tmpReads) : ℚ) ≤ comparisonTemp * (12 / 10) →
        (temp env comparisonTemp s).1 = false)
    ∧ tempOutOfRange 30 24 = false ∧ tempOutOfRange 30 36 = false
    ∧ tempOutOfRange 30 23 = true ∧ tempOutOfRange 30 37 = true := by
  have key : ∀ n t : ℤ, |n| ≤ 2 ^ 31 → |t| ≤ 2 ^ 31 →
      (tempOutOfRange n t = true ↔ ((t : ℚ) > n * (12 / 10) ∨ (t : ℚ) < n * (8 / 10))) := by
    intro n t hn ht
    rw [tempOutOfRange_iff n t hn ht]
    have e1 : (6 * n < 5 * t) ↔ ((t : ℚ) > n * (12 / 10)) := by
      constructor
      · intro h
        have : ((6 * n : ℤ) : ℚ) < ((5 * t : ℤ) : ℚ) := by exact_mod_cast h
        push_cast at this; rw [gt_iff_lt]; linarith
      · intro h
        have : ((6 * n : ℤ) : ℚ) < ((5 * t : ℤ) : ℚ) := by
          push_cast; rw [gt_iff_lt] at h; linarith
        exact_mod_cast this
    have e2 : (5 * t < 4 * n) ↔ ((t : ℚ) < n * (8 / 10)) := by
      constructor
      · intro h
        have : ((5 * t : ℤ) : ℚ) < ((4 * n : ℤ) : ℚ) := by exact_mod_cast h
        push_cast at this; linarith
      · intro h
        have : ((5 * t : ℤ) : ℚ) < ((4 * n : ℤ) : ℚ) := by push_cast; linarith
        exact_mod_cast this
    rw [e1, e2]
  have hn : |comparisonTemp| ≤ 2 ^ 31 := by rw [abs_le]; omega
  have ht : |tempSample (env.TMP s.tmpReads)| ≤ 2 ^ 31 := by rw [abs_le]; omega
  have hconc : ∀ t : ℤ, |t| ≤ 2 ^ 31 → (tempOutOfRange 30 t = true ↔ (t > 36 ∨ t < 24)) := by
    intro t h
    rw [tempOutOfRange_iff 30 t (by norm_num) h]
    omega
  refine ⟨?_, ?_, ?_, ?_, ?_, ?_⟩
  · rw [temp_fst]; exact key _ _ hn ht
  · intro hband
    rw [temp_fst, ← Bool.not_eq_true, key _ _ hn ht]
    rintro (h | h) <;> linarith [hband.1, hband.2]
  · rw [← Bool.not_eq_true, hconc 24 (by norm_num)]; omega
  · rw [← Bool.not_eq_true, hconc 36 (by norm_num)]; omega
  · rw [hconc 23 (by norm_num)]; omega
  · rw [hconc 37 (by norm_num)]; omega

/-- C2 at a concrete sample: 41 degrees against the setpoint 30 is an anomaly. -/
theorem temp_anomaly_iff_outside_band_witness :
    ((-2 ^ 31 ≤ (30 : ℤ) ∧ (30 : ℤ) < 2 ^ 31)
      ∧ (-2 ^ 31 ≤ tempSample (warmEnv.TMP Machine.init.tmpReads)
        ∧ tempSample (warmEnv.TMP Machine.init.tmpReads) < 2 ^ 31))
    ∧ (temp warmEnv 30 Machine.init).1 = true := by
  have hs : tempSample (warmEnv.TMP Machine.init.tmpReads) = 41 := tempSample_41
  have h30 : (-2 ^ 31 ≤ (30 : ℤ) ∧ (30 : ℤ) < 2 ^ 31) := by norm_num
  have h41 : -2 ^ 31 ≤ tempSample (warmEnv.TMP Machine.init.tmpReads)
      ∧ tempSample (warmEnv.TMP Machine.init.tmpReads) < 2 ^ 31 := by rw [hs]; norm_num
  refine ⟨⟨h30, h41⟩, ?_⟩
  rw [(temp_anomaly_iff_outside_band warmEnv Machine.init 30 h30 h41).1, hs]
  left; norm_num

/-! ## The dial -/

/-- The `float` literal `3.3f`. -/
theorem f32_33_10 : f32 (33 / 10) = 13841203 / 4194304 := by
  unfold f32
  rw [fround_eq_of_bounds binary32 _ 1 13841203]
  · norm_num [binary32]
  · rw [abs_of_pos (by norm_num)]; norm_num
  · rw [abs_of_pos (by norm_num)]; norm_num
  · norm_num [binary32, abs_lt]

/-- The value of `3.3f` is a `float`: rounding it again leaves it as it is. -/
theorem f32_literal_33_10 : f32 (13841203 / 4194304) = 13841203 / 4194304 := by
  unfold f32
  rw [fround_eq_of_bounds binary32 _ 1 13841203]
  · norm_num [binary32]
  · rw [abs_of_pos (by norm_num)]; norm_num
  · rw [abs_of_pos (by norm_num)]; norm_num
  · norm_num [binary32, abs_lt]

theorem f32_one : f32 1 = 1 := by
  have := f32_intCast 1 (by norm_num)
  simpa using this

/-- C3: at the full-scale dial reading 1 the supervisor computes option 6, which is not in 1..5;
`displayDigit` then shows the blank sixth table entry, and no case of the switch matches, so a
button press at that reading reads the three stage results uninitialised. -/
theorem dialOption_full_scale :
    dialOption 1 = 6
    ∧ ¬ (1 ≤ dialOption 1 ∧ dialOption 1 ≤ 5)
    ∧ (∀ s : Machine, displayDigit (dialOption 1) s = .ok (s.setSegments 0))
    ∧ (∀ (env : Inputs) (fuel : ℕ) (s : Machine),
        runOption env fuel (dialOption 1) s = .error .uninitialised) := by
  have h : dialOption 1 = 6 := by
    unfold dialOption
    simp only [one_mul, f32_33_10, f32_literal_33_10, f32_5]
    rw [div_self (by norm_num), f32_one, one_mul, f32_5]
    have := truncToInt_intCast 5
    norm_num at this
    rw [this]; norm_num
  refine ⟨h, ?_, ?_, ?_⟩
  · rw [h]; omega
  · intro s; rw [h]; rfl
  · intro env fuel s; rw [h]; rfl

/-! ## One pass of the stage runner -/

theorem displayDigit_one (s : Machine) : displayDigit 1 s = .ok (s.setSegments 0x06) := rfl

theorem displayDigit_two (s : Machine) : displayDigit 2 s = .ok (s.setSegments 0x5B) := rfl

theorem displayDigit_three (s : Machine) : displayDigit 3 s = .ok (s.setSegments 0x4F) := rfl

theorem timerRead_after (timerStart ms : ℕ) (s s' : Machine) (h : s'.clock = s.clock + ms) :
    timerRead timerStart s' = timerRead timerStart s + (ms : ℚ) / 1000 := by
  unfold timerRead
  rw [h]; push_cast; ring

/-- A pass that reads the switch released returns Aborted and changes nothing but the count of
switch reads. -/
theorem blinkTick_released (env : Inputs) (led : Led) (duration : ℚ) (stage : Char) (tmp : ℤ)
    (timerStart : ℕ) (s : Machine) (h : env.switchButton s.switchReads = false) :
    blinkTick env led duration stage tmp timerStart s
      = .ok (.returned false { s with switchReads := s.switchReads + 1 }) := by
  simp [blinkTick, h]

/-- A pass with the switch on and the duration elapsed returns Completed with the indicator on. -/
theorem blinkTick_elapsed (env : Inputs) (led : Led) (duration : ℚ) (stage : Char) (tmp : ℤ)
    (timerStart : ℕ) (s : Machine) (hsw : env.switchButton s.switchReads = true)
    (hdone : ¬ timerRead timerStart s + 1 < duration) :
    ∃ s', blinkTick env led duration stage tmp timerStart s = .ok (.returned true s')
      ∧ s'.switchReads = s.switchReads + 1 ∧ s'.tmpReads = s.tmpReads
      ∧ s'.clock = s.clock + 2000 ∧ s'.getLed led = true := by
  have ht : timerRead timerStart
      (Machine.sleep 1000 { s with switchReads := s.switchReads + 1 })
      = timerRead timerStart s + 1 := by
    rw [timerRead_after timerStart 1000 s _ rfl]; norm_num
  simp only [blinkTick, hsw, ht, if_neg hdone, Bool.not_true, Bool.false_eq_true, if_false,
    displayDigit_one, displayDigit_two, displayDigit_three]
  split_ifs <;> refine ⟨_, rfl, ?_⟩ <;> cases led <;>
    simp [holdOn, Machine.sleep, Machine.setLed, Machine.setSegments, Machine.getLed]

/-- A Running pass with the switch on and no anomaly (not the wash stage, or a sample in the
band) toggles the indicator and goes round again with the same timer, 1.5 s later. -/
theorem blinkTick_running (env : Inputs) (led : Led) (duration : ℚ) (stage : Char) (tmp : ℤ)
    (timerStart : ℕ) (s : Machine) (hsw : env.switchButton s.switchReads = true)
    (hrun : timerRead timerStart s + 1 < duration)
    (hquiet : stage = 'w' → tempOutOfRange tmp (tempSample (env.TMP s.tmpReads)) = false) :
    ∃ s', blinkTick env led duration stage tmp timerStart s = .ok (.again timerStart s')
      ∧ s'.switchReads = s.switchReads + 1
      ∧ s'.tmpReads = s.tmpReads + (if stage = 'w' then 1 else 0)
      ∧ s'.clock = s.clock + 1500 ∧ s'.getLed led = !s.getLed led := by
  have ht : timerRead timerStart
      (Machine.sleep 1000 { s with switchReads := s.switchReads + 1 })
      = timerRead timerStart s + 1 := by
    rw [timerRead_after timerStart 1000 s _ rfl]; norm_num
  simp only [blinkTick, hsw, ht, if_pos hrun, Bool.not_true, Bool.false_eq_true, if_false,
    displayDigit_one, displayDigit_two, displayDigit_three]
  by_cases hw : stage = 'w'
  · have hq := hquiet hw
    simp only [hw, if_true, temp, Machine.setSegments, Machine.sleep, hq, Bool.false_eq_true,
      if_false]
    refine ⟨_, rfl, ?_⟩
    cases led <;> simp [toggleAndWait, Machine.sleep, Machine.setLed, Machine.getLed]
  · simp only [hw, if_false]
    split_ifs <;> refine ⟨_, rfl, ?_⟩ <;> cases led <;>
      simp [toggleAndWait, Machine.sleep, Machine.setLed, Machine.setSegments, Machine.getLed]

/-- A Running pass of the wash stage whose sample is an anomaly goes round again with the timer
reset, without touching the indicator. -/
theorem blinkTick_anomaly (env : Inputs) (led : Led) (duration : ℚ) (tmp : ℤ)
    (timerStart : ℕ) (s : Machine) (hsw : env.switchButton s.switchReads = true)
    (hrun : timerRead timerStart s + 1 < duration)
    (hanom : tempOutOfRange tmp (tempSample (env.TMP s.tmpReads)) = true) :
    blinkTick env led duration 'w' tmp timerStart s
      = .ok (.again (s.clock + 6000)
          { s with switchReads := s.switchReads + 1, tmpReads := s.tmpReads + 1,
                   clock := s.clock + 6000, segments := 0x06,
                   writes := s.writes ++ [Write.segments 0x06] }) := by
  have ht : timerRead timerStart
      (Machine.sleep 1000 { s with switchReads := s.switchReads + 1 })
      = timerRead timerStart s + 1 := by
    rw [timerRead_after timerStart 1000 s _ rfl]; norm_num
  simp only [blinkTick, hsw, ht, if_pos hrun, Bool.not_true, Bool.false_eq_true, if_false,
    displayDigit_one, if_true]
  simp only [temp, Machine.setSegments, Machine.sleep, hanom, if_true, Nat.add_assoc]

/-- C7: for every stage character, duration, setpoint, timer start and machine state (hence
also when the duration has already elapsed), a pass of the stage runner that reads the safety
switch released makes `blinkLED` return Aborted (`false`) at that pass; the state it returns
differs from the state at the start of the pass only in the count of switch reads: no temperature
sample is taken, no indicator or display pin is written, and no time passes. -/
theorem blinkLED_aborts_when_switch_released (env : Inputs) (led : Led) (duration : ℚ)
    (stage : Char) (tmp : ℤ) (timerStart fuel : ℕ) (s : Machine)
    (h : env.switchButton s.switchReads = false) :
    blinkTick env led duration stage tmp timerStart s
        = .ok (.returned false { s with switchReads := s.switchReads + 1 })
    ∧ blinkLoop env led duration stage tmp (fuel + 1) timerStart s
        = .ok (false, { s with switchReads := s.switchReads + 1 })
    ∧ blinkLED env (fuel + 1) led duration stage tmp s
        = .ok (false, { s with switchReads := s.switchReads + 1 })
    ∧ ({ s with switchReads := s.switchReads + 1 } : Machine).tmpReads = s.tmpReads
    ∧ ({ s with switchReads := s.switchReads + 1 } : Machine).writes = s.writes
    ∧ ({ s with switchReads := s.switchReads + 1 } : Machine).getLed led = s.getLed led
    ∧ ({ s with switchReads := s.switchReads + 1 } : Machine).segments = s.segments := by
  have ht := blinkTick_released env led duration stage tmp timerStart s h
  have ht0 := blinkTick_released env led duration stage tmp s.clock s h
  refine ⟨ht, ?_, ?_, rfl, rfl, ?_, rfl⟩
  · rw [blinkLoop, ht]
  · rw [blinkLED, blinkLoop, ht0]
  · cases led <;> rfl

/-- C7 at a concrete pass: a wash stage of 4 s whose timer has been running for 10 s and whose
indicator is on, with the switch released. -/
theorem blinkLED_aborts_when_switch_released_witness :
    offEnv.switchButton ({ Machine.init with clock := 10000, led1 := true }).switchReads = false
    ∧ blinkLoop offEnv .led1 4 'w' 30 1 0 { Machine.init with clock := 10000, led1 := true }
        = .ok (false, { Machine.init with clock := 10000, led1 := true, switchReads := 1 }) :=
  ⟨rfl, (blinkLED_aborts_when_switch_released offEnv .led1 4 'w' 30 0 0
    { Machine.init with clock := 10000, led1 := true } rfl).2.1⟩

/-! ## Termination of the stage runner -/

/-- With no anomaly ahead (not the wash stage, or all coming samples in the band) the loop of
`blinkLED` returns within `m + 1` passes, where `m` bounds the time still to run after the next
poll; it returns Completed if the switch stays on, and a stage other than wash takes no
temperature sample. -/
theorem blinkLoop_finishes (env : Inputs) (led : Led) (duration : ℚ) (stage : Char) (tmp : ℤ)
    (m : ℕ) : ∀ (fuel timerStart : ℕ) (s : Machine),
    (stage = 'w' → ∀ k, tempOutOfRange tmp (tempSample (env.TMP (s.tmpReads + k))) = false) →
    duration - timerRead timerStart s - 1 ≤ m →
    m < fuel →
    ∃ r s', blinkLoop env led duration stage tmp fuel timerStart s = .ok (r, s')
      ∧ ((∀ k, env.switchButton (s.switchReads + k) = true) → r = true)
      ∧ (r = true → s'.getLed led = true)
      ∧ (stage ≠ 'w' → s'.tmpReads = s.tmpReads) := by
  induction m with
  | zero =>
    intro fuel timerStart s _ hrem hfuel
    obtain ⟨f, rfl⟩ : ∃ f, fuel = f + 1 := ⟨fuel - 1, by omega⟩
    cases hsw : env.switchButton s.switchReads
    · refine ⟨false, { s with switchReads := s.switchReads + 1 }, ?_, ?_, ?_, ?_⟩
      · rw [blinkLoop, blinkTick_released env led duration stage tmp timerStart s hsw]
      · intro hall; have := hall 0; simp [hsw] at this
      · intro h; cases h
      · intro _; rfl
    · obtain ⟨s', ht, _, htmp, _, hled⟩ :=
        blinkTick_elapsed env led duration stage tmp timerStart s hsw
          (by push_cast at hrem; linarith)
      exact ⟨true, s', by rw [blinkLoop, ht], fun _ => rfl, fun _ => hled, fun _ => htmp⟩
  | succ m ih =>
    intro fuel timerStart s hquiet hrem hfuel
    obtain ⟨f, rfl⟩ : ∃ f, fuel = f + 1 := ⟨fuel - 1, by omega⟩
    cases hsw : env.switchButton s.switchReads
    · refine ⟨false, { s with switchReads := s.switchReads + 1 }, ?_, ?_, ?_, ?_⟩
      · rw [blinkLoop, blinkTick_released env led duration stage tmp timerStart s hsw]
      · intro hall; have := hall 0; simp [hsw] at this
      · intro h; cases h
      · intro _; rfl
    · by_cases hrun : timerRead timerStart s + 1 < duration
      · obtain ⟨s1, ht, hsw1, htmp1, hclock1, _⟩ :=
          blinkTick_running env led duration stage tmp timerStart s hsw hrun
            (fun hw => by simpa using hquiet hw 0)
        have hrem1 : duration - timerRead timerStart s1 - 1 ≤ m := by
          rw [timerRead_after timerStart 1500 s s1 hclock1]
          push_cast at hrem ⊢
          linarith
        obtain ⟨r, s', hloop, hr, hled, htmp⟩ := ih f timerStart s1
          (fun hw k => by
            have := hquiet hw (k + 1)
            rw [htmp1, if_pos hw]
            simpa [Nat.add_assoc, Nat.add_comm 1 k] using this)
          hrem1 (by omega)
        refine ⟨r, s', by rw [blinkLoop, ht]; exact hloop, ?_, hled, ?_⟩
        · intro hall
          apply hr
          intro k
          have := hall (k + 1)
          rw [hsw1]
          simpa [Nat.add_assoc, Nat.add_comm 1 k] using this
        · intro hw
          rw [htmp hw, htmp1, if_neg hw]; rfl
      · obtain ⟨s', ht, _, htmp, _, hled⟩ :=
          blinkTick_elapsed env led duration stage tmp timerStart s hsw hrun
        exact ⟨true, s', by rw [blinkLoop, ht], fun _ => rfl, fun _ => hled, fun _ => htmp⟩

/-- The loop of the wash stage with the switch held on, when the next `n` samples are anomalies
and all later ones are in the band: it returns Completed. -/
theorem washLoop_completes (env : Inputs) (led : Led) (duration : ℚ) (tmp : ℤ) (n : ℕ) :
    ∀ (timerStart : ℕ) (s : Machine),
    (∀ k, env.switchButton (s.switchReads + k) = true) →
    (∀ k, k < n → tempOutOfRange tmp (tempSample (env.TMP (s.tmpReads + k))) = true) →
    (∀ k, n ≤ k → tempOutOfRange tmp (tempSample (env.TMP (s.tmpReads + k))) = false) →
    ∃ fuel0, ∀ fuel, fuel0 ≤ fuel →
      ∃ s', blinkLoop env led duration 'w' tmp fuel timerStart s = .ok (true, s')
        ∧ s'.getLed led = true := by
  induction n with
  | zero =>
    intro timerStart s hsw _ hquiet
    refine ⟨⌈duration - timerRead timerStart s - 1⌉₊ + 1, fun fuel hfuel => ?_⟩
    obtain ⟨r, s', hloop, hr, hled, _⟩ :=
      blinkLoop_finishes env led duration 'w' tmp ⌈duration - timerRead timerStart s - 1⌉₊
        fuel timerStart s (fun _ k => hquiet k (Nat.zero_le k)) (Nat.le_ceil _) (by omega)
    have hrt : r = true := hr hsw
    subst hrt
    exact ⟨s', hloop, hled rfl⟩
  | succ n ih =>
    intro timerStart s hsw hanom hquiet
    have hsw0 : env.switchButton s.switchReads = true := by simpa using hsw 0
    by_cases hrun : timerRead timerStart s + 1 < duration
    · have ht := blinkTick_anomaly env led duration tmp timerStart s hsw0 hrun
        (by simpa using hanom 0 (Nat.succ_pos n))
      obtain ⟨fuel0, hfuel0⟩ := ih (s.clock + 6000)
        { s with switchReads := s.switchReads + 1, tmpReads := s.tmpReads + 1,
                 clock := s.clock + 6000, segments := 0x06,
                 writes := s.writes ++ [Write.segments 0x06] }
        (fun k => by
          have := hsw (k + 1)
          simpa [Nat.add_assoc, Nat.add_comm 1 k] using this)
        (fun k hk => by
          have := hanom (k + 1) (by omega)
          simpa [Nat.add_assoc, Nat.add_comm 1 k] using this)
        (fun k hk => by
          have := hquiet (k + 1) (by omega)
          simpa [Nat.add_assoc, Nat.add_comm 1 k] using this)
      refine ⟨fuel0 + 1, fun fuel hfuel => ?_⟩
      obtain ⟨f, rfl⟩ : ∃ f, fuel = f + 1 := ⟨fuel - 1, by omega⟩
      obtain ⟨s', hloop, hled⟩ := hfuel0 f (by omega)
      exact ⟨s', by rw [blinkLoop, ht]; exact hloop, hled⟩
    · obtain ⟨s', ht, _, _, _, hled⟩ :=
        blinkTick_elapsed env led duration 'w' tmp timerStart s hsw0 hrun
      refine ⟨1, fun fuel hfuel => ?_⟩
      obtain ⟨f, rfl⟩ : ∃ f, fuel = f + 1 := ⟨fuel - 1, by omega⟩
      exact ⟨s', by rw [blinkLoop, ht], hled⟩

/-- C8: for every wash-stage run with the safety switch held on, and every number `n` of
anomalous temperature samples followed only by samples in the band, `blinkLED` terminates (with
enough fuel it returns) and returns Completed (`true`), with the indicator on; the outcome is the
same for every `n`. -/
theorem wash_completes_after_anomalies (env : Inputs) (led : Led) (duration : ℚ) (tmp : ℤ)
    (s : Machine) (n : ℕ)
    (hsw : ∀ k, env.switchButton (s.switchReads + k) = true)
    (hanom : ∀ k, k < n → tempOutOfRange tmp (tempSample (env.TMP (s.tmpReads + k))) = true)
    (hquiet : ∀ k, n ≤ k → tempOutOfRange tmp (tempSample (env.TMP (s.tmpReads + k))) = false) :
    ∃ fuel0, ∀ fuel, fuel0 ≤ fuel →
      ∃ s', blinkLED env fuel led duration 'w' tmp s = .ok (true, s') ∧ s'.getLed led = true :=
  washLoop_completes env led duration tmp n s.clock s hsw hanom hquiet

/-- A reading of 3/32 of full scale is 30 degrees (30.9375 truncated). -/
theorem tempSample_30 : tempSample (3 / 32) = 30 := by
  unfold tempSample
  rw [f32_330]
  have h : f32 (3 / 32 * 330) = 495 / 16 := by
    unfold f32
    rw [fround_eq_of_bounds binary32 _ 4 16220160]
    · norm_num [binary32]
    · rw [abs_of_pos (by norm_num)]; norm_num
    · rw [abs_of_pos (by norm_num)]; norm_num
    · norm_num [binary32, abs_lt]
  rw [h]
  unfold truncToInt
  rw [if_pos (by norm_num), Int.floor_eq_iff]
  norm_num

theorem tempOutOfRange_30_41 : tempOutOfRange 30 41 = true := by
  rw [tempOutOfRange_iff 30 41 (by norm_num) (by norm_num)]; omega

theorem tempOutOfRange_30_30 : tempOutOfRange 30 30 = false := by
  rw [← Bool.not_eq_true, tempOutOfRange_iff 30 30 (by norm_num) (by norm_num)]; omega

theorem twoAnomaliesEnv_anomalous (k : ℕ) (hk : k < 2) :
    tempOutOfRange 30 (tempSample (twoAnomaliesEnv.TMP (Machine.init.tmpReads + k))) = true := by
  have h : twoAnomaliesEnv.TMP (Machine.init.tmpReads + k) = 1 / 8 := by
    simp [twoAnomaliesEnv, Machine.init, hk]
  rw [h, tempSample_41, tempOutOfRange_30_41]

theorem twoAnomaliesEnv_quiet (k : ℕ) (hk : 2 ≤ k) :
    tempOutOfRange 30 (tempSample (twoAnomaliesEnv.TMP (Machine.init.tmpReads + k))) = false := by
  have hk2 : ¬ k < 2 := by omega
  have h : twoAnomaliesEnv.TMP (Machine.init.tmpReads + k) = 3 / 32 := by
    simp [twoAnomaliesEnv, Machine.init, hk2]
  rw [h, tempSample_30, tempOutOfRange_30_30]

/-- C8 at a concrete run: a 4 s wash stage whose first two samples are anomalies. -/
theorem wash_completes_after_anomalies_witness :
    ((∀ k, twoAnomaliesEnv.switchButton (Machine.init.switchReads + k) = true)
      ∧ (∀ k, k < 2 →
          tempOutOfRange 30 (tempSample (twoAnomaliesEnv.TMP (Machine.init.tmpReads + k))) = true)
      ∧ (∀ k, 2 ≤ k →
          tempOutOfRange 30 (tempSample (twoAnomaliesEnv.TMP (Machine.init.tmpReads + k)))
            = false))
    ∧ ∃ fuel0, ∀ fuel, fuel0 ≤ fuel →
      ∃ s', blinkLED twoAnomaliesEnv fuel .led1 4 'w' 30 Machine.init = .ok (true, s')
        ∧ s'.getLed .led1 = true :=
  ⟨⟨fun _ => rfl, twoAnomaliesEnv_anomalous, twoAnomaliesEnv_quiet⟩,
    wash_completes_after_anomalies twoAnomaliesEnv .led1 4 30 Machine.init 2 (fun _ => rfl)
      twoAnomaliesEnv_anomalous twoAnomaliesEnv_quiet⟩

/-! ## Anomaly reset and temperature independence -/

theorem tempOutOfRange_30_45 : tempOutOfRange 30 45 = true := by
  rw [tempOutOfRange_iff 30 45 (by norm_num) (by norm_num)]; omega

/-- C9: on every Running pass of a wash stage (switch on, timer below the duration after the
poll sleep) whose temperature sample is an anomaly, `blinkLED` does not return: the pass goes
round again with the timer restarted at the current clock value, so the timer reads zero; the
indicator is not written (the only write is the wash digit); and the rest of the run is the run
of a freshly started stage of the same duration from the state after the pass, which does not
depend on the time elapsed before the anomaly. A sample of 45 against the setpoint 30 is an
anomaly. -/
theorem wash_anomaly_restarts_stage (env : Inputs) (led : Led) (duration : ℚ) (tmp : ℤ)
    (timerStart : ℕ) (s : Machine)
    (hsw : env.switchButton s.switchReads = true)
    (hrun : timerRead timerStart (s.sleep 1000) < duration)
    (hanom : tempOutOfRange tmp (tempSample (env.TMP s.tmpReads)) = true) :
    ∃ s', blinkTick env led duration 'w' tmp timerStart s = .ok (.again s'.clock s')
      ∧ timerRead s'.clock s' = 0
      ∧ s'.getLed led = s.getLed led
      ∧ s'.writes = s.writes ++ [Write.segments 0x06]
      ∧ (∀ fuel, blinkLoop env led duration 'w' tmp (fuel + 1) timerStart s
          = blinkLED env fuel led duration 'w' tmp s')
      ∧ (∀ timerStart', timerRead timerStart' (s.sleep 1000) < duration →
          blinkTick env led duration 'w' tmp timerStart' s = .ok (.again s'.clock s'))
      ∧ tempOutOfRange 30 45 = true := by
  have conv : ∀ t : ℕ, timerRead t (s.sleep 1000) < duration →
      timerRead t s + 1 < duration := by
    intro t h
    rw [timerRead_after t 1000 s _ rfl] at h
    norm_num at h; exact h
  have ht := blinkTick_anomaly env led duration tmp timerStart s hsw (conv _ hrun) hanom
  refine ⟨{ s with switchReads := s.switchReads + 1, tmpReads := s.tmpReads + 1,
                   clock := s.clock + 6000, segments := 0x06,
                   writes := s.writes ++ [Write.segments 0x06] }, ht, ?_, ?_, rfl, ?_, ?_,
    tempOutOfRange_30_45⟩
  · simp [timerRead]
  · cases led <;> rfl
  · intro fuel
    rw [blinkLoop, ht]; rfl
  · intro t h
    exact blinkTick_anomaly env led duration tmp t s hsw (conv _ h) hanom

/-- C9 at a concrete pass: the first pass of a 4 s wash stage, sample 41 against setpoint 30. -/
theorem wash_anomaly_restarts_stage_witness :
    (twoAnomaliesEnv.switchButton Machine.init.switchReads = true
      ∧ timerRead 0 (Machine.init.sleep 1000) < 4
      ∧ tempOutOfRange 30 (tempSample (twoAnomaliesEnv.TMP Machine.init.tmpReads)) = true)
    ∧ ∃ s', blinkTick twoAnomaliesEnv .led1 4 'w' 30 0 Machine.init = .ok (.again s'.clock s')
      ∧ timerRead s'.clock s' = 0 ∧ s'.getLed .led1 = Machine.init.getLed .led1 := by
  have h1 : timerRead 0 (Machine.init.sleep 1000) < 4 := by
    norm_num [timerRead, Machine.sleep, Machine.init]
  have h2 := twoAnomaliesEnv_anomalous 0 (by norm_num)
  obtain ⟨s', a, b, c, _⟩ :=
    wash_anomaly_restarts_stage twoAnomaliesEnv .led1 4 30 0 Machine.init rfl h1 h2
  exact ⟨⟨rfl, h1, h2⟩, s', a, b, c⟩

/-- A pass of a stage other than wash depends on the inputs only through the switch. -/
theorem blinkTick_congr (env env' : Inputs) (led : Led) (duration : ℚ) (stage : Char) (tmp : ℤ)
    (timerStart : ℕ) (s : Machine) (hstage : stage ≠ 'w')
    (hsw : env'.switchButton = env.switchButton) :
    blinkTick env' led duration stage tmp timerStart s
      = blinkTick env led duration stage tmp timerStart s := by
  simp only [blinkTick, hsw, hstage, if_false]

theorem blinkLoop_congr (env env' : Inputs) (led : Led) (duration : ℚ) (stage : Char) (tmp : ℤ)
    (hstage : stage ≠ 'w') (hsw : env'.switchButton = env.switchButton) :
    ∀ (fuel timerStart : ℕ) (s : Machine),
    blinkLoop env' led duration stage tmp fuel timerStart s
      = blinkLoop env led duration stage tmp fuel timerStart s := by
  intro fuel
  induction fuel with
  | zero => intro timerStart s; rfl
  | succ f ih =>
    intro timerStart s
    rw [blinkLoop, blinkLoop, blinkTick_congr env env' led duration stage tmp timerStart s
      hstage hsw]
    cases blinkTick env led duration stage tmp timerStart s with
    | error e => rfl
    | ok t =>
      cases t with
      | returned r s1 => rfl
      | again t1 s1 => exact ih t1 s1

/-- C10: temperature supervision applies to the wash stage only. For stage Rinse (`'r'`) or Spin
(`'s'`), every duration, setpoint, start state and safety-switch stream, replacing the
temperature readings by any others leaves the run of `blinkLED` unchanged: the same outcome and
the same final state, hence the same sequence of indicator and display writes; the run
returns, and the temperature sensor is never sampled. -/
theorem rinse_spin_ignore_temperature (env : Inputs) (readings : ℕ → ℚ) (led : Led)
    (duration : ℚ) (stage : Char) (tmp : ℤ) (s : Machine)
    (hstage : stage = 'r' ∨ stage = 's') :
    (∀ fuel, blinkLED { env with TMP := readings } fuel led duration stage tmp s
        = blinkLED env fuel led duration stage tmp s)
    ∧ ∃ fuel0, ∀ fuel, fuel0 ≤ fuel →
        ∃ r s', blinkLED env fuel led duration stage tmp s = .ok (r, s')
          ∧ blinkLED { env with TMP := readings } fuel led duration stage tmp s = .ok (r, s')
          ∧ s'.tmpReads = s.tmpReads := by
  have hw : stage ≠ 'w' := by
    rcases hstage with h | h <;> rw [h] <;> decide
  have heq : ∀ fuel, blinkLED { env with TMP := readings } fuel led duration stage tmp s
      = blinkLED env fuel led duration stage tmp s := fun fuel =>
    blinkLoop_congr env { env with TMP := readings } led duration stage tmp hw rfl fuel s.clock s
  refine ⟨heq, ⌈duration - timerRead s.clock s - 1⌉₊ + 1, fun fuel hfuel => ?_⟩
  obtain ⟨r, s', hloop, _, _, htmp⟩ :=
    blinkLoop_finishes env led duration stage tmp ⌈duration - timerRead s.clock s - 1⌉₊
      fuel s.clock s (fun h => absurd h hw) (Nat.le_ceil _) (by omega)
  exact ⟨r, s', hloop, by rw [heq]; exact hloop, htmp hw⟩

/-- C10 at a concrete pair of runs: a 3 s rinse stage under two different temperature streams. -/
theorem rinse_spin_ignore_temperature_witness :
    (('r' : Char) = 'r' ∨ ('r' : Char) = 's')
    ∧ ∀ fuel, blinkLED { twoAnomaliesEnv with TMP := fun _ => 1 } fuel .led2 3 'r' 30 Machine.init
        = blinkLED twoAnomaliesEnv fuel .led2 3 'r' 30 Machine.init :=
  ⟨Or.inl rfl,
    (rinse_spin_ignore_temperature twoAnomaliesEnv (fun _ => 1) .led2 3 'r' 30 Machine.init
      (Or.inl rfl)).1⟩

/-! ## The cycle supervisor -/

theorem runOption_eq_runStages (env : Inputs) (fuel : ℕ) (option : ℤ) (s : Machine)
    (h : 1 ≤ option ∧ option ≤ 5) :
    runOption env fuel option s
      = runStages env fuel (profile option).1 (profile option).2.1 (profile option).2.2 s := by
  obtain ⟨h1, h5⟩ := h
  interval_cases option <;> simp [runOption, profile]

theorem runOption_ok_range (env : Inputs) (fuel : ℕ) (option : ℤ) (s : Machine)
    (x : Bool × Bool × Bool × Machine) (h : runOption env fuel option s = .ok x) :
    1 ≤ option ∧ option ≤ 5 := by
  unfold runOption at h
  split_ifs at h <;> omega

theorem blinkLED_released (env : Inputs) (fuel : ℕ) (led : Led) (duration : ℚ) (stage : Char)
    (tmp : ℤ) (s : Machine) (hfuel : fuel ≠ 0) (h : env.switchButton s.switchReads = false) :
    blinkLED env fuel led duration stage tmp s
      = .ok (false, { s with switchReads := s.switchReads + 1 }) := by
  obtain ⟨f, rfl⟩ : ∃ f, fuel = f + 1 := ⟨fuel - 1, by omega⟩
  rw [blinkLED, blinkLoop, blinkTick_released env led duration stage tmp s.clock s h]

theorem blinkLED_ok_fuel (env : Inputs) (fuel : ℕ) (led : Led) (duration : ℚ) (stage : Char)
    (tmp : ℤ) (s : Machine) (x : Bool × Machine)
    (h : blinkLED env fuel led duration stage tmp s = .ok x) : fuel ≠ 0 := by
  rintro rfl
  simp [blinkLED, blinkLoop] at h

/-- A pass of the loop of `cycles` that finds the flag clear, the switch on and the button pressed
runs the switch on the dial option from the state `stagesStart` and stores the conjunction of the
three stage results in `cycleComplete`. -/
theorem cyclesPass_pressed (env : Inputs) (fuel : ℕ) (s : Machine)
    (hflag : s.cycleComplete = false)
    (hsw : env.switchButton s.switchReads = true)
    (hopt : 1 ≤ dialOption (env.potentiometer s.potReads)
      ∧ dialOption (env.potentiometer s.potReads) ≤ 6)
    (hbtn : env.cycleButton s.cycleReads = true) :
    cyclesPass env fuel s
      = match runOption env fuel (dialOption (env.potentiometer s.potReads))
          (stagesStart (dialOption (env.potentiometer s.potReads)) s) with
        | .error e => .error e
        | .ok (r1, r2, r3, s') => .ok (.again { s' with cycleComplete := r1 && r2 && r3 }) := by
  have hd : (0 ≤ dialOption (env.potentiometer s.potReads) - 1
      ∧ dialOption (env.potentiometer s.potReads) - 1 < 6) := by omega
  simp only [cyclesPass, hflag, hsw, displayDigit, hd, Machine.setSegments, hbtn, stagesStart,
    Bool.false_eq_true, if_false, Bool.not_true, if_true, and_self]

/-- C4, refuted as stated: in the cycle that profile 1 starts under `blipEnv`, the wash stage
returns Aborted at its first poll, and the rinse and spin stages are run all the same: both
return Completed, 13 seconds pass, and their digits and indicator toggles are written. -/
theorem later_stages_run_after_abort :
    blinkLED blipEnv 10 .led1 4 'w' 30 (stagesStart 1 Machine.init)
        = .ok (false, { stagesStart 1 Machine.init with switchReads := 2 })
    ∧ runOption blipEnv 10 1 (stagesStart 1 Machine.init)
        = .ok (false, true, true, blipStagesDone) := by
  constructor <;> decide!

/-- C4, amended: in every cycle started with a profile in 1..5 the three stage invocations are
made in the order wash, rinse, spin whatever the earlier outcomes; if a stage invocation returns
Aborted and the safety switch still reads released at the first poll of each later invocation,
each later invocation returns Aborted at that poll, and the state after the stages is the state
the aborted stage returned in, but for the switch reads: no later stage samples the temperature,
writes an indicator or the display, or lets time pass. -/
theorem later_stages_abort_at_once_if_switch_still_released (env : Inputs) (fuel : ℕ)
    (option : ℤ) (s : Machine) (hopt : 1 ≤ option ∧ option ≤ 5) :
    runOption env fuel option s
        = runStages env fuel (profile option).1 (profile option).2.1 (profile option).2.2 s
    ∧ (∀ s1, blinkLED env fuel .led1 (profile option).1 'w' 30 s = .ok (false, s1) →
        env.switchButton s1.switchReads = false →
        env.switchButton (s1.switchReads + 1) = false →
        runOption env fuel option s
          = .ok (false, false, false, { s1 with switchReads := s1.switchReads + 2 }))
    ∧ (∀ s1 s2, blinkLED env fuel .led1 (profile option).1 'w' 30 s = .ok (true, s1) →
        blinkLED env fuel .led2 (profile option).2.1 'r' 30 s1 = .ok (false, s2) →
        env.switchButton s2.switchReads = false →
        runOption env fuel option s
          = .ok (true, false, false, { s2 with switchReads := s2.switchReads + 1 })) := by
  have heq := runOption_eq_runStages env fuel option s hopt
  refine ⟨heq, ?_, ?_⟩
  · intro s1 h1 hr hsp
    have hf := blinkLED_ok_fuel _ _ _ _ _ _ _ _ h1
    rw [heq, runStages, h1]
    simp only
    rw [blinkLED_released env fuel .led2 _ 'r' 30 s1 hf hr]
    simp only
    rw [blinkLED_released env fuel .led3 _ 's' 30 _ hf hsp]
  · intro s1 s2 h1 h2 hsp
    have hf := blinkLED_ok_fuel _ _ _ _ _ _ _ _ h1
    rw [heq, runStages, h1]
    simp only
    rw [h2]
    simp only
    rw [blinkLED_released env fuel .led3 _ 's' 30 s2 hf hsp]

/-- C4 amended, at a concrete cycle: profile 1 under `releaseEnv`, where the switch is released
from the first poll of the wash stage on; all three stages return Aborted and only the three
switch reads separate the final state from the start state. -/
theorem later_stages_abort_at_once_if_switch_still_released_witness :
    ((1 : ℤ) ≤ 1 ∧ (1 : ℤ) ≤ 5)
    ∧ runOption releaseEnv 5 1 (stagesStart 1 Machine.init)
        = .ok (false, false, false, { stagesStart 1 Machine.init with switchReads := 4 }) :=
  ⟨by decide,
    (later_stages_abort_at_once_if_switch_still_released releaseEnv 5 1
      (stagesStart 1 Machine.init) (by decide)).2.1
      { stagesStart 1 Machine.init with switchReads := 2 } (by decide!) (by decide!)
      (by decide!)⟩

/-- C5: for every cycle started by the button with a profile in 1..5 and the cycle-complete flag
clear on entry to the pass, whatever the three stage invocations return, the pass of `cycles`
then assigns `cycleComplete` the conjunction of the three outcomes: the result is Completed if
and only if wash, rinse and spin all returned Completed, and a single Aborted outcome makes it
Aborted. -/
theorem cycle_completed_iff_all_stages_completed (env : Inputs) (fuel : ℕ) (s : Machine)
    (r1 r2 r3 : Bool) (s1 s2 s3 : Machine)
    (hflag : s.cycleComplete = false)
    (hsw : env.switchButton s.switchReads = true)
    (hopt : 1 ≤ dialOption (env.potentiometer s.potReads)
      ∧ dialOption (env.potentiometer s.potReads) ≤ 5)
    (hbtn : env.cycleButton s.cycleReads = true)
    (h1 : blinkLED env fuel .led1 (profile (dialOption (env.potentiometer s.potReads))).1 'w' 30
        (stagesStart (dialOption (env.potentiometer s.potReads)) s) = .ok (r1, s1))
    (h2 : blinkLED env fuel .led2 (profile (dialOption (env.potentiometer s.potReads))).2.1 'r' 30
        s1 = .ok (r2, s2))
    (h3 : blinkLED env fuel .led3 (profile (dialOption (env.potentiometer s.potReads))).2.2 's' 30
        s2 = .ok (r3, s3)) :
    ∃ s', cyclesPass env fuel s = .ok (.again s')
      ∧ s' = { s3 with cycleComplete := r1 && r2 && r3 }
      ∧ (s'.cycleComplete = true ↔ (r1 = true ∧ r2 = true ∧ r3 = true))
      ∧ ((r1 = false ∨ r2 = false ∨ r3 = false) → s'.cycleComplete = false) := by
  refine ⟨{ s3 with cycleComplete := r1 && r2 && r3 }, ?_, rfl, ?_, ?_⟩
  · rw [cyclesPass_pressed env fuel s hflag hsw ⟨hopt.1, by omega⟩ hbtn,
      runOption_eq_runStages env fuel _ _ hopt, runStages, h1]
    simp only
    rw [h2]
    simp only
    rw [h3]
  · simp [Bool.and_eq_true, and_assoc]
  · rintro (h | h | h) <;> simp [h]

/-- C5 at a concrete cycle: profile 1 under `twoAnomaliesEnv`; the three stages return Completed
and the pass sets `cycleComplete`. -/
theorem cycle_completed_iff_all_stages_completed_witness :
    (Machine.init.cycleComplete = false
      ∧ twoAnomaliesEnv.switchButton Machine.init.switchReads = true
      ∧ (1 ≤ dialOption (twoAnomaliesEnv.potentiometer Machine.init.potReads)
        ∧ dialOption (twoAnomaliesEnv.potentiometer Machine.init.potReads) ≤ 5)
      ∧ twoAnomaliesEnv.cycleButton Machine.init.cycleReads = true)
    ∧ cyclesPass twoAnomaliesEnv 10 Machine.init
        = .ok (.again { spinDone with cycleComplete := true }) := by
  have hopt : 1 ≤ dialOption (twoAnomaliesEnv.potentiometer Machine.init.potReads)
      ∧ dialOption (twoAnomaliesEnv.potentiometer Machine.init.potReads) ≤ 5 := by decide!
  obtain ⟨s', hpass, hs', _⟩ :=
    cycle_completed_iff_all_stages_completed twoAnomaliesEnv 10 Machine.init true true true
      washDone rinseDone spinDone rfl rfl hopt rfl (by decide!) (by decide!) (by decide!)
  exact ⟨⟨rfl, rfl, hopt, rfl⟩, by rw [hpass, hs']; rfl⟩

/-- C6, refuted as stated: under `blipEnv` the wash stage of the first cycle returns Aborted
because the switch reads released, the pass ends with the cycle result Aborted, and `cycles`
does not return: the switch reads on again at the next poll, a second cycle is started inside
the same call and runs to completion, and `cycles` returns with `cycleComplete = true`. -/
theorem cycles_starts_new_cycle_after_abort :
    blinkLED blipEnv 11 .led1 4 'w' 30 (stagesStart 1 Machine.init)
        = .ok (false, { stagesStart 1 Machine.init with switchReads := 2 })
    ∧ cyclesPass blipEnv 11 Machine.init = .ok (.again blipStagesDone)
    ∧ blipStagesDone.cycleComplete = false
    ∧ cycles blipEnv 12 Machine.init = .ok blipCyclesDone
    ∧ blipCyclesDone.cycleComplete = true := by
  refine ⟨?_, ?_, ?_, ?_, ?_⟩ <;> decide!

/-! ## Polls of the load guard -/

/-- The state of `load`'s loop after `j` polls that found the door open and the switch on. -/
theorem loadLoop_polls (env : Inputs) (j : ℕ) : ∀ (fuel : ℕ) (h : ℤ) (s : Machine),
    (∀ k, k < j → env.button_door (s.doorReads + k) = false) →
    (∀ k, k < j → env.switchButton (s.switchReads + k) = true) →
    loadLoop env (fuel + j) h s
      = loadLoop env fuel ((forceSamples env s.fsrReads j).foldl max h)
          { s with doorReads := s.doorReads + j, switchReads := s.switchReads + j,
                   fsrReads := s.fsrReads + j, clock := s.clock + 100 * j } := by
  induction j with
  | zero =>
    intro fuel h s _ _
    simp [forceSamples]
  | succ j ih =>
    intro fuel h s hopen hsw
    have hd0 : env.button_door s.doorReads = false := by simpa using hopen 0 (by omega)
    have hs0 : env.switchButton s.switchReads = true := by simpa using hsw 0 (by omega)
    have hmax : (if forceValue (env.FSR s.fsrReads) > h then forceValue (env.FSR s.fsrReads)
        else h) = max h (forceValue (env.FSR s.fsrReads)) := by
      rw [max_def]; split_ifs <;> omega
    rw [show fuel + (j + 1) = (fuel + j) + 1 by omega, loadLoop]
    simp only [hd0, hs0, hmax, Bool.not_true, Bool.false_eq_true, if_false]
    rw [ih fuel _ _ ?_ ?_]
    · simp only [Machine.sleep, forceSamples_succ, List.foldl_cons]
      congr 1
      simp only [Machine.mk.injEq]
      and_intros <;> first | trivial | omega
    · intro k hk
      have := hopen (k + 1) (by omega)
      simpa [Machine.sleep, Nat.add_assoc, Nat.add_comm 1 k] using this
    · intro k hk
      have := hsw (k + 1) (by omega)
      simpa [Machine.sleep, Nat.add_assoc, Nat.add_comm 1 k] using this

/-- C18: if the door already reads closed at the first poll of `load`, then `load` returns Safe
(`true`) with the peak force 0 and the lock indicator engaged, whatever the force sensor and the
safety switch would read: neither of them is read in that attempt, and the run is the same for
any other force and switch streams. -/
theorem load_door_already_closed (env : Inputs) (fuel : ℕ) (s : Machine)
    (h : env.button_door s.doorReads = true) :
    loadLoop env (fuel + 1) 0 (s.sleep 1000)
        = .ok (some 0, { s.sleep 1000 with doorReads := s.doorReads + 1 })
    ∧ load env (fuel + 1) s
        = .ok (true, { s with clock := s.clock + 1000, doorReads := s.doorReads + 1,
                              lock_led := true, segments := 0,
                              writes := s.writes ++ [Write.lock true, Write.segments 0] })
    ∧ (∀ (force : ℕ → ℚ) (switch : ℕ → Bool),
        load { env with FSR := force, switchButton := switch } (fuel + 1) s
          = load env (fuel + 1) s) := by
  have hl : ∀ e : Inputs, e.button_door = env.button_door →
      loadLoop e (fuel + 1) 0 (s.sleep 1000)
        = .ok (some 0, { s.sleep 1000 with doorReads := s.doorReads + 1 }) := by
    intro e he
    simp [loadLoop, he, h, Machine.sleep]
  have hload : ∀ e : Inputs, e.button_door = env.button_door →
      load e (fuel + 1) s
        = .ok (true, { s with clock := s.clock + 1000, doorReads := s.doorReads + 1,
                              lock_led := true, segments := 0,
                              writes := s.writes ++ [Write.lock true, Write.segments 0] }) := by
    intro e he
    unfold load
    simp only [hl e he]
    simp [Machine.setLock, Machine.setSegments, Machine.sleep]
  refine ⟨hl env rfl, hload env rfl, fun force switch => ?_⟩
  exact (hload { env with FSR := force, switchButton := switch } rfl).trans (hload env rfl).symm

/-- C18 at a concrete attempt: the door reads closed at once under `warmEnv`. -/
theorem load_door_already_closed_witness :
    warmEnv.button_door Machine.init.doorReads = true
    ∧ load warmEnv 1 Machine.init
        = .ok (true, { Machine.init with clock := 1000, doorReads := 1, lock_led := true,
                                         writes := [Write.lock true, Write.segments 0] }) :=
  ⟨rfl, (load_door_already_closed warmEnv 0 Machine.init rfl).2.1⟩
theorem foldl_max_spec (l : List ℤ) : ∀ h : ℤ,
    h ≤ l.foldl max h ∧ (∀ x ∈ l, x ≤ l.foldl max h)
      ∧ (l.foldl max h = h ∨ l.foldl max h ∈ l) := by
  induction l with
  | nil => intro h; simp
  | cons a l ih =>
    intro h
    obtain ⟨h1, h2, h3⟩ := ih (max h a)
    simp only [List.foldl_cons, List.mem_cons, forall_eq_or_imp]
    refine ⟨le_trans (le_max_left h a) h1, ⟨le_trans (le_max_right h a) h1, h2⟩, ?_⟩
    rcases h3 with h3 | h3
    · rcases max_choice h a with hm | hm
      · left; rw [h3, hm]
      · right; left; rw [h3, hm]
    · right; right; exact h3

theorem forceSamples_append (env : Inputs) (start j : ℕ) :
    forceSamples env start (j + 1)
      = forceSamples env start j ++ [forceValue (env.FSR (start + j))] := by
  simp [forceSamples, List.range'_concat]

/-- C12: in every load attempt, if the safety switch reads released at a poll of the open-door
loop (the poll after `n` polls that found the door open and the switch on), `load` returns
Aborted (`false`) at that poll: the only force samples taken are the `n` of the earlier polls,
the lock indicator is not written and the error display is not requested (no pin is written at
all). -/
theorem load_aborts_when_switch_released (env : Inputs) (s : Machine) (n fuel : ℕ)
    (hopen : ∀ k, k ≤ n → env.button_door (s.doorReads + k) = false)
    (hsw : ∀ k, k < n → env.switchButton (s.switchReads + k) = true)
    (hrel : env.switchButton (s.switchReads + n) = false)
    (hfuel : n < fuel) :
    ∃ s', load env fuel s = .ok (false, s')
      ∧ s' = { s with clock := s.clock + 1000 + 100 * n, doorReads := s.doorReads + n + 1,
                      switchReads := s.switchReads + n + 1, fsrReads := s.fsrReads + n }
      ∧ s'.fsrReads = s.fsrReads + n
      ∧ s'.lock_led = s.lock_led
      ∧ s'.segments = s.segments
      ∧ s'.writes = s.writes := by
  obtain ⟨f, rfl⟩ : ∃ f, fuel = (f + 1) + n := ⟨fuel - n - 1, by omega⟩
  refine ⟨_, ?_, rfl, rfl, rfl, rfl, rfl⟩
  have hl := loadLoop_polls env n (f + 1) 0 (s.sleep 1000)
    (fun k hk => by simpa [Machine.sleep] using hopen k (by omega))
    (fun k hk => by simpa [Machine.sleep] using hsw k hk)
  have hd : env.button_door (s.doorReads + n) = false := hopen n (le_refl n)
  rw [loadLoop] at hl
  simp only [Machine.sleep, hd, hrel, Bool.false_eq_true, if_false, Bool.not_false,
    if_true] at hl
  simp only [load, Machine.sleep, hl]

/-- C12 at a concrete attempt: under `doorOpenEnv` the door stays open, the switch is on at the
first poll and released at the second. -/
theorem load_aborts_when_switch_released_witness :
    ((∀ k, k ≤ 1 → doorOpenEnv.button_door (Machine.init.doorReads + k) = false)
      ∧ (∀ k, k < 1 → doorOpenEnv.switchButton (Machine.init.switchReads + k) = true)
      ∧ doorOpenEnv.switchButton (Machine.init.switchReads + 1) = false
      ∧ 1 < 2)
    ∧ load doorOpenEnv 2 Machine.init
        = .ok (false, { Machine.init with clock := 1100, doorReads := 2, switchReads := 2,
                                          fsrReads := 1 }) := by
  obtain ⟨s', h, hs', _⟩ :=
    load_aborts_when_switch_released doorOpenEnv Machine.init 1 2 (by decide) (by decide)
      (by decide) (by decide)
  exact ⟨⟨by decide, by decide, by decide, by decide⟩, by rw [h, hs']; rfl⟩

/-- C13: for every sequence of force samples taken while the door is open (and the switch on),
after each poll `j` the loop of `load` goes on with the running peak `peakForce .. j`, which is
the maximum of 0 and the samples taken so far: it is at least 0 and at least every sample, and
it is 0 or one of the samples; it never decreases from one poll to the next; and when the door
closes after `n` polls the loop hands the maximum of all `n` samples to the comparison with the
ceiling, so `load` returns whether that maximum is at most 108. -/
theorem running_peak_is_max_of_samples (env : Inputs) (s : Machine) (n : ℕ)
    (hopen : ∀ k, k < n → env.button_door (s.doorReads + k) = false)
    (hsw : ∀ k, k < n → env.switchButton (s.switchReads + k) = true) :
    (∀ j, j ≤ n → ∀ fuel,
        loadLoop env (fuel + j) 0 s
          = loadLoop env fuel (peakForce env s.fsrReads j)
              { s with doorReads := s.doorReads + j, switchReads := s.switchReads + j,
                       fsrReads := s.fsrReads + j, clock := s.clock + 100 * j })
    ∧ (∀ j, 0 ≤ peakForce env s.fsrReads j
        ∧ (∀ x ∈ forceSamples env s.fsrReads j, x ≤ peakForce env s.fsrReads j)
        ∧ (peakForce env s.fsrReads j = 0
            ∨ peakForce env s.fsrReads j ∈ forceSamples env s.fsrReads j))
    ∧ (∀ j, peakForce env s.fsrReads j ≤ peakForce env s.fsrReads (j + 1))
    ∧ (env.button_door (s.doorReads + n) = true → ∀ fuel, n < fuel →
        (∃ s', loadLoop env fuel 0 s = .ok (some (peakForce env s.fsrReads n), s'))
        ∧ ∃ s', load env fuel s = .ok (decide (peakForce env s.fsrReads n ≤ 108), s')) := by
  refine ⟨?_, ?_, ?_, ?_⟩
  · intro j hj fuel
    exact loadLoop_polls env j fuel 0 s (fun k hk => hopen k (by omega))
      (fun k hk => hsw k (by omega))
  · intro j
    exact foldl_max_spec (forceSamples env s.fsrReads j) 0
  · intro j
    unfold peakForce
    rw [forceSamples_append, List.foldl_append]
    simp
  · intro hclosed fuel hfuel
    refine ⟨⟨_, loadLoop_door_closes env n fuel 0 s hopen hclosed hsw hfuel⟩, ?_⟩
    have hloop := loadLoop_door_closes env n fuel 0 (s.sleep 1000)
      (by simpa [Machine.sleep] using hopen) (by simpa [Machine.sleep] using hclosed)
      (by simpa [Machine.sleep] using hsw) hfuel
    have hpk : (forceSamples env (s.sleep 1000).fsrReads n).foldl max 0
        = peakForce env s.fsrReads n := rfl
    rw [hpk] at hloop
    unfold load
    by_cases hp : peakForce env s.fsrReads n > 108
    · have hd : decide (peakForce env s.fsrReads n ≤ 108) = false := by
        rw [decide_eq_false_iff_not]; omega
      simp only [hloop, if_pos hp, hd]
      exact ⟨_, rfl⟩
    · have hd : decide (peakForce env s.fsrReads n ≤ 108) = true := by
        rw [decide_eq_true_iff]; omega
      simp only [hloop, if_neg hp, hd]
      exact ⟨_, rfl⟩

/-- C13 at a concrete attempt: two polls with the door open under `loadEnv`. -/
theorem running_peak_is_max_of_samples_witness :
    ((∀ k, k < 2 → loadEnv.button_door (Machine.init.doorReads + k) = false)
      ∧ (∀ k, k < 2 → loadEnv.switchButton (Machine.init.switchReads + k) = true))
    ∧ (∀ j, peakForce loadEnv Machine.init.fsrReads j
        ≤ peakForce loadEnv Machine.init.fsrReads (j + 1))
    ∧ (∀ fuel, loadLoop loadEnv (fuel + 2) 0 Machine.init
        = loadLoop loadEnv fuel (peakForce loadEnv Machine.init.fsrReads 2)
            { Machine.init with doorReads := 2, switchReads := 2, fsrReads := 2,
                                clock := 200 }) := by
  obtain ⟨h1, _, h3, _⟩ :=
    running_peak_is_max_of_samples loadEnv Machine.init 2 (by decide) (by decide)
  exact ⟨⟨by decide, by decide⟩, h3, fun fuel => h1 2 (le_refl 2) fuel⟩

/-! ## Bounds on the dial option -/

theorem roundHalfEven_le_of_le (x : ℚ) (k : ℤ) (h : x ≤ k) : roundHalfEven x ≤ k := by
  have h1 := abs_roundHalfEven_sub_le x
  rw [abs_le] at h1
  have h2 : ((roundHalfEven x : ℤ) : ℚ) < ((k + 1 : ℤ) : ℚ) := by push_cast; linarith
  have h3 : roundHalfEven x < k + 1 := by exact_mod_cast h2
  omega

theorem roundHalfEven_nonneg (x : ℚ) (h : 0 ≤ x) : 0 ≤ roundHalfEven x := by
  have h1 := abs_roundHalfEven_sub_le x
  rw [abs_le] at h1
  have h2 : (((-1 : ℤ)) : ℚ) < ((roundHalfEven x : ℤ) : ℚ) := by push_cast; linarith
  have h3 : -1 < roundHalfEven x := by exact_mod_cast h2
  omega

/-- Rounding keeps a non-negative value non-negative. -/
theorem fround_nonneg (fmt : FloatFormat) (q : ℚ) (h : 0 ≤ q) : 0 ≤ fround fmt q := by
  unfold fround
  have hu : (0 : ℚ) < (2 : ℚ) ^ ulpExp fmt q := zpow_pos (by norm_num) _
  have : 0 ≤ roundHalfEven (q / (2 : ℚ) ^ ulpExp fmt q) :=
    roundHalfEven_nonneg _ (div_nonneg h hu.le)
  exact mul_nonneg (by exact_mod_cast this) hu.le

/-- Rounding does not cross a value `k * 2^e` of the grid on which `q` is rounded. -/
theorem fround_le_of_le (fmt : FloatFormat) (q : ℚ) (k e : ℤ) (hu : ulpExp fmt q ≤ e)
    (h : q ≤ k * (2 : ℚ) ^ e) : fround fmt q ≤ k * (2 : ℚ) ^ e := by
  unfold fround
  set u := ulpExp fmt q with hudef
  have hupos : (0 : ℚ) < (2 : ℚ) ^ u := zpow_pos (by norm_num) u
  have hk : (k : ℚ) * (2 : ℚ) ^ e = ((k * 2 ^ (e - u).toNat : ℤ) : ℚ) * (2 : ℚ) ^ u := by
    push_cast
    rw [mul_assoc, ← zpow_natCast, ← zpow_add₀ (by norm_num : (2 : ℚ) ≠ 0),
      Int.toNat_of_nonneg (by omega)]
    congr 2; ring
  have hx : q / (2 : ℚ) ^ u ≤ ((k * 2 ^ (e - u).toNat : ℤ) : ℚ) := by
    rw [div_le_iff₀ hupos, ← hk]; exact h
  have := roundHalfEven_le_of_le _ _ hx
  rw [hk]
  exact mul_le_mul_of_nonneg_right (by exact_mod_cast this) hupos.le

theorem truncToInt_bounds (q : ℚ) (m : ℤ) (h0 : 0 ≤ q) (h1 : q ≤ m) :
    0 ≤ truncToInt q ∧ truncToInt q ≤ m := by
  unfold truncToInt
  rw [if_pos h0]
  exact ⟨Int.floor_nonneg.2 h0, Int.floor_le_iff.2 (by linarith)⟩

/-- For a dial reading between 0 and 1 the option computed in `cycles` lies in 1..6. -/
theorem dialOption_range (r : ℚ) (h0 : 0 ≤ r) (h1 : r ≤ 1) :
    1 ≤ dialOption r ∧ dialOption r ≤ 6 := by
  have hc : (0 : ℚ) < 13841203 / 4194304 := by norm_num
  -- voltage = reading * 3.3f
  have hv0 : 0 ≤ f32 (r * (13841203 / 4194304)) := fround_nonneg _ _ (mul_nonneg h0 hc.le)
  have hv1 : f32 (r * (13841203 / 4194304)) ≤ 13841203 / 4194304 := by
    have hq : r * (13841203 / 4194304) ≤ 13841203 / 4194304 := by nlinarith
    have hu := ulpExp_le binary32 (r * (13841203 / 4194304)) 1 (by norm_num)
      (by rw [abs_of_nonneg (mul_nonneg h0 hc.le)]; norm_num; linarith)
      (by norm_num [binary32])
    have := fround_le_of_le binary32 (r * (13841203 / 4194304)) 13841203 (-22)
      (by simp [binary32] at hu ⊢; linarith) (by norm_num; linarith)
    norm_num at this
    exact this
  -- voltage / 3.3f
  have hw0 : 0 ≤ f32 (f32 (r * (13841203 / 4194304)) / (13841203 / 4194304)) :=
    fround_nonneg _ _ (div_nonneg hv0 hc.le)
  have hw1 : f32 (f32 (r * (13841203 / 4194304)) / (13841203 / 4194304)) ≤ 1 := by
    have hq : f32 (r * (13841203 / 4194304)) / (13841203 / 4194304) ≤ 1 := by
      rw [div_le_one hc]; exact hv1
    have hu := ulpExp_le binary32 (f32 (r * (13841203 / 4194304)) / (13841203 / 4194304)) 0
      (by norm_num)
      (by rw [abs_of_nonneg (div_nonneg hv0 hc.le)]; norm_num; linarith)
      (by norm_num [binary32])
    have := fround_le_of_le binary32 _ 1 0 (by simp [binary32] at hu ⊢; linarith)
      (by norm_num; exact hq)
    norm_num at this
    exact this
  -- (voltage / 3.3f) * 5
  have hx0 : 0 ≤ f32 (f32 (f32 (r * (13841203 / 4194304)) / (13841203 / 4194304)) * 5) :=
    fround_nonneg _ _ (mul_nonneg hw0 (by norm_num))
  have hx1 : f32 (f32 (f32 (r * (13841203 / 4194304)) / (13841203 / 4194304)) * 5) ≤ 5 := by
    have hq : f32 (f32 (r * (13841203 / 4194304)) / (13841203 / 4194304)) * 5 ≤ 5 := by
      linarith
    have hu := ulpExp_le binary32
      (f32 (f32 (r * (13841203 / 4194304)) / (13841203 / 4194304)) * 5) 2 (by norm_num)
      (by rw [abs_of_nonneg (mul_nonneg hw0 (by norm_num))]; norm_num; linarith)
      (by norm_num [binary32])
    have := fround_le_of_le binary32 _ 5 0 (by simp [binary32] at hu ⊢; linarith)
      (by rw [zpow_zero, mul_one]; exact_mod_cast hq)
    norm_num at this
    exact this
  have ht := truncToInt_bounds _ 5 hx0 (by exact_mod_cast hx1)
  unfold dialOption
  simp only [f32_33_10, f32_5]
  omega

theorem dialOption_one : dialOption 1 = 6 := by decide!

/-- C20: for every dial reading `r` with `0 ≤ r ≤ 1`, the index `digit - 1` with which
`displayDigit(option)` reads the segment table lies in the table's bounds 0..5, so the preview
never reads outside the array: `displayDigit` does not fault; and the full-scale reading 1
selects the sixth entry, which is zero (a blank display). -/
theorem dial_index_within_table (r : ℚ) (h0 : 0 ≤ r) (h1 : r ≤ 1) :
    (0 ≤ dialOption r - 1 ∧ dialOption r - 1 ≤ 5)
    ∧ (dialOption r - 1).toNat < patterns.length
    ∧ (∀ s : Machine, displayDigit (dialOption r) s
        = .ok (s.setSegments (patterns.getD (dialOption r - 1).toNat 0)))
    ∧ dialOption 1 - 1 = 5
    ∧ patterns.getD (dialOption 1 - 1).toNat 0 = 0 := by
  obtain ⟨ha, hb⟩ := dialOption_range r h0 h1
  refine ⟨⟨by omega, by omega⟩, ?_, ?_, ?_, ?_⟩
  · have : patterns.length = 6 := rfl
    rw [this]; omega
  · intro s
    unfold displayDigit
    rw [if_pos ⟨by omega, by omega⟩]
  · rw [dialOption_one]; rfl
  · rw [dialOption_one]; rfl

/-- C20 at a concrete reading: the dial at half scale. -/
theorem dial_index_within_table_witness :
    ((0 : ℚ) ≤ 1 / 2 ∧ (1 / 2 : ℚ) ≤ 1)
    ∧ (0 ≤ dialOption (1 / 2) - 1 ∧ dialOption (1 / 2) - 1 ≤ 5) :=
  ⟨⟨by norm_num, by norm_num⟩,
    (dial_index_within_table (1 / 2) (by norm_num) (by norm_num)).1⟩

/-! ## The preview loop of the supervisor -/

theorem cyclesPass_released (env : Inputs) (fuel : ℕ) (s : Machine)
    (hflag : s.cycleComplete = false) (hsw : env.switchButton s.switchReads = false) :
    cyclesPass env fuel s = .ok (.returned { s with switchReads := s.switchReads + 1 }) := by
  simp [cyclesPass, hflag, hsw]

theorem cyclesPass_preview (env : Inputs) (fuel : ℕ) (s : Machine)
    (hflag : s.cycleComplete = false) (hsw : env.switchButton s.switchReads = true)
    (hopt : 1 ≤ dialOption (env.potentiometer s.potReads)
      ∧ dialOption (env.potentiometer s.potReads) ≤ 6)
    (hbtn : env.cycleButton s.cycleReads = false) :
    cyclesPass env fuel s
      = .ok (.again (stagesStart (dialOption (env.potentiometer s.potReads)) s)) := by
  have hd : (0 ≤ dialOption (env.potentiometer s.potReads) - 1
      ∧ dialOption (env.potentiometer s.potReads) - 1 < 6) := by omega
  simp only [cyclesPass, hflag, hsw, displayDigit, hd, Machine.setSegments, hbtn, stagesStart,
    Bool.false_eq_true, if_false, Bool.not_true, if_true, and_self]

/-- C15: for every run of `cycles` entered with no cycle completed yet, if the safety switch
reads released at a poll of the preview loop before the start button has been seen pressed (after
`j` preview passes with the switch on and the button not pressed), `cycles` returns with the cycle
result Aborted (`cycleComplete = false`), and no stage has been run: the switch has been read only
by the `j + 1` preview polls, no temperature sample has been taken, no time has passed, the stage
indicators are unchanged and the only writes are the preview digits. -/
theorem cycles_returns_when_switch_released_in_preview (env : Inputs) (j : ℕ) :
    ∀ (fuel : ℕ) (s : Machine),
    s.cycleComplete = false →
    (∀ k, k < j → env.switchButton (s.switchReads + k) = true) →
    (∀ k, k < j → 0 ≤ env.potentiometer (s.potReads + k)
      ∧ env.potentiometer (s.potReads + k) ≤ 1) →
    (∀ k, k < j → env.cycleButton (s.cycleReads + k) = false) →
    env.switchButton (s.switchReads + j) = false →
    j < fuel →
    ∃ s', cycles env fuel s = .ok s'
      ∧ s'.cycleComplete = false
      ∧ s'.switchReads = s.switchReads + j + 1
      ∧ s'.potReads = s.potReads + j
      ∧ s'.cycleReads = s.cycleReads + j
      ∧ s'.tmpReads = s.tmpReads
      ∧ s'.clock = s.clock
      ∧ (s'.led1 = s.led1 ∧ s'.led2 = s.led2 ∧ s'.led3 = s.led3)
      ∧ (∀ w ∈ s'.writes, w ∈ s.writes ∨ ∃ v, w = Write.segments v) := by
  induction j with
  | zero =>
    intro fuel s hflag _ _ _ hrel hfuel
    obtain ⟨f, rfl⟩ : ∃ f, fuel = f + 1 := ⟨fuel - 1, by omega⟩
    refine ⟨{ s with switchReads := s.switchReads + 1 }, ?_, hflag, rfl, rfl, rfl, rfl, rfl,
      ⟨rfl, rfl, rfl⟩, fun w hw => Or.inl hw⟩
    rw [cycles, cyclesLoop, cyclesPass_released env f s hflag (by simpa using hrel)]
  | succ j ih =>
    intro fuel s hflag hsw hpot hbtn hrel hfuel
    obtain ⟨f, rfl⟩ : ∃ f, fuel = f + 1 := ⟨fuel - 1, by omega⟩
    have hp0 := hpot 0 (by omega)
    simp only [Nat.add_zero] at hp0
    have hopt := dialOption_range _ hp0.1 hp0.2
    have hpass := cyclesPass_preview env f s hflag (by simpa using hsw 0 (by omega)) hopt
      (by simpa using hbtn 0 (by omega))
    obtain ⟨s', hrun, hc, h1, h2, h3, h4, h5, h6, h7⟩ :=
      ih f (stagesStart (dialOption (env.potentiometer s.potReads)) s) hflag
        (fun k hk => by
          have := hsw (k + 1) (by omega)
          simpa [stagesStart, Machine.setSegments, Nat.add_assoc, Nat.add_comm 1 k] using this)
        (fun k hk => by
          have := hpot (k + 1) (by omega)
          simpa [stagesStart, Machine.setSegments, Nat.add_assoc, Nat.add_comm 1 k] using this)
        (fun k hk => by
          have := hbtn (k + 1) (by omega)
          simpa [stagesStart, Machine.setSegments, Nat.add_assoc, Nat.add_comm 1 k] using this)
        (by
          have := hrel
          simpa [stagesStart, Machine.setSegments, Nat.add_assoc, Nat.add_comm 1 j] using this)
        (by omega)
    refine ⟨s', ?_, hc, ?_, ?_, ?_, ?_, ?_, ?_, ?_⟩
    · rw [cycles, cyclesLoop, hpass]
      exact hrun
    · rw [h1]; simp [stagesStart, Machine.setSegments]; omega
    · rw [h2]; simp [stagesStart, Machine.setSegments]; omega
    · rw [h3]; simp [stagesStart, Machine.setSegments]; omega
    · rw [h4]; rfl
    · rw [h5]; rfl
    · exact h6
    · intro w hw
      rcases h7 w hw with h | h
      · simp only [stagesStart, Machine.setSegments, List.mem_append, List.mem_singleton] at h
        rcases h with h | h
        · exact Or.inl h
        · exact Or.inr ⟨_, h⟩
      · exact Or.inr h

/-- C15 at a concrete run: under `previewEnv` the button is never pressed and the switch is
released at the third preview poll. -/
theorem cycles_returns_when_switch_released_in_preview_witness :
    (Machine.init.cycleComplete = false
      ∧ (∀ k, k < 2 → previewEnv.switchButton (Machine.init.switchReads + k) = true)
      ∧ (∀ k, k < 2 → 0 ≤ previewEnv.potentiometer (Machine.init.potReads + k)
          ∧ previewEnv.potentiometer (Machine.init.potReads + k) ≤ 1)
      ∧ (∀ k, k < 2 → previewEnv.cycleButton (Machine.init.cycleReads + k) = false)
      ∧ previewEnv.switchButton (Machine.init.switchReads + 2) = false
      ∧ 2 < 3)
    ∧ ∃ s', cycles previewEnv 3 Machine.init = .ok s' ∧ s'.cycleComplete = false
        ∧ s'.tmpReads = Machine.init.tmpReads ∧ s'.clock = Machine.init.clock := by
  have hpot : ∀ k, k < 2 → 0 ≤ previewEnv.potentiometer (Machine.init.potReads + k)
      ∧ previewEnv.potentiometer (Machine.init.potReads + k) ≤ 1 := by
    intro k _
    simp only [previewEnv]
    norm_num
  obtain ⟨s', h, hc, _, _, _, ht, hk, _⟩ :=
    cycles_returns_when_switch_released_in_preview previewEnv 2 3 Machine.init rfl
      (by decide) hpot (by decide) (by decide) (by decide)
  exact ⟨⟨rfl, by decide, hpot, by decide, by decide, by decide⟩, s', h, hc, ht, hk⟩

/-! ## After an aborted cycle -/

/-- The loop of `cycles` after `j` preview passes (flag clear, switch on, button not pressed, dial
reading in range): it continues from `afterPreviews`, in which only the polls, the dial reads, the
button reads and the preview digits of those passes have happened. -/
theorem cyclesLoop_previews (env : Inputs) (j : ℕ) : ∀ (s : Machine),
    s.cycleComplete = false →
    (∀ i, i < j → env.switchButton (s.switchReads + i) = true
      ∧ env.cycleButton (s.cycleReads + i) = false
      ∧ 0 ≤ env.potentiometer (s.potReads + i) ∧ env.potentiometer (s.potReads + i) ≤ 1) →
    (∀ fuel, cyclesLoop env (fuel + j) s = cyclesLoop env fuel (afterPreviews env j s))
    ∧ (afterPreviews env j s).cycleComplete = false
    ∧ (afterPreviews env j s).switchReads = s.switchReads + j
    ∧ (afterPreviews env j s).cycleReads = s.cycleReads + j
    ∧ (afterPreviews env j s).potReads = s.potReads + j
    ∧ (afterPreviews env j s).tmpReads = s.tmpReads
    ∧ (afterPreviews env j s).clock = s.clock
    ∧ ((afterPreviews env j s).led1 = s.led1 ∧ (afterPreviews env j s).led2 = s.led2
        ∧ (afterPreviews env j s).led3 = s.led3)
    ∧ (∀ w ∈ (afterPreviews env j s).writes, w ∈ s.writes ∨ ∃ v, w = Write.segments v) := by
  induction j with
  | zero =>
    intro s hflag _
    exact ⟨fun _ => rfl, hflag, rfl, rfl, rfl, rfl, rfl, ⟨rfl, rfl, rfl⟩, fun w hw => Or.inl hw⟩
  | succ j ih =>
    intro s hflag hprev
    obtain ⟨hsw0, hbtn0, hp0, hp1⟩ := hprev 0 (by omega)
    simp only [Nat.add_zero] at hsw0 hbtn0 hp0 hp1
    have hopt := dialOption_range _ hp0 hp1
    obtain ⟨hloop, hc, h1, h2, h3, h4, h5, h6, h7⟩ :=
      ih (stagesStart (dialOption (env.potentiometer s.potReads)) s) hflag
        (fun i hi => by
          have := hprev (i + 1) (by omega)
          simpa [stagesStart, Machine.setSegments, Nat.add_assoc, Nat.add_comm 1 i] using this)
    refine ⟨fun fuel => ?_, hc, ?_, ?_, ?_, ?_, ?_, h6, ?_⟩
    · rw [show fuel + (j + 1) = (fuel + j) + 1 by omega, cyclesLoop,
        cyclesPass_preview env (fuel + j) s hflag hsw0 hopt hbtn0]
      exact hloop fuel
    · rw [afterPreviews, h1]; simp [stagesStart, Machine.setSegments]; omega
    · rw [afterPreviews, h2]; simp [stagesStart, Machine.setSegments]; omega
    · rw [afterPreviews, h3]; simp [stagesStart, Machine.setSegments]; omega
    · rw [afterPreviews, h4]; rfl
    · rw [afterPreviews, h5]; rfl
    · intro w hw
      rcases h7 w hw with h | h
      · simp only [stagesStart, Machine.setSegments, List.mem_append, List.mem_singleton] at h
        rcases h with h | h
        · exact Or.inl h
        · exact Or.inr ⟨_, h⟩
      · exact Or.inr h

/-- C6, amended: from the start `s` of any pass of the loop of `cycles` that starts a cycle, if
some stage invocation of the cycle returns Aborted, the cycle result assigned is Aborted
(`cycleComplete = false`) and the loop goes round again. Let `j ≥ 0` preview passes follow (switch
on, start button not pressed, dial reading in [0, 1]), which leave the state `sj`: no stage has
run in them, no temperature sample has been taken, no time has passed and only preview digits have
been written. If the next poll reads the safety switch released, `cycles` returns there with the
cycle result Aborted and without starting a new cycle: it returns `sj` but for that one switch
read. If instead that pass reads the switch on and the start button pressed, a new cycle is
started inside the same call: the stages are run again from that pass. -/
theorem aborted_cycle_returns_unless_restarted (env : Inputs) (fuel j : ℕ) (s : Machine)
    (r1 r2 r3 : Bool) (s3 : Machine)
    (hflag : s.cycleComplete = false)
    (hsw : env.switchButton s.switchReads = true)
    (hbtn : env.cycleButton s.cycleReads = true)
    (hrun : runOption env (fuel + j + 1) (dialOption (env.potentiometer s.potReads))
        (stagesStart (dialOption (env.potentiometer s.potReads)) s) = .ok (r1, r2, r3, s3))
    (habort : r1 = false ∨ r2 = false ∨ r3 = false)
    (hpreview : ∀ i, i < j → env.switchButton (s3.switchReads + i) = true
      ∧ env.cycleButton (s3.cycleReads + i) = false
      ∧ 0 ≤ env.potentiometer (s3.potReads + i) ∧ env.potentiometer (s3.potReads + i) ≤ 1) :
    cyclesPass env (fuel + j + 1) s = .ok (.again { s3 with cycleComplete := false })
    ∧ ∃ sj, sj = afterPreviews env j { s3 with cycleComplete := false }
      ∧ (sj.cycleComplete = false
        ∧ sj.switchReads = s3.switchReads + j
        ∧ sj.cycleReads = s3.cycleReads + j
        ∧ sj.potReads = s3.potReads + j
        ∧ sj.tmpReads = s3.tmpReads
        ∧ sj.clock = s3.clock
        ∧ (sj.led1 = s3.led1 ∧ sj.led2 = s3.led2 ∧ sj.led3 = s3.led3)
        ∧ (∀ w ∈ sj.writes, w ∈ s3.writes ∨ ∃ v, w = Write.segments v))
      ∧ (env.switchButton (s3.switchReads + j) = false →
          cycles env (fuel + j + 2) s = .ok { sj with switchReads := sj.switchReads + 1 })
      ∧ (env.switchButton (s3.switchReads + j) = true →
          env.cycleButton (s3.cycleReads + j) = true →
          (0 ≤ env.potentiometer (s3.potReads + j) ∧ env.potentiometer (s3.potReads + j) ≤ 1) →
          cycles env (fuel + j + 2) s
            = match runOption env fuel (dialOption (env.potentiometer sj.potReads))
                (stagesStart (dialOption (env.potentiometer sj.potReads)) sj) with
              | .error e => .error e
              | .ok (q1, q2, q3, s4) =>
                cyclesLoop env fuel { s4 with cycleComplete := q1 && q2 && q3 }) := by
  have hopt := runOption_ok_range _ _ _ _ _ hrun
  have hres : (r1 && r2 && r3) = false := by
    rcases habort with h | h | h <;> simp [h]
  have hp1 : cyclesPass env (fuel + j + 1) s = .ok (.again { s3 with cycleComplete := false }) := by
    rw [cyclesPass_pressed env (fuel + j + 1) s hflag hsw ⟨hopt.1, by omega⟩ hbtn, hrun]
    simp only [hres]
  obtain ⟨hloop, hc, h1, h2, h3, h4, h5, h6, h7⟩ :=
    cyclesLoop_previews env j { s3 with cycleComplete := false } rfl hpreview
  have hcyc : cycles env (fuel + j + 2) s
      = cyclesLoop env (fuel + 1) (afterPreviews env j { s3 with cycleComplete := false }) := by
    rw [cycles, show fuel + j + 2 = (fuel + j + 1) + 1 by omega, cyclesLoop, hp1]
    simp only
    rw [show fuel + j + 1 = (fuel + 1) + j by omega]
    exact hloop (fuel + 1)
  refine ⟨hp1, _, rfl, ⟨hc, h1, h2, h3, h4, h5, h6, h7⟩, ?_, ?_⟩
  · intro hrel
    rw [hcyc, cyclesLoop, cyclesPass_released env fuel _ hc (by rw [h1]; exact hrel)]
  · intro hon hpress hdial
    have hopt2 := dialOption_range _ hdial.1 hdial.2
    rw [← h3] at hopt2
    rw [hcyc, cyclesLoop, cyclesPass_pressed env fuel _ hc (by rw [h1]; exact hon) hopt2
      (by rw [h2]; exact hpress)]
    cases runOption env fuel
        (dialOption (env.potentiometer
          (afterPreviews env j { s3 with cycleComplete := false }).potReads))
        (stagesStart (dialOption (env.potentiometer
          (afterPreviews env j { s3 with cycleComplete := false }).potReads))
          (afterPreviews env j { s3 with cycleComplete := false })) with
    | error e => rfl
    | ok x => rfl

/-- C6 amended, at two concrete runs. Under `releaseEnv` the switch is released from the first
poll of the wash stage on: the three stages return Aborted and `cycles` returns at its next poll.
Under `pauseEnv` the switch reads on again at that poll with the button not pressed, and released
at the poll after: `cycles` returns there, Aborted, after one preview pass and no new cycle. -/
theorem aborted_cycle_returns_unless_restarted_witness :
    (Machine.init.cycleComplete = false
      ∧ pauseEnv.switchButton Machine.init.switchReads = true
      ∧ pauseEnv.cycleButton Machine.init.cycleReads = true
      ∧ runOption pauseEnv (4 + 1 + 1) (dialOption (pauseEnv.potentiometer Machine.init.potReads))
          (stagesStart (dialOption (pauseEnv.potentiometer Machine.init.potReads)) Machine.init)
          = .ok (false, false, false, { stagesStart 1 Machine.init with switchReads := 4 })
      ∧ ((false : Bool) = false ∨ (false : Bool) = false ∨ (false : Bool) = false)
      ∧ (∀ i, i < 1 →
          pauseEnv.switchButton
            (({ stagesStart 1 Machine.init with switchReads := 4 } : Machine).switchReads + i)
            = true
          ∧ pauseEnv.cycleButton
            (({ stagesStart 1 Machine.init with switchReads := 4 } : Machine).cycleReads + i)
            = false
          ∧ 0 ≤ pauseEnv.potentiometer
            (({ stagesStart 1 Machine.init with switchReads := 4 } : Machine).potReads + i)
          ∧ pauseEnv.potentiometer
            (({ stagesStart 1 Machine.init with switchReads := 4 } : Machine).potReads + i) ≤ 1)
      ∧ pauseEnv.switchButton
          (({ stagesStart 1 Machine.init with switchReads := 4 } : Machine).switchReads + 1)
          = false)
    ∧ cycles pauseEnv (4 + 1 + 2) Machine.init = .ok pausedDone
    ∧ pausedDone.cycleComplete = false
    ∧ cycles releaseEnv (4 + 0 + 2) Machine.init
        = .ok { stagesStart 1 Machine.init with switchReads := 5 } := by
  have hrun : runOption pauseEnv (4 + 1 + 1)
      (dialOption (pauseEnv.potentiometer Machine.init.potReads))
      (stagesStart (dialOption (pauseEnv.potentiometer Machine.init.potReads)) Machine.init)
      = .ok (false, false, false, { stagesStart 1 Machine.init with switchReads := 4 }) := by
    decide!
  have hprev : ∀ i, i < 1 →
      pauseEnv.switchButton
        (({ stagesStart 1 Machine.init with switchReads := 4 } : Machine).switchReads + i) = true
      ∧ pauseEnv.cycleButton
        (({ stagesStart 1 Machine.init with switchReads := 4 } : Machine).cycleReads + i) = false
      ∧ 0 ≤ pauseEnv.potentiometer
        (({ stagesStart 1 Machine.init with switchReads := 4 } : Machine).potReads + i)
      ∧ pauseEnv.potentiometer
        (({ stagesStart 1 Machine.init with switchReads := 4 } : Machine).potReads + i) ≤ 1 := by
    intro i hi
    obtain rfl : i = 0 := by omega
    refine ⟨by decide, by decide, ?_, ?_⟩ <;> simp [pauseEnv]
  have hrel : pauseEnv.switchButton
      (({ stagesStart 1 Machine.init with switchReads := 4 } : Machine).switchReads + 1)
      = false := by decide
  obtain ⟨_, sj, hsj, _, hret, _⟩ :=
    aborted_cycle_returns_unless_restarted pauseEnv 4 1 Machine.init false false false
      { stagesStart 1 Machine.init with switchReads := 4 } rfl rfl rfl hrun (Or.inl rfl) hprev
  obtain ⟨_, s0, hs0, _, hret0, _⟩ :=
    aborted_cycle_returns_unless_restarted releaseEnv 4 0 Machine.init false false false
      { stagesStart 1 Machine.init with switchReads := 4 } rfl rfl rfl (by decide!) (Or.inl rfl)
      (fun i hi => absurd hi (by omega))
  refine ⟨⟨rfl, rfl, rfl, hrun, Or.inl rfl, hprev, hrel⟩, ?_, rfl, ?_⟩
  · rw [hret hrel, hsj]
    decide!
  · rw [hret0 (by decide), hs0]
    decide!

/-! ## When the stage runner completes -/

/-- A Running pass with the switch on does not return, anomaly or not. -/
theorem blinkTick_running_again (env : Inputs) (led : Led) (duration : ℚ) (stage : Char)
    (tmp : ℤ) (timerStart : ℕ) (s : Machine) (hsw : env.switchButton s.switchReads = true)
    (hrun : timerRead timerStart s + 1 < duration) :
    ∃ t s', blinkTick env led duration stage tmp timerStart s = .ok (.again t s') := by
  by_cases hq : stage = 'w' → tempOutOfRange tmp (tempSample (env.TMP s.tmpReads)) = false
  · obtain ⟨s', h, _⟩ := blinkTick_running env led duration stage tmp timerStart s hsw hrun hq
    exact ⟨_, s', h⟩
  · push_neg at hq
    obtain ⟨hw, ha⟩ := hq
    subst hw
    exact ⟨_, _, blinkTick_anomaly env led duration tmp timerStart s hsw hrun (by simpa using ha)⟩

/-- A pass returns Completed only with the switch on and the duration elapsed at its test, and
then with the indicator on, two seconds after the pass began. -/
theorem blinkTick_returned_true (env : Inputs) (led : Led) (duration : ℚ) (stage : Char)
    (tmp : ℤ) (timerStart : ℕ) (s s' : Machine)
    (h : blinkTick env led duration stage tmp timerStart s = .ok (.returned true s')) :
    duration ≤ timerRead timerStart (s.sleep 1000) ∧ s'.getLed led = true
      ∧ s'.clock = s.clock + 2000 := by
  have ht : timerRead timerStart (s.sleep 1000) = timerRead timerStart s + 1 := by
    rw [timerRead_after timerStart 1000 s _ rfl]; norm_num
  cases hsw : env.switchButton s.switchReads
  · rw [blinkTick_released env led duration stage tmp timerStart s hsw] at h
    simp at h
  · by_cases hrun : timerRead timerStart s + 1 < duration
    · obtain ⟨t, s1, h1⟩ :=
        blinkTick_running_again env led duration stage tmp timerStart s hsw hrun
      rw [h1] at h
      simp at h
    · obtain ⟨s1, h1, _, _, hclock, hled⟩ :=
        blinkTick_elapsed env led duration stage tmp timerStart s hsw hrun
      rw [h1] at h
      simp only [Except.ok.injEq, Tick.returned.injEq, true_and] at h
      subst h
      exact ⟨by rw [ht]; linarith, hled, hclock⟩

/-- A pass that goes round again ends no earlier than it began, and it either keeps the timer
start or restarts the timer at the clock value it ends with. -/
theorem blinkTick_again_timer (env : Inputs) (led : Led) (duration : ℚ) (stage : Char)
    (tmp : ℤ) (timerStart t : ℕ) (s s' : Machine)
    (h : blinkTick env led duration stage tmp timerStart s = .ok (.again t s')) :
    s.clock ≤ s'.clock ∧ (t = timerStart ∨ t = s'.clock) := by
  cases hsw : env.switchButton s.switchReads
  · rw [blinkTick_released env led duration stage tmp timerStart s hsw] at h
    simp at h
  · by_cases hrun : timerRead timerStart s + 1 < duration
    · by_cases hq : stage = 'w' → tempOutOfRange tmp (tempSample (env.TMP s.tmpReads)) = false
      · obtain ⟨s1, h1, _, _, hclock, _⟩ :=
          blinkTick_running env led duration stage tmp timerStart s hsw hrun hq
        rw [h1] at h
        simp only [Except.ok.injEq, Tick.again.injEq] at h
        obtain ⟨rfl, rfl⟩ := h
        exact ⟨by omega, Or.inl rfl⟩
      · push_neg at hq
        obtain ⟨hw, ha⟩ := hq
        subst hw
        rw [blinkTick_anomaly env led duration tmp timerStart s hsw hrun (by simpa using ha)] at h
        simp only [Except.ok.injEq, Tick.again.injEq] at h
        obtain ⟨rfl, rfl⟩ := h
        exact ⟨by simp, Or.inr rfl⟩
    · obtain ⟨s1, h1, _⟩ := blinkTick_elapsed env led duration stage tmp timerStart s hsw hrun
      rw [h1] at h
      simp at h

theorem passStart_succ (env : Inputs) (led : Led) (duration : ℚ) (stage : Char) (tmp : ℤ)
    (n timerStart t : ℕ) (s s' : Machine)
    (h : blinkTick env led duration stage tmp timerStart s = .ok (.again t s')) :
    passStart env led duration stage tmp (n + 1) timerStart s
      = passStart env led duration stage tmp n t s' := by
  rw [passStart, h]

/-- A run of the loop of `blinkLED` that returns does so in one of its passes: pass `n`, begun
with the timer start and state that `passStart` gives. -/
theorem blinkLoop_returning_pass (env : Inputs) (led : Led) (duration : ℚ) (stage : Char)
    (tmp : ℤ) (r : Bool) (s' : Machine) : ∀ (fuel timerStart : ℕ) (s : Machine),
    blinkLoop env led duration stage tmp fuel timerStart s = .ok (r, s') →
    ∃ n t s0, n < fuel ∧ passStart env led duration stage tmp n timerStart s = some (t, s0)
      ∧ blinkTick env led duration stage tmp t s0 = .ok (.returned r s') := by
  intro fuel
  induction fuel with
  | zero => intro t s h; simp [blinkLoop] at h
  | succ f ih =>
    intro t s h
    rw [blinkLoop] at h
    cases hb : blinkTick env led duration stage tmp t s with
    | error e => rw [hb] at h; simp at h
    | ok tick =>
      rw [hb] at h
      cases tick with
      | returned r1 s1 =>
        simp only [Except.ok.injEq, Prod.mk.injEq] at h
        obtain ⟨rfl, rfl⟩ := h
        exact ⟨0, t, s, by omega, rfl, hb⟩
      | again t1 s1 =>
        obtain ⟨n, t2, s2, hn, hp, hret⟩ := ih t1 s1 h
        exact ⟨n + 1, t2, s2, by omega,
          by rw [passStart_succ env led duration stage tmp n t t1 s s1 hb]; exact hp, hret⟩

/-- The timer start with which a pass begins is the one the loop was entered with, or the clock
value at the end of an earlier pass that restarted the timer; it lies between the timer start at
entry and the clock at the start of the pass. -/
theorem passStart_timer (env : Inputs) (led : Led) (duration : ℚ) (stage : Char) (tmp : ℤ) :
    ∀ (n timerStart : ℕ) (s : Machine) (t : ℕ) (sn : Machine),
    passStart env led duration stage tmp n timerStart s = some (t, sn) →
    timerStart ≤ s.clock →
    (t = timerStart
      ∨ ∃ i ti si s1, i < n ∧ passStart env led duration stage tmp i timerStart s = some (ti, si)
          ∧ blinkTick env led duration stage tmp ti si = .ok (.again t s1) ∧ t = s1.clock)
    ∧ timerStart ≤ t ∧ t ≤ sn.clock := by
  intro n
  induction n with
  | zero =>
    intro t0 s t sn h hle
    simp only [passStart, Option.some.injEq, Prod.mk.injEq] at h
    obtain ⟨rfl, rfl⟩ := h
    exact ⟨Or.inl rfl, le_refl _, hle⟩
  | succ n ih =>
    intro t0 s t sn h hle
    cases hb : blinkTick env led duration stage tmp t0 s with
    | error e => rw [passStart, hb] at h; simp at h
    | ok tick =>
      cases tick with
      | returned r1 s1 => rw [passStart, hb] at h; simp at h
      | again t1 s1 =>
        rw [passStart_succ env led duration stage tmp n t0 t1 s s1 hb] at h
        obtain ⟨hclock, horigin⟩ := blinkTick_again_timer env led duration stage tmp t0 t1 s s1 hb
        have hle1 : t1 ≤ s1.clock := by
          rcases horigin with h1 | h1 <;> omega
        have hge1 : t0 ≤ t1 := by
          rcases horigin with h1 | h1 <;> omega
        obtain ⟨hor, hlo, hhi⟩ := ih t1 s1 t sn h hle1
        refine ⟨?_, by omega, hhi⟩
        rcases hor with rfl | ⟨i, ti, si, s2, hi, hp, hti, ht⟩
        · rcases horigin with h1 | h1
          · exact Or.inl h1
          · exact Or.inr ⟨0, t0, s, s1, by omega, rfl, hb, h1⟩
        · exact Or.inr ⟨i + 1, ti, si, s2, by omega,
            by rw [passStart_succ env led duration stage tmp i t0 t1 s s1 hb]; exact hp, hti, ht⟩

/-- C16: for every stage character, duration, setpoint and start state (hence every initial
indicator state and number of toggles), whenever `blinkLED` returns Completed (`true`) the stage
indicator is on at the return, and the return happens in a pass of that run (pass `n`, begun in
state `s0` with timer start `t`) whose timer test found the elapsed time at least the duration.
The timer start `t` of that pass is the clock at entry to `blinkLED`, or the clock at the end of
an earlier pass of the run that reset the timer; so at least `duration` seconds lie between the
entry and the test, and the return is one second after the test. -/
theorem completed_only_when_elapsed_with_indicator_on (env : Inputs) (fuel : ℕ) (led : Led)
    (duration : ℚ) (stage : Char) (tmp : ℤ) (s s' : Machine)
    (h : blinkLED env fuel led duration stage tmp s = .ok (true, s')) :
    s'.getLed led = true
    ∧ ∃ n t s0, n < fuel
        ∧ passStart env led duration stage tmp n s.clock s = some (t, s0)
        ∧ blinkTick env led duration stage tmp t s0 = .ok (.returned true s')
        ∧ duration ≤ timerRead t (s0.sleep 1000)
        ∧ (t = s.clock
          ∨ ∃ i ti si s1, i < n
              ∧ passStart env led duration stage tmp i s.clock s = some (ti, si)
              ∧ blinkTick env led duration stage tmp ti si = .ok (.again t s1) ∧ t = s1.clock)
        ∧ s.clock ≤ t ∧ t ≤ s0.clock
        ∧ s'.clock = s0.clock + 2000
        ∧ (s.clock : ℚ) + 1000 * duration + 1000 ≤ (s'.clock : ℚ) := by
  obtain ⟨n, t, s0, hn, hp, ht⟩ :=
    blinkLoop_returning_pass env led duration stage tmp true s' fuel s.clock s h
  obtain ⟨he, hled, hclock⟩ := blinkTick_returned_true env led duration stage tmp t s0 s' ht
  obtain ⟨hor, hlo, hhi⟩ :=
    passStart_timer env led duration stage tmp n s.clock s t s0 hp (le_refl _)
  refine ⟨hled, n, t, s0, hn, hp, ht, he, hor, hlo, hhi, hclock, ?_⟩
  have he' : duration ≤ ((s0.clock : ℚ) + 1000 - (t : ℚ)) / 1000 := by
    have := he
    simp only [timerRead, Machine.sleep] at this
    push_cast at this
    exact this
  have hlo' : (s.clock : ℚ) ≤ (t : ℚ) := by exact_mod_cast hlo
  rw [hclock]
  push_cast
  rw [le_div_iff₀ (by norm_num)] at he'
  linarith

/-- C16 at a concrete run: a 7 s spin stage entered with the indicator off when the clock reads
100 s returns Completed with the indicator on when the clock reads 108 s, eight seconds after the
entry. -/
theorem completed_only_when_elapsed_with_indicator_on_witness :
    blinkLED twoAnomaliesEnv 5 .led3 7 's' 30 lateStart = .ok (true, spinLate)
    ∧ spinLate.getLed .led3 = true
    ∧ (lateStart.clock : ℚ) + 1000 * 7 + 1000 ≤ (spinLate.clock : ℚ) := by
  obtain ⟨hled, _, _, _, _, _, _, _, _, _, _, _, hwall⟩ :=
    completed_only_when_elapsed_with_indicator_on twoAnomaliesEnv 5 .led3 7 's' 30 lateStart
      spinLate (by decide!)
  exact ⟨by decide!, hled, hwall⟩

/-! ## Timing of an anomaly-free stage -/

theorem ledWrites_append (l : Led) (a b : List Write) :
    ledWrites l (a ++ b) = ledWrites l a + ledWrites l b := by
  simp [ledWrites, List.countP_append]

theorem ledValues_append (l : Led) (a b : List Write) :
    ledValues l (a ++ b) = ledValues l a ++ ledValues l b := by
  simp [ledValues, List.filterMap_append]

theorem ledValues_nil (l : Led) : ledValues l [] = [] := rfl

theorem ledValues_led (l : Led) (v : Bool) (ws : List Write) :
    ledValues l (Write.led l v :: ws) = v :: ledValues l ws := by
  cases l <;> rfl

theorem ledValues_segments (l : Led) (v : ℕ) (ws : List Write) :
    ledValues l (Write.segments v :: ws) = ledValues l ws := rfl

/-- The writes of a Running pass without anomaly: one write to the indicator, of the negation of
the value it showed, which it then shows. -/
theorem blinkTick_running_count (env : Inputs) (led : Led) (duration : ℚ) (stage : Char)
    (tmp : ℤ) (timerStart : ℕ) (s : Machine) (hsw : env.switchButton s.switchReads = true)
    (hrun : timerRead timerStart s + 1 < duration)
    (hquiet : stage = 'w' → tempOutOfRange tmp (tempSample (env.TMP s.tmpReads)) = false) :
    ∃ s', blinkTick env led duration stage tmp timerStart s = .ok (.again timerStart s')
      ∧ s'.switchReads = s.switchReads + 1
      ∧ s'.tmpReads = s.tmpReads + (if stage = 'w' then 1 else 0)
      ∧ s'.clock = s.clock + 1500
      ∧ ledWrites led s'.writes = ledWrites led s.writes + 1
      ∧ ledValues led s'.writes = ledValues led s.writes ++ [!s.getLed led]
      ∧ s'.getLed led = !s.getLed led := by
  have ht : timerRead timerStart
      (Machine.sleep 1000 { s with switchReads := s.switchReads + 1 })
      = timerRead timerStart s + 1 := by
    rw [timerRead_after timerStart 1000 s _ rfl]; norm_num
  simp only [blinkTick, hsw, ht, if_pos hrun, Bool.not_true, Bool.false_eq_true, if_false,
    displayDigit_one, displayDigit_two, displayDigit_three]
  by_cases hw : stage = 'w'
  · have hq := hquiet hw
    simp only [hw, if_true, temp, Machine.setSegments, Machine.sleep, hq, Bool.false_eq_true,
      if_false]
    refine ⟨_, rfl, ?_⟩
    cases led <;>
      simp [toggleAndWait, Machine.sleep, Machine.setLed, Machine.getLed, ledWrites,
        List.countP_append, ledValues_append, ledValues_nil, ledValues_led,
        ledValues_segments]
  · simp only [hw, if_false]
    split_ifs <;> refine ⟨_, rfl, ?_⟩ <;> cases led <;>
      simp [toggleAndWait, Machine.sleep, Machine.setLed, Machine.setSegments, Machine.getLed,
        ledWrites, List.countP_append, ledValues_append, ledValues_nil, ledValues_led,
        ledValues_segments]

/-- The writes of the completing pass: one write to the indicator, of the value on, which it then
shows. -/
theorem blinkTick_elapsed_count (env : Inputs) (led : Led) (duration : ℚ) (stage : Char)
    (tmp : ℤ) (timerStart : ℕ) (s : Machine) (hsw : env.switchButton s.switchReads = true)
    (hdone : ¬ timerRead timerStart s + 1 < duration) :
    ∃ s', blinkTick env led duration stage tmp timerStart s = .ok (.returned true s')
      ∧ s'.switchReads = s.switchReads + 1 ∧ s'.tmpReads = s.tmpReads
      ∧ s'.clock = s.clock + 2000 ∧ s'.getLed led = true
      ∧ ledWrites led s'.writes = ledWrites led s.writes + 1
      ∧ ledValues led s'.writes = ledValues led s.writes ++ [true] := by
  have ht : timerRead timerStart
      (Machine.sleep 1000 { s with switchReads := s.switchReads + 1 })
      = timerRead timerStart s + 1 := by
    rw [timerRead_after timerStart 1000 s _ rfl]; norm_num
  simp only [blinkTick, hsw, ht, if_neg hdone, Bool.not_true, Bool.false_eq_true, if_false,
    displayDigit_one, displayDigit_two, displayDigit_three]
  split_ifs <;> refine ⟨_, rfl, ?_⟩ <;> cases led <;>
    simp [holdOn, Machine.sleep, Machine.setLed, Machine.setSegments, Machine.getLed,
      ledWrites, List.countP_append, ledValues_append, ledValues_nil, ledValues_led,
      ledValues_segments]

/-- The loop of `blinkLED` after `i` Running passes without anomaly and with the switch on: the
indicator has been written `i` times, each time with the negation of the value it showed. -/
theorem blinkLoop_running_passes (env : Inputs) (led : Led) (duration : ℚ) (stage : Char)
    (tmp : ℤ) (i : ℕ) : ∀ (timerStart : ℕ) (s : Machine),
    (∀ k, env.switchButton (s.switchReads + k) = true) →
    (stage = 'w' → ∀ k, tempOutOfRange tmp (tempSample (env.TMP (s.tmpReads + k))) = false) →
    (∀ j : ℕ, j < i → timerRead timerStart s + 1 + 3 / 2 * (j : ℚ) < duration) →
    ∃ si, (∀ fuel, blinkLoop env led duration stage tmp (fuel + i) timerStart s
            = blinkLoop env led duration stage tmp fuel timerStart si)
      ∧ si.switchReads = s.switchReads + i
      ∧ si.tmpReads = s.tmpReads + (if stage = 'w' then i else 0)
      ∧ si.clock = s.clock + 1500 * i
      ∧ ledWrites led si.writes = ledWrites led s.writes + i
      ∧ ledValues led si.writes = ledValues led s.writes ++ toggleValues (s.getLed led) i := by
  induction i with
  | zero =>
    intro t s _ _ _
    exact ⟨s, fun _ => rfl, rfl, by simp, rfl, rfl, by simp [toggleValues]⟩
  | succ i ih =>
    intro t s hsw hquiet hrun
    have hrun0 : timerRead t s + 1 < duration := by
      have := hrun 0 (by omega)
      simpa using this
    obtain ⟨s1, ht, hsw1, htmp1, hclock1, hw1, hv1, hled1⟩ :=
      blinkTick_running_count env led duration stage tmp t s (by simpa using hsw 0) hrun0
        (fun hw => by simpa using hquiet hw 0)
    obtain ⟨si, hloop, hswi, htmpi, hclocki, hwi, hvi⟩ := ih t s1
      (fun k => by
        have := hsw (k + 1)
        rw [hsw1]
        simpa [Nat.add_assoc, Nat.add_comm 1 k] using this)
      (fun hw k => by
        have := hquiet hw (k + 1)
        rw [htmp1, if_pos hw]
        simpa [Nat.add_assoc, Nat.add_comm 1 k] using this)
      (fun j hj => by
        have := hrun (j + 1) (by omega)
        rw [timerRead_after t 1500 s s1 hclock1]
        push_cast at this ⊢
        linarith)
    refine ⟨si, fun fuel => ?_, ?_, ?_, ?_, ?_, ?_⟩
    · rw [show fuel + (i + 1) = (fuel + i) + 1 by omega, blinkLoop, ht]
      exact hloop fuel
    · rw [hswi, hsw1]; omega
    · rw [htmpi, htmp1]; split_ifs <;> omega
    · rw [hclocki, hclock1]; omega
    · rw [hwi, hw1]; omega
    · rw [hvi, hv1, hled1, toggleValues, List.append_assoc, List.singleton_append]

/-- C19: under the nominal timing model, an anomaly-free stage of duration `d` with the safety
switch held on tests the elapsed times 1, 2.5, 4, ... (pass `j` tests `1 + 1.5 (j - 1)`) and
returns Completed at the first pass `k ≥ 1` with `1 + 1.5 (k - 1) ≥ d`: it reads the switch `k`
times, takes `1.5 (k - 1) + 2` seconds, and writes the indicator `k` times, `k - 1` toggles and
the final switching on. The values written to the indicator are, in order, the `k - 1` toggle
values `!b`, `b`, `!b`, ... for an indicator that showed `b` at entry, each the negation of the
value shown before it, and then the value on. -/
theorem stage_completes_at_first_elapsed_pass (env : Inputs) (led : Led) (d : ℚ)
    (stage : Char) (tmp : ℤ) (s : Machine) (k : ℕ)
    (hk : 1 ≤ k)
    (hsw : ∀ i, env.switchButton (s.switchReads + i) = true)
    (hquiet : stage = 'w' →
      ∀ i, tempOutOfRange tmp (tempSample (env.TMP (s.tmpReads + i))) = false)
    (hbefore : ∀ j : ℕ, 1 ≤ j → j < k → 1 + 3 / 2 * ((j : ℚ) - 1) < d)
    (hat : d ≤ 1 + 3 / 2 * ((k : ℚ) - 1)) :
    (∀ j : ℕ, 1 ≤ j → j ≤ k →
        ∃ sj, (∀ fuel, blinkLED env (fuel + (j - 1)) led d stage tmp s
                = blinkLoop env led d stage tmp fuel s.clock sj)
          ∧ timerRead s.clock (sj.sleep 1000) = 1 + 3 / 2 * ((j : ℚ) - 1))
    ∧ ∀ fuel, k ≤ fuel →
        ∃ s', blinkLED env fuel led d stage tmp s = .ok (true, s')
          ∧ s'.switchReads = s.switchReads + k
          ∧ s'.clock = s.clock + 1500 * (k - 1) + 2000
          ∧ ledWrites led s'.writes = ledWrites led s.writes + (k - 1) + 1
          ∧ s'.getLed led = true
          ∧ ledValues led s'.writes
              = ledValues led s.writes ++ toggleValues (s.getLed led) (k - 1) ++ [true] := by
  have h0 : timerRead s.clock s = 0 := by simp [timerRead]
  have hpasses : ∀ i : ℕ, i < k →
      ∃ si, (∀ fuel, blinkLoop env led d stage tmp (fuel + i) s.clock s
              = blinkLoop env led d stage tmp fuel s.clock si)
        ∧ si.switchReads = s.switchReads + i
        ∧ si.tmpReads = s.tmpReads + (if stage = 'w' then i else 0)
        ∧ si.clock = s.clock + 1500 * i
        ∧ ledWrites led si.writes = ledWrites led s.writes + i
        ∧ ledValues led si.writes = ledValues led s.writes ++ toggleValues (s.getLed led) i := by
    intro i hi
    apply blinkLoop_running_passes env led d stage tmp i s.clock s hsw hquiet
    intro j hj
    have := hbefore (j + 1) (by omega) (by omega)
    push_cast at this
    rw [h0]; linarith
  constructor
  · intro j hj1 hjk
    obtain ⟨sj, hloop, _, _, hclock, _, _⟩ := hpasses (j - 1) (by omega)
    refine ⟨sj, fun fuel => hloop fuel, ?_⟩
    have hc : (sj.sleep 1000).clock = s.clock + (1500 * (j - 1) + 1000) := by
      simp [Machine.sleep, hclock]; omega
    rw [timerRead_after s.clock (1500 * (j - 1) + 1000) s _ hc, h0]
    have hj : ((j - 1 : ℕ) : ℚ) = (j : ℚ) - 1 := by
      rw [Nat.cast_sub hj1]; simp
    push_cast
    rw [hj]; ring
  · intro fuel hfuel
    obtain ⟨f, rfl⟩ : ∃ f, fuel = (f + 1) + (k - 1) := ⟨fuel - k, by omega⟩
    obtain ⟨si, hloop, hswi, htmpi, hclocki, hwi, hvi⟩ := hpasses (k - 1) (by omega)
    have hkq : ((k - 1 : ℕ) : ℚ) = (k : ℚ) - 1 := by
      rw [Nat.cast_sub hk]; simp
    have hdone : ¬ timerRead s.clock si + 1 < d := by
      rw [timerRead_after s.clock (1500 * (k - 1)) s si hclocki, h0]
      push_cast
      rw [hkq]
      intro hlt
      linarith
    obtain ⟨s', ht, hsw', _, hclock', hled', hw', hv'⟩ :=
      blinkTick_elapsed_count env led d stage tmp s.clock si
        (by have := hsw (k - 1); rw [hswi]; exact this) hdone
    refine ⟨s', ?_, ?_, ?_, ?_, hled', ?_⟩
    · rw [blinkLED, hloop (f + 1), blinkLoop, ht]
    · rw [hsw', hswi]; omega
    · rw [hclock', hclocki]
    · rw [hw', hwi]
    · rw [hv', hvi]

/-- C19 at the durations 4 s, 11.5 s and 12 s of the rinse-coded stage under a quiet switch-on
input: completion at pass 3 after 2 toggles, at pass 8 and at pass 9. With the indicator off at
entry, the 4 s stage writes it on, off (the two toggles) and on (the final hold). -/
theorem stage_completes_at_first_elapsed_pass_witness :
    ((1 ≤ 3) ∧ (∀ i, twoAnomaliesEnv.switchButton (Machine.init.switchReads + i) = true)
      ∧ (∀ j : ℕ, 1 ≤ j → j < 3 → 1 + 3 / 2 * ((j : ℚ) - 1) < 4)
      ∧ (4 : ℚ) ≤ 1 + 3 / 2 * (((3 : ℕ) : ℚ) - 1))
    ∧ (∃ s', blinkLED twoAnomaliesEnv 3 .led2 4 'r' 30 Machine.init = .ok (true, s')
        ∧ s'.switchReads = Machine.init.switchReads + 3
        ∧ ledWrites .led2 s'.writes = ledWrites .led2 Machine.init.writes + (3 - 1) + 1
        ∧ ledValues .led2 s'.writes = [true, false, true])
    ∧ (∃ s', blinkLED twoAnomaliesEnv 8 .led2 (23 / 2) 'r' 30 Machine.init = .ok (true, s')
        ∧ s'.switchReads = Machine.init.switchReads + 8)
    ∧ (∃ s', blinkLED twoAnomaliesEnv 9 .led2 12 'r' 30 Machine.init = .ok (true, s')
        ∧ s'.switchReads = Machine.init.switchReads + 9) := by
  have hb : ∀ (k : ℕ) (d : ℚ), d > 1 + 3 / 2 * ((k : ℚ) - 2) →
      ∀ j : ℕ, 1 ≤ j → j < k → 1 + 3 / 2 * ((j : ℚ) - 1) < d := by
    intro k d hd j _ hjk
    have : (j : ℚ) + 1 ≤ k := by exact_mod_cast hjk
    linarith
  have hr : ('r' : Char) = 'w' → ∀ i, tempOutOfRange 30
      (tempSample (twoAnomaliesEnv.TMP (Machine.init.tmpReads + i))) = false := by
    intro h; exact absurd h (by decide)
  have h4b := hb 3 4 (by norm_num)
  have h4a : (4 : ℚ) ≤ 1 + 3 / 2 * (((3 : ℕ) : ℚ) - 1) := by norm_num
  obtain ⟨s4, e4, a4, _, c4, _, v4⟩ :=
    (stage_completes_at_first_elapsed_pass twoAnomaliesEnv .led2 4 'r' 30 Machine.init 3
      (by norm_num) (fun _ => rfl) hr h4b h4a).2 3 (le_refl 3)
  obtain ⟨s8, e8, a8, _⟩ :=
    (stage_completes_at_first_elapsed_pass twoAnomaliesEnv .led2 (23 / 2) 'r' 30 Machine.init 8
      (by norm_num) (fun _ => rfl) hr (hb 8 (23 / 2) (by norm_num)) (by norm_num)).2 8
      (le_refl 8)
  obtain ⟨s9, e9, a9, _⟩ :=
    (stage_completes_at_first_elapsed_pass twoAnomaliesEnv .led2 12 'r' 30 Machine.init 9
      (by norm_num) (fun _ => rfl) hr (hb 9 12 (by norm_num)) (by norm_num)).2 9 (le_refl 9)
  exact ⟨⟨by norm_num, fun _ => rfl, h4b, h4a⟩, ⟨s4, e4, a4, c4, by rw [v4]; rfl⟩, ⟨s8, e8, a8⟩,
    ⟨s9, e9, a9⟩⟩

/-! ## A complete cycle -/

/-- A stage started with the switch held on and no anomaly ahead returns Completed, given more
fuel than `m`, where `m + 1` seconds are at least the duration. -/
theorem blinkLED_completes (env : Inputs) (fuel : ℕ) (led : Led) (duration : ℚ) (stage : Char)
    (tmp : ℤ) (s : Machine) (m : ℕ)
    (hsw : ∀ i, env.switchButton i = true)
    (hquiet : ∀ i, tempOutOfRange tmp (tempSample (env.TMP i)) = false)
    (hm : duration ≤ (m : ℚ) + 1) (hfuel : m < fuel) :
    ∃ s', blinkLED env fuel led duration stage tmp s = .ok (true, s') := by
  have h0 : timerRead s.clock s = 0 := by simp [timerRead]
  obtain ⟨r, s', hloop, hr, _, _⟩ :=
    blinkLoop_finishes env led duration stage tmp m fuel s.clock s
      (fun _ k => hquiet _) (by rw [h0]; linarith) hfuel
  have hrt : r = true := hr (fun k => hsw _)
  subst hrt
  exact ⟨s', hloop⟩

/-- C14: with dial band 1 selected at the button press, the safety switch held on and no
temperature anomalies, the supervisor invokes the stage runner three times, in the order wash
(4 s, indicator 1), rinse (3 s, indicator 2), spin (7 s, indicator 3), each with the setpoint 30
and each from the state the one before returned in; all three return Completed, the cycle result
is Completed, and `cycles` returns with it. For every profile 1..5 the switch is the same
sequence of three invocations, wash, rinse, spin, with the setpoint 30 and the durations of the
profile. -/
theorem profile_one_runs_wash_rinse_spin (env : Inputs) (s : Machine)
    (hsw : ∀ i, env.switchButton i = true)
    (hquiet : ∀ i, tempOutOfRange 30 (tempSample (env.TMP i)) = false)
    (hflag : s.cycleComplete = false)
    (hdial : dialOption (env.potentiometer s.potReads) = 1)
    (hbtn : env.cycleButton s.cycleReads = true) :
    (∀ fuel, 7 ≤ fuel →
      ∃ s1 s2 s3,
        blinkLED env fuel .led1 4 'w' 30 (stagesStart 1 s) = .ok (true, s1)
        ∧ blinkLED env fuel .led2 3 'r' 30 s1 = .ok (true, s2)
        ∧ blinkLED env fuel .led3 7 's' 30 s2 = .ok (true, s3)
        ∧ runOption env fuel 1 (stagesStart 1 s) = .ok (true, true, true, s3)
        ∧ cyclesPass env fuel s = .ok (.again { s3 with cycleComplete := true })
        ∧ cycles env (fuel + 1) s = .ok { s3 with cycleComplete := true })
    ∧ (∀ (option : ℤ) (fuel : ℕ) (s0 : Machine), 1 ≤ option ∧ option ≤ 5 →
        runOption env fuel option s0
          = match blinkLED env fuel .led1 (profile option).1 'w' 30 s0 with
            | .error e => .error e
            | .ok (r1, s1) =>
              match blinkLED env fuel .led2 (profile option).2.1 'r' 30 s1 with
              | .error e => .error e
              | .ok (r2, s2) =>
                match blinkLED env fuel .led3 (profile option).2.2 's' 30 s2 with
                | .error e => .error e
                | .ok (r3, s3) => .ok (r1, r2, r3, s3)) := by
  constructor
  · intro fuel hfuel
    obtain ⟨s1, h1⟩ := blinkLED_completes env fuel .led1 4 'w' 30 (stagesStart 1 s) 3 hsw hquiet
      (by norm_num) (by omega)
    obtain ⟨s2, h2⟩ := blinkLED_completes env fuel .led2 3 'r' 30 s1 2 hsw hquiet
      (by norm_num) (by omega)
    obtain ⟨s3, h3⟩ := blinkLED_completes env fuel .led3 7 's' 30 s2 6 hsw hquiet
      (by norm_num) (by omega)
    have hrun : runOption env fuel 1 (stagesStart 1 s) = .ok (true, true, true, s3) := by
      simp only [runOption, if_true, runStages, h1, h2, h3]
    have hpass : cyclesPass env fuel s = .ok (.again { s3 with cycleComplete := true }) := by
      rw [cyclesPass_pressed env fuel s hflag (hsw _) (by rw [hdial]; omega) hbtn, hdial, hrun]
      rfl
    refine ⟨s1, s2, s3, h1, h2, h3, hrun, hpass, ?_⟩
    obtain ⟨f, rfl⟩ : ∃ f, fuel = f + 1 := ⟨fuel - 1, by omega⟩
    rw [cycles, cyclesLoop, hpass]
    simp only
    rw [cyclesLoop]
    simp [cyclesPass]
  · intro option fuel s0 hopt
    rw [runOption_eq_runStages env fuel option s0 hopt]
    rfl

/-- C14 at a concrete cycle: profile 1 under `quietEnv` from the power-on state. -/
theorem profile_one_runs_wash_rinse_spin_witness :
    ((∀ i, quietEnv.switchButton i = true)
      ∧ (∀ i, tempOutOfRange 30 (tempSample (quietEnv.TMP i)) = false)
      ∧ Machine.init.cycleComplete = false
      ∧ dialOption (quietEnv.potentiometer Machine.init.potReads) = 1
      ∧ quietEnv.cycleButton Machine.init.cycleReads = true)
    ∧ ∃ s3, runOption quietEnv 7 1 (stagesStart 1 Machine.init) = .ok (true, true, true, s3)
        ∧ cycles quietEnv 8 Machine.init = .ok { s3 with cycleComplete := true } := by
  have hq : ∀ i, tempOutOfRange 30 (tempSample (quietEnv.TMP i)) = false := by
    intro i
    have h : quietEnv.TMP i = 3 / 32 := rfl
    rw [h, tempSample_30, tempOutOfRange_30_30]
  have hd : dialOption (quietEnv.potentiometer Machine.init.potReads) = 1 := by decide!
  obtain ⟨s1, s2, s3, _, _, _, hrun, _, hc⟩ :=
    (profile_one_runs_wash_rinse_spin quietEnv Machine.init (fun _ => rfl) hq rfl hd rfl).1 7
      (le_refl 7)
  exact ⟨⟨fun _ => rfl, hq, rfl, hd, rfl⟩, s3, hrun, hc⟩

/-! ## One pass of `main` -/

/-- The loop of `load` changes nothing but the clock and the counts of door, switch and force
reads. -/
theorem loadLoop_frame (env : Inputs) : ∀ (fuel : ℕ) (h : ℤ) (s : Machine) (o : Option ℤ)
    (s' : Machine), loadLoop env fuel h s = .ok (o, s') →
    { s' with clock := 0, switchReads := 0, doorReads := 0, fsrReads := 0 }
      = { s with clock := 0, switchReads := 0, doorReads := 0, fsrReads := 0 } := by
  intro fuel
  induction fuel with
  | zero => intro h s o s' hl; simp [loadLoop] at hl
  | succ f ih =>
    intro h s o s' hl
    rw [loadLoop] at hl
    cases hd : env.button_door s.doorReads
    · cases hs : env.switchButton s.switchReads
      · simp only [hd, hs, Bool.false_eq_true, if_false, Bool.not_false, if_true,
          Except.ok.injEq, Prod.mk.injEq] at hl
        obtain ⟨_, rfl⟩ := hl
        rfl
      · simp only [hd, hs, Bool.false_eq_true, if_false, Bool.not_true] at hl
        exact (ih _ _ _ _ hl).trans rfl
    · simp only [hd, if_true, Except.ok.injEq, Prod.mk.injEq] at hl
      obtain ⟨_, rfl⟩ := hl
      rfl

/-- What `load` leaves alone: it reads neither dial, cycle button nor temperature, leaves the
stage indicators and `cycleComplete` as they are, and writes only the display and, when it
returns Safe, the lock. -/
theorem load_frame (env : Inputs) (fuel : ℕ) (s : Machine) (r : Bool) (s1 : Machine)
    (h : load env fuel s = .ok (r, s1)) :
    s1.potReads = s.potReads ∧ s1.cycleReads = s.cycleReads ∧ s1.tmpReads = s.tmpReads
    ∧ s1.led1 = s.led1 ∧ s1.led2 = s.led2 ∧ s1.led3 = s.led3
    ∧ s1.cycleComplete = s.cycleComplete
    ∧ ∃ ws, s1.writes = s.writes ++ ws
        ∧ ∀ w ∈ ws, (w = Write.lock true ∧ r = true) ∨ ∃ v, w = Write.segments v := by
  simp only [load] at h
  cases hl : loadLoop env fuel 0 (s.sleep 1000) with
  | error e => rw [hl] at h; simp at h
  | ok p =>
    obtain ⟨o, s'⟩ := p
    have hf := loadLoop_frame env fuel 0 (s.sleep 1000) o s' hl
    have e1 : s'.potReads = s.potReads := by
      have := congrArg Machine.potReads hf; exact this
    have e2 : s'.cycleReads = s.cycleReads := by
      have := congrArg Machine.cycleReads hf; exact this
    have e3 : s'.tmpReads = s.tmpReads := by
      have := congrArg Machine.tmpReads hf; exact this
    have e4 : s'.led1 = s.led1 := by
      have := congrArg Machine.led1 hf; exact this
    have e5 : s'.led2 = s.led2 := by
      have := congrArg Machine.led2 hf; exact this
    have e6 : s'.led3 = s.led3 := by
      have := congrArg Machine.led3 hf; exact this
    have e7 : s'.cycleComplete = s.cycleComplete := by
      have := congrArg Machine.cycleComplete hf; exact this
    have e8 : s'.writes = s.writes := by
      have := congrArg Machine.writes hf; exact this
    rw [hl] at h
    cases o with
    | none =>
      simp only [Except.ok.injEq, Prod.mk.injEq] at h
      obtain ⟨rfl, rfl⟩ := h
      exact ⟨e1, e2, e3, e4, e5, e6, e7, [], by simp [e8], by simp⟩
    | some hf =>
      by_cases hp : hf > 108
      · simp only [if_pos hp, Except.ok.injEq, Prod.mk.injEq] at h
        obtain ⟨rfl, rfl⟩ := h
        refine ⟨e1, e2, e3, e4, e5, e6, e7,
          [.segments 0x3F, .segments 0x3E, .segments 0x79, .segments 0x50, .segments 0x38,
            .segments 0x3F, .segments 0x77, .segments 0x5E, .segments 0x00, .segments 0x00],
          ?_, ?_⟩
        · simp [displayError, Machine.setSegments, Machine.sleep, e8]
        · intro w hw
          simp only [List.mem_cons, List.mem_singleton, List.not_mem_nil, or_false] at hw
          rcases hw with h | h | h | h | h | h | h | h | h | h <;> exact Or.inr ⟨_, h⟩
      · simp only [if_neg hp, Except.ok.injEq, Prod.mk.injEq] at h
        obtain ⟨rfl, rfl⟩ := h
        refine ⟨e1, e2, e3, e4, e5, e6, e7, [.lock true, .segments 0x00], ?_, ?_⟩
        · simp [Machine.setSegments, Machine.setLock, e8]
        · intro w hw
          simp only [List.mem_cons, List.mem_singleton, List.not_mem_nil, or_false] at hw
          rcases hw with h | h
          · exact Or.inl ⟨h, rfl⟩
          · exact Or.inr ⟨_, h⟩

/-- A pass of `main` that reads the switch on. -/
theorem mainPass_on (env : Inputs) (fuel : ℕ) (machineOn : Bool) (s : Machine)
    (hsw : env.switchButton s.switchReads = true) :
    mainPass env fuel machineOn s
      = match load env fuel (mainLoadStart s) with
        | .error e => .error e
        | .ok (true, s) =>
          match cycles env fuel s with
          | .error e => .error e
          | .ok s =>
            if s.cycleComplete then
              match playMelody env fuel s with
              | .error e => .error e
              | .ok s => .ok (true, clearIndicators s)
            else .ok (true, clearIndicators s)
        | .ok (false, s) => .ok (true, clearIndicators s) := by
  cases machineOn <;> simp only [mainPass, hsw, mainLoadStart, if_true, Bool.not_false,
    Bool.not_true, Bool.false_eq_true, if_false]

/-- A pass of `main` that reads the switch off. -/
theorem mainPass_off (env : Inputs) (fuel : ℕ) (machineOn : Bool) (s : Machine)
    (hsw : env.switchButton s.switchReads = false) :
    mainPass env fuel machineOn s
      = .ok (false, (clearIndicators (pwmWrite .blue_LED 0 (pwmWrite .green_LED 0
          (pwmWrite .red_LED 0
            { s with switchReads := s.switchReads + 1, cycleComplete := false })))).sleep
              100) := by
  cases machineOn <;> simp only [mainPass, hsw, Bool.false_eq_true, if_false, if_true]

/-- C11: in every pass of `main` in which `load` does not return Safe (it returns `false`:
Overloaded or Aborted), `cycles` is not invoked, no stage is run and no melody is requested: the
pass ends with the state `load` returned in, followed only by the five writes that clear the lock,
the stage indicators and the display; the dial, the cycle button and the temperature sensor are
not read, and the writes of the pass are the three status-LED writes, display writes of `load`,
and the clearing writes. In a pass that reads the switch off, `load` is not called and nothing is
read either. -/
theorem no_cycle_unless_load_safe (env : Inputs) (fuel : ℕ) (machineOn : Bool) (s s1 : Machine)
    (hsw : env.switchButton s.switchReads = true)
    (hload : load env fuel (mainLoadStart s) = .ok (false, s1)) :
    mainPass env fuel machineOn s = .ok (true, clearIndicators s1)
    ∧ (clearIndicators s1).potReads = s.potReads
    ∧ (clearIndicators s1).cycleReads = s.cycleReads
    ∧ (clearIndicators s1).tmpReads = s.tmpReads
    ∧ (clearIndicators s1).clock = s1.clock
    ∧ (∃ ws, (clearIndicators s1).writes
          = s.writes ++ [Write.pwm .red_LED 0, Write.pwm .green_LED 1, Write.pwm .blue_LED 0]
              ++ ws ++ [Write.lock false, Write.led .led1 false, Write.led .led2 false,
                Write.led .led3 false, Write.segments 0]
        ∧ ∀ w ∈ ws, ∃ v, w = Write.segments v)
    ∧ (∀ s0 : Machine, env.switchButton s0.switchReads = false →
        ∃ s2, mainPass env fuel machineOn s0 = .ok (false, s2)
          ∧ s2.potReads = s0.potReads ∧ s2.cycleReads = s0.cycleReads
          ∧ s2.tmpReads = s0.tmpReads ∧ s2.doorReads = s0.doorReads
          ∧ s2.fsrReads = s0.fsrReads ∧ s2.cycleComplete = false) := by
  obtain ⟨e1, e2, e3, _, _, _, _, ws, hws, hw⟩ := load_frame env fuel _ false s1 hload
  refine ⟨?_, ?_, ?_, ?_, rfl, ⟨ws, ?_, ?_⟩, ?_⟩
  · rw [mainPass_on env fuel machineOn s hsw, hload]
  · simpa [clearIndicators, Machine.setSegments, Machine.setLed, Machine.setLock,
      mainLoadStart, pwmWrite] using e1
  · simpa [clearIndicators, Machine.setSegments, Machine.setLed, Machine.setLock,
      mainLoadStart, pwmWrite] using e2
  · simpa [clearIndicators, Machine.setSegments, Machine.setLed, Machine.setLock,
      mainLoadStart, pwmWrite] using e3
  · simp [clearIndicators, Machine.setSegments, Machine.setLed, Machine.setLock, hws,
      mainLoadStart, pwmWrite]
  · intro w hmem
    rcases hw w hmem with ⟨_, h⟩ | h
    · cases h
    · exact h
  · intro s0 h0
    refine ⟨_, mainPass_off env fuel machineOn s0 h0, ?_⟩
    simp [clearIndicators, Machine.setSegments, Machine.setLed, Machine.setLock, pwmWrite,
      Machine.sleep]

/-- C11 at a concrete pass: under `heavyEnv` the peak force is 115, `load` shows the error text
and returns Overloaded, and the pass ends after the clearing writes. -/
theorem no_cycle_unless_load_safe_witness :
    (heavyEnv.switchButton Machine.init.switchReads = true
      ∧ load heavyEnv 3 (mainLoadStart Machine.init) = .ok (false, overloadShown))
    ∧ peakForce heavyEnv Machine.init.fsrReads 1 = 115
    ∧ mainPass heavyEnv 3 false Machine.init = .ok (true, clearIndicators overloadShown)
    ∧ (clearIndicators overloadShown).potReads = 0
    ∧ (clearIndicators overloadShown).tmpReads = 0 := by
  have hl : load heavyEnv 3 (mainLoadStart Machine.init) = .ok (false, overloadShown) := by
    decide!
  obtain ⟨h, hp, _, ht, _⟩ :=
    no_cycle_unless_load_safe heavyEnv 3 false Machine.init overloadShown rfl hl
  exact ⟨⟨rfl, hl⟩, by decide!, h, hp, ht⟩

/-! ## A flag left set -/

/-- The melody loop ends at its first test, leaving `cycleComplete` as it is, when the switch
reads off. -/
theorem playMelody_switch_off (env : Inputs) (fuel : ℕ) (s : Machine)
    (hsw : env.switchButton s.switchReads = false) :
    playMelody env (fuel + 1) s = .ok { s with switchReads := s.switchReads + 1 } := by
  simp [playMelody, hsw]

/-- The melody loop ends at its first test, leaving `cycleComplete` as it is, when the door
button reads pressed there. -/
theorem playMelody_door_pressed (env : Inputs) (fuel : ℕ) (s : Machine)
    (hsw : env.switchButton s.switchReads = true) (hdoor : env.button_door s.doorReads = true) :
    playMelody env (fuel + 1) s
      = .ok { s with switchReads := s.switchReads + 1, doorReads := s.doorReads + 1 } := by
  simp [playMelody, hsw, hdoor]

/-- With the door closed at its first poll `load` returns Safe. -/
theorem load_closed_at_once (env : Inputs) (fuel : ℕ) (s : Machine)
    (h : env.button_door s.doorReads = true) :
    ∃ s1, load env (fuel + 1) s = .ok (true, s1) := by
  have hl : loadLoop env (fuel + 1) 0 (s.sleep 1000)
      = .ok (some 0, { s.sleep 1000 with doorReads := s.doorReads + 1 }) := by
    simp [loadLoop, h, Machine.sleep]
  unfold load
  simp only [hl]
  rw [if_neg (by norm_num)]
  exact ⟨_, rfl⟩

/-- C17: the cycle-complete flag is not reset when a cycle starts. A call of `cycles` entered
with `cycleComplete` already set returns at the loop test with the state unchanged: no stage is
run, neither dial nor button nor switch is read, and `cycleComplete` is still set. A pass of
`main` that reads the switch on and gets Safe from `load` in such a state therefore goes on to
`playMelody` as after a completed cycle, although no stage ran. The flag can be left set by the
melody loop, which ends without clearing it when its test reads the switch off or the door button
pressed. -/
theorem leftover_flag_skips_cycle (env : Inputs) (fuel : ℕ) (machineOn : Bool) (s : Machine)
    (hflag : s.cycleComplete = true) :
    cyclesPass env fuel s = .ok (.returned s)
    ∧ cycles env (fuel + 1) s = .ok s
    ∧ (∀ s1, env.switchButton s.switchReads = true →
        load env (fuel + 1) (mainLoadStart s) = .ok (true, s1) →
        s1.cycleComplete = true
        ∧ cycles env (fuel + 1) s1 = .ok s1
        ∧ mainPass env (fuel + 1) machineOn s
            = match playMelody env (fuel + 1) s1 with
              | .error e => .error e
              | .ok s2 => .ok (true, clearIndicators s2))
    ∧ (∀ s0 : Machine, env.switchButton s0.switchReads = false →
        playMelody env (fuel + 1) s0 = .ok { s0 with switchReads := s0.switchReads + 1 })
    ∧ (∀ s0 : Machine, env.switchButton s0.switchReads = true →
        env.button_door s0.doorReads = true →
        playMelody env (fuel + 1) s0
          = .ok { s0 with switchReads := s0.switchReads + 1,
                          doorReads := s0.doorReads + 1 }) := by
  have hpass : ∀ (f : ℕ) (x : Machine), x.cycleComplete = true →
      cyclesPass env f x = .ok (.returned x) := by
    intro f x hx
    simp [cyclesPass, hx]
  have hcyc : ∀ x : Machine, x.cycleComplete = true → cycles env (fuel + 1) x = .ok x := by
    intro x hx
    rw [cycles, cyclesLoop, hpass fuel x hx]
  refine ⟨hpass fuel s hflag, hcyc s hflag, ?_, ?_, ?_⟩
  · intro s1 hsw hload
    have hf : s1.cycleComplete = true := by
      rw [(load_frame env (fuel + 1) _ true s1 hload).2.2.2.2.2.2.1]
      exact hflag
    refine ⟨hf, hcyc s1 hf, ?_⟩
    rw [mainPass_on env (fuel + 1) machineOn s hsw, hload]
    simp only [hcyc s1 hf, hf, if_true]
  · intro s0 h0
    exact playMelody_switch_off env fuel s0 h0
  · intro s0 h0 hd
    exact playMelody_door_pressed env fuel s0 h0 hd

/-- C17 at a concrete run of `main` under `quietEnv`: the first pass ends with `cycleComplete`
left set by the melody loop; in the second pass `cycles` returns at once and the pass ends as a
completed one, with no further temperature sample, dial read or button read. -/
theorem leftover_flag_skips_cycle_witness :
    mainLoop quietEnv 8 1 false Machine.init = .ok (true, melodyLeftOver)
    ∧ melodyLeftOver.cycleComplete = true
    ∧ cycles quietEnv 8 melodyLeftOver = .ok melodyLeftOver
    ∧ ∃ s2, mainPass quietEnv 8 true melodyLeftOver = .ok (true, s2)
        ∧ s2.cycleComplete = true
        ∧ s2.tmpReads = melodyLeftOver.tmpReads
        ∧ s2.potReads = melodyLeftOver.potReads
        ∧ s2.cycleReads = melodyLeftOver.cycleReads := by
  obtain ⟨_, hc, hmain, _, hdoor⟩ :=
    leftover_flag_skips_cycle quietEnv 7 true melodyLeftOver rfl
  obtain ⟨s1, hload⟩ := load_closed_at_once quietEnv 7 (mainLoadStart melodyLeftOver) rfl
  obtain ⟨hf, _, hpass⟩ := hmain s1 rfl hload
  obtain ⟨e1, e2, e3, _⟩ := load_frame quietEnv (7 + 1) _ true s1 hload
  refine ⟨by decide!, rfl, hc, ?_⟩
  rw [hpass, hdoor s1 rfl rfl]
  exact ⟨_, rfl, hf, e3, e1, e2⟩

end WashingMachine
